import Mathlib

/-!
# hard_infinity: ordering and progress engine

A shallow embedding of the request handlers of `server/internal/handlers`
(`sections.go`, `tasks.go`, `entries.go`, `challenges.go`, `measurements.go`)
together with the properties of the ordered sibling sets, the day ledger, the
challenge life cycle and the streak aggregator.

Modelling conventions.

* The relational store is a record of tables, each table a list of rows in
  storage order.  An SQL `UPDATE ... WHERE p` is a `List.map` that rewrites the
  rows satisfying `p`, a `DELETE ... WHERE p` is a `List.filter`, and
  `QueryRow(...).Scan` yields the first matching row or fails when there is none.
  Statements themselves do not fail, except in the handlers that take a failure
  oracle `fails`: there the statements are numbered in execution order and
  statement `i` reports an error when `fails i` holds.
* A handler maps the store, the caller, the URL parameter and the decoded body
  to a reply and the store after the call.  Every write of a handler happens
  inside one transaction with a deferred rollback, so a reply other than
  success leaves the store as it was.
* Routing, authentication and JSON decoding are outside the handlers: the URL
  parameter, the caller identity found in the request context and the decoded
  body are inputs of a handler.
* Identifiers are natural numbers standing for UUIDs; `uuid.New()` is an input
  of the handler.  Timestamps and floating point columns are left out.
* Go `int` values and integer columns that hold order indexes and day numbers
  are modelled in `Int`; counters that start at zero and only count rows
  (`streak`, `COUNT(*)`) are modelled in `Nat`.  Where a request number reaches
  an `int` field of the reorder, task and challenge bodies, the range of Go's
  64-bit `int` is explicit (`IsGoInt`): a number outside it makes the decoding
  of the body fail.  The sum `maxOrder + 1` of `CreateTask` is exact in
  `CreateTask` and Go's wrapping sum (`goAdd`) in `CreateTaskInt64`.  The width
  of the integer columns is not part of the sources and arithmetic inside SQL
  statements is exact.
-/

namespace HardInfinity

/-! ## Data model (`models/models.go`) -/

abbrev UUID := Nat

/-- Row of `users`. -/
structure User where
  ID : UUID
  ClerkID : String
  deriving DecidableEq, Repr

/-- Row of `challenges`. -/
structure Challenge where
  ID : UUID
  UserID : UUID
  Name : String
  Description : String
  CurrentDay : Int
  Status : String
  deriving DecidableEq, Repr

/-- Row of `sections`. -/
structure Section where
  ID : UUID
  ChallengeID : UUID
  Name : String
  Description : String
  Order : Int
  deriving DecidableEq, Repr

/-- Row of `tasks`. -/
structure Task where
  ID : UUID
  SectionID : UUID
  Name : String
  Description : String
  TaskType : String
  Required : Bool
  RestartOnFail : Bool
  StrikesEnabled : Bool
  StrikesLimit : Int
  Order : Int
  deriving DecidableEq, Repr

/-- Row of `daily_entries`. -/
structure DailyEntry where
  ID : UUID
  ChallengeID : UUID
  DayNumber : Int
  Completed : Bool
  Notes : String
  ProgressPhotoURL : String
  EnergyLevel : Int
  MoodLevel : Int
  deriving DecidableEq, Repr

/-- Row of `task_entries`; `Value` is the JSON text of the value column. -/
structure TaskEntry where
  ID : UUID
  DailyEntryID : UUID
  TaskID : UUID
  Completed : Bool
  Value : String
  Notes : String
  deriving DecidableEq, Repr

/-- Row of `measurements` (the numeric body metrics are left out). -/
structure Measurement where
  ID : UUID
  ChallengeID : UUID
  DayNumber : Int
  deriving DecidableEq, Repr

/-- The store: one list of rows per relation. -/
structure DB where
  users : List User
  challenges : List Challenge
  sections : List Section
  tasks : List Task
  daily_entries : List DailyEntry
  task_entries : List TaskEntry
  measurements : List Measurement
  deriving DecidableEq, Repr

/-- What a handler writes to the response: `utils.Success` with a status code,
`utils.Error` with a status code and a message, or a run-time panic of the
handler (a failed type assertion). -/
inductive Reply where
  | success (code : Nat)
  | failure (code : Nat) (message : String)
  | crash
  deriving DecidableEq, Repr

/-- The text of an identifier (a URL parameter, a `task_id` of a request body) as
the handlers observe it: the empty string, a text that `uuid.Parse` rejects, or
the text of a UUID. -/
inductive IDText where
  | empty
  | malformed
  | valid (u : UUID)
  deriving DecidableEq, Repr

/-- Model of `uuid.Parse`. -/
def uuidParse : IDText → Option UUID
  | .empty => none
  | .malformed => none
  | .valid u => some u

/-! ## Go integers -/

/-- The least value of Go's `int` (64 bits). -/
def goIntMin : Int := -9223372036854775808

/-- The greatest value of Go's `int` (64 bits). -/
def goIntMax : Int := 9223372036854775807

/-- The integer is a value of Go's `int`.  `json.Decoder.Decode` refuses a JSON
number outside this range for an `int` field, so that the handler answers with
its "Invalid request body" error. -/
def IsGoInt (x : Int) : Prop := goIntMin ≤ x ∧ x ≤ goIntMax

instance (x : Int) : Decidable (IsGoInt x) := by
  unfold IsGoInt; infer_instance

/-- Go's `+` on `int`: the sum wraps around modulo `2^64`. -/
def goAdd (a b : Int) : Int :=
  (a + b - goIntMin) % 18446744073709551616 + goIntMin

/-! ## Ownership helpers (`sections.go`, `tasks.go`) -/

/-- Model of `validateSectionOwnership`: the parameter parses and the join
`sections ⋈ challenges ⋈ users` has a row for this section and this Clerk id.
`true` stands for a `nil` error. -/
def validateSectionOwnership (db : DB) (sectionID : IDText) (userID : String) : Bool :=
  match uuidParse sectionID with
  | none => false
  | some sid =>
    let count := (db.sections.flatMap fun s => db.challenges.flatMap fun c =>
      db.users.filter fun u =>
        s.ID = sid ∧ s.ChallengeID = c.ID ∧ c.UserID = u.ID ∧ u.ClerkID = userID).length
    count != 0

/-- Model of `validateTaskOwnership`: the parameter parses and the join
`tasks ⋈ sections ⋈ challenges ⋈ users` has a row for this task and this
Clerk id. -/
def validateTaskOwnership (db : DB) (taskID : IDText) (userID : String) : Bool :=
  match uuidParse taskID with
  | none => false
  | some tid =>
    let count := (db.tasks.flatMap fun t => db.sections.flatMap fun s =>
      db.challenges.flatMap fun c => db.users.filter fun u =>
        t.ID = tid ∧ t.SectionID = s.ID ∧ s.ChallengeID = c.ID ∧ c.UserID = u.ID
          ∧ u.ClerkID = userID).length
    count != 0

/-! ## Tasks (`tasks.go`) -/

structure CreateTaskRequest where
  Name : String
  Description : String
  TaskType : String
  Required : Bool
  RestartOnFail : Bool
  StrikesEnabled : Bool
  StrikesLimit : Int
  Order : Int
  deriving DecidableEq, Repr

structure ReorderTaskRequest where
  Order : Int
  deriving DecidableEq, Repr

/-- The query `SELECT COALESCE(MAX("order"), 0) FROM tasks WHERE section_id = $1`. -/
def maxTaskOrder (db : DB) (sectionID : UUID) : Int :=
  match ((db.tasks.filter fun t => t.SectionID = sectionID).map fun t => t.Order) with
  | [] => 0
  | o :: os => os.foldl max o

/-- Model of `CreateTask`; `body` is the decoded request (`none` when decoding
fails) and `newID` the value of `uuid.New()`.  The numbers are exact integers
here; `CreateTaskInt64` is the same handler with the range of Go's `int`. -/
def CreateTask (db : DB) (caller : Option String) (sectionID : IDText)
    (body : Option CreateTaskRequest) (newID : UUID) : Reply × DB :=
  match caller with
  | none => (.failure 401 "User not authenticated", db)
  | some userID =>
    if validateSectionOwnership db sectionID userID = false then
      (.failure 404 "Section not found", db)
    else
    match body with
    | none => (.failure 400 "Invalid request body", db)
    | some req =>
      if req.Name = "" then (.failure 400 "Task name is required", db)
      else if req.TaskType = "" then (.failure 400 "Task type is required", db)
      else
      let strikesLimit :=
        if req.StrikesEnabled ∧ req.StrikesLimit ≤ 0 then 3 else req.StrikesLimit
      -- the statements below receive the parameter text as the section id
      match uuidParse sectionID with
      | none => (.failure 500 "Failed to determine task order", db)
      | some sid =>
        let order := if req.Order ≤ 0 then maxTaskOrder db sid + 1 else req.Order
        let task : Task :=
          { ID := newID, SectionID := sid, Name := req.Name, Description := req.Description,
            TaskType := req.TaskType, Required := req.Required,
            RestartOnFail := req.RestartOnFail, StrikesEnabled := req.StrikesEnabled,
            StrikesLimit := strikesLimit, Order := order }
        (.success 201, { db with tasks := db.tasks ++ [task] })

/-- The query `SELECT section_id, "order" FROM tasks WHERE id = $1`. -/
def selectTask (db : DB) (taskID : IDText) : Option Task :=
  db.tasks.find? fun t => uuidParse taskID = some t.ID

/-- Model of `DeleteTask`: delete the row, then close the gap among the tasks of
its section. -/
def DeleteTask (db : DB) (caller : Option String) (taskID : IDText) : Reply × DB :=
  match caller with
  | none => (.failure 401 "User not authenticated", db)
  | some userID =>
    if validateTaskOwnership db taskID userID = false then
      (.failure 404 "Task not found", db)
    else
    match selectTask db taskID with
    | none => (.failure 500 "Failed to get task info", db)
    | some row =>
      let sectionID := row.SectionID
      let currentOrder := row.Order
      -- DELETE FROM tasks WHERE id = $1
      let deleted := db.tasks.filter fun t => ¬ (uuidParse taskID = some t.ID)
      -- UPDATE tasks SET "order" = "order" - 1 WHERE section_id = $1 AND "order" > $2
      let shifted := deleted.map fun t =>
        if t.SectionID = sectionID ∧ t.Order > currentOrder then { t with Order := t.Order - 1 }
        else t
      (.success 200, { db with tasks := shifted })

/-- Model of `ReorderTask`: shift the siblings between the two positions, then
write the requested order on the task.  The body is the decoded JSON object with
its number as an integer; the `int` field `Order` of `ReorderTaskRequest` holds
it only when it is a value of Go's `int`. -/
def ReorderTask (db : DB) (caller : Option String) (taskID : IDText)
    (body : Option ReorderTaskRequest) : Reply × DB :=
  match caller with
  | none => (.failure 401 "User not authenticated", db)
  | some userID =>
    if validateTaskOwnership db taskID userID = false then
      (.failure 404 "Task not found", db)
    else
    match body with
    | none => (.failure 400 "Invalid request body", db)
    | some req =>
      -- a number that the `int` field does not hold makes `Decode` fail
      if ¬ IsGoInt req.Order then (.failure 400 "Invalid request body", db)
      else if req.Order ≤ 0 then (.failure 400 "Order must be a positive integer", db)
      else
      match selectTask db taskID with
      | none => (.failure 500 "Failed to get task info", db)
      | some row =>
        let sectionID := row.SectionID
        let currentOrder := row.Order
        if req.Order < currentOrder then
          let shifted := db.tasks.map fun t =>
            if t.SectionID = sectionID ∧ t.Order ≥ req.Order ∧ t.Order < currentOrder then
              { t with Order := t.Order + 1 }
            else t
          let moved := shifted.map fun t =>
            if uuidParse taskID = some t.ID then { t with Order := req.Order } else t
          (.success 200, { db with tasks := moved })
        else if req.Order > currentOrder then
          let shifted := db.tasks.map fun t =>
            if t.SectionID = sectionID ∧ t.Order > currentOrder ∧ t.Order ≤ req.Order then
              { t with Order := t.Order - 1 }
            else t
          let moved := shifted.map fun t =>
            if uuidParse taskID = some t.ID then { t with Order := req.Order } else t
          (.success 200, { db with tasks := moved })
        else
          (.success 200, db)

/-! ## Sections (`sections.go`) -/

structure ReorderSectionRequest where
  Order : Int
  deriving DecidableEq, Repr

/-- Model of `DeleteSection`: delete the tasks of the section, then the section. -/
def DeleteSection (db : DB) (caller : Option String) (sectionID : IDText) : Reply × DB :=
  match caller with
  | none => (.failure 401 "User not authenticated", db)
  | some userID =>
    if validateSectionOwnership db sectionID userID = false then
      (.failure 404 "Section not found", db)
    else
      -- DELETE FROM tasks WHERE section_id = $1
      let tasks := db.tasks.filter fun t => ¬ (uuidParse sectionID = some t.SectionID)
      -- DELETE FROM sections WHERE id = $1
      let sections := db.sections.filter fun s => ¬ (uuidParse sectionID = some s.ID)
      (.success 200, { db with tasks := tasks, sections := sections })

/-- The queries `SELECT challenge_id FROM sections WHERE id = $1` and
`SELECT "order" FROM sections WHERE id = $1`: the row they read. -/
def selectSection (db : DB) (sectionID : IDText) : Option Section :=
  db.sections.find? fun s => uuidParse sectionID = some s.ID

/-- Model of `ReorderSection`: shift the siblings between the two positions,
then write the requested order on the section.  The body is the decoded JSON
object with its number as an integer; the `int` field `Order` of
`ReorderSectionRequest` holds it only when it is a value of Go's `int`. -/
def ReorderSection (db : DB) (caller : Option String) (sectionID : IDText)
    (body : Option ReorderSectionRequest) : Reply × DB :=
  match caller with
  | none => (.failure 401 "User not authenticated", db)
  | some userID =>
    if validateSectionOwnership db sectionID userID = false then
      (.failure 404 "Section not found", db)
    else
    match body with
    | none => (.failure 400 "Invalid request body", db)
    | some req =>
      -- a number that the `int` field does not hold makes `Decode` fail
      if ¬ IsGoInt req.Order then (.failure 400 "Invalid request body", db)
      else if req.Order ≤ 0 then (.failure 400 "Order must be a positive integer", db)
      else
      match selectSection db sectionID with
      | none => (.failure 500 "Failed to get section info", db)
      | some row =>
        let challengeID := row.ChallengeID
        let currentOrder := row.Order
        if req.Order < currentOrder then
          let shifted := db.sections.map fun s =>
            if s.ChallengeID = challengeID ∧ s.Order ≥ req.Order ∧ s.Order < currentOrder then
              { s with Order := s.Order + 1 }
            else s
          let moved := shifted.map fun s =>
            if uuidParse sectionID = some s.ID then { s with Order := req.Order } else s
          (.success 200, { db with sections := moved })
        else if req.Order > currentOrder then
          let shifted := db.sections.map fun s =>
            if s.ChallengeID = challengeID ∧ s.Order > currentOrder ∧ s.Order ≤ req.Order then
              { s with Order := s.Order - 1 }
            else s
          let moved := shifted.map fun s =>
            if uuidParse sectionID = some s.ID then { s with Order := req.Order } else s
          (.success 200, { db with sections := moved })
        else
          (.success 200, db)

/-! ## Daily entries (`entries.go`) -/

/-- One element of `task_entries` in a request body.  `task_id` is `none` when
the key is absent or is not a JSON string (the assertion `.(string)` then
panics); `completed` and `notes` are read with the two-valued assertion, which
yields the zero value when the key is absent; `value` is the JSON text produced
by `json.Marshal`. -/
structure TaskEntryData where
  task_id : Option IDText
  completed : Bool
  notes : String
  value : String
  deriving DecidableEq, Repr

/-- The decoded body of the two entry handlers. -/
structure EntryData where
  Completed : Bool
  Notes : String
  ProgressPhotoURL : String
  EnergyLevel : Int
  MoodLevel : Int
  TaskEntries : List TaskEntryData
  deriving DecidableEq, Repr

/-- The loop `for _, taskEntryData := range entryData.TaskEntries` run on the
`task_entries` table: every element is written to the record keyed by
`(daily_entry_id, task_id)`, which is updated when it exists and inserted
otherwise.  `k` counts the calls of `uuid.New()` made so far in the request and
`newUUID k` is the value of the next one. -/
def saveTaskEntries (entryID : UUID) (newUUID : Nat → UUID) :
    List TaskEntryData → Nat → List TaskEntry → Except Reply (List TaskEntry)
  | [], _, table => .ok table
  | td :: rest, k, table =>
    match td.task_id with
    | none => .error .crash
    | some text =>
      match uuidParse text with
      | none => .error (.failure 400 "Invalid task ID in task entries")
      | some taskID =>
        match table.find? fun te => te.DailyEntryID = entryID ∧ te.TaskID = taskID with
        | some found =>
          saveTaskEntries entryID newUUID rest k (table.map fun te =>
            if te.ID = found.ID then
              { te with Completed := td.completed, Value := td.value, Notes := td.notes }
            else te)
        | none =>
          saveTaskEntries entryID newUUID rest (k + 1) (table ++
            [{ ID := newUUID k, DailyEntryID := entryID, TaskID := taskID,
               Completed := td.completed, Value := td.value, Notes := td.notes }])

/-- The query `SELECT id FROM daily_entries WHERE challenge_id = $1 AND
day_number = $2`: the row it reads. -/
def selectDailyEntry (db : DB) (challengeID : UUID) (dayNumber : Int) : Option DailyEntry :=
  db.daily_entries.find? fun e => e.ChallengeID = challengeID ∧ e.DayNumber = dayNumber

/-- The statement `UPDATE daily_entries SET completed = $1, ... WHERE id = $6`. -/
def updateDailyEntryRow (rows : List DailyEntry) (entryID : UUID) (entryData : EntryData) :
    List DailyEntry :=
  rows.map fun d =>
    if d.ID = entryID then
      { d with Completed := entryData.Completed, Notes := entryData.Notes,
               ProgressPhotoURL := entryData.ProgressPhotoURL,
               EnergyLevel := entryData.EnergyLevel, MoodLevel := entryData.MoodLevel }
    else d

/-- The statement `INSERT INTO daily_entries (...) VALUES (...)`. -/
def insertDailyEntryRow (rows : List DailyEntry) (entryID challengeID : UUID) (dayNumber : Int)
    (entryData : EntryData) : List DailyEntry :=
  rows ++ [{ ID := entryID, ChallengeID := challengeID, DayNumber := dayNumber,
             Completed := entryData.Completed, Notes := entryData.Notes,
             ProgressPhotoURL := entryData.ProgressPhotoURL,
             EnergyLevel := entryData.EnergyLevel, MoodLevel := entryData.MoodLevel }]

/-- The statement `UPDATE challenges SET current_day = current_day + 1 WHERE
id = $1`. -/
def incrementCurrentDay (rows : List Challenge) (challengeID : UUID) : List Challenge :=
  rows.map fun c => if c.ID = challengeID then { c with CurrentDay := c.CurrentDay + 1 } else c

/-- The part of `CreateOrUpdateTodayEntry` that follows the write of the daily
entry: the task entries are saved, the day is advanced when the entry is
completed and did not exist before (`entryData.Completed && !exists`), and the
transaction is committed.  `daily` is the `daily_entries` table after the write
and `entryID` the identifier of the entry written. -/
def finishTodayEntry (db : DB) (challengeID : UUID) (entryData : EntryData)
    (newUUID : Nat → UUID) (existed : Bool) (entryID : UUID) (daily : List DailyEntry) :
    Reply × DB :=
  match saveTaskEntries entryID newUUID entryData.TaskEntries (if existed then 0 else 1)
      db.task_entries with
  | .error reply => (reply, db)
  | .ok taskEntries =>
    let challenges :=
      if entryData.Completed ∧ existed = false then incrementCurrentDay db.challenges challengeID
      else db.challenges
    (.success 200,
      { db with challenges := challenges, daily_entries := daily, task_entries := taskEntries })

/-- Model of `CreateOrUpdateTodayEntry`.  `ctxUserID` is the value stored under
`"userID"` in the request context when it is a `uuid.UUID` (`none` otherwise:
the type assertion panics); `newUUID k` is the value of the `k`-th call of
`uuid.New()` in the request. -/
def CreateOrUpdateTodayEntry (db : DB) (challengeID : IDText) (ctxUserID : Option UUID)
    (body : Option EntryData) (newUUID : Nat → UUID) : Reply × DB :=
  match uuidParse challengeID with
  | none => (.failure 400 "Invalid challenge ID", db)
  | some cid =>
    match ctxUserID with
    | none => (.crash, db)
    | some userID =>
      match db.challenges.find? fun c => c.ID = cid with
      | none => (.failure 404 "Challenge not found", db)
      | some challenge =>
        if challenge.UserID ≠ userID then
          (.failure 403 "You don't have access to this challenge", db)
        else if challenge.Status ≠ "active" then
          (.failure 400 "Can only add entries to active challenges", db)
        else
        match body with
        | none => (.failure 400 "Invalid request body", db)
        | some entryData =>
          let dayNumber := challenge.CurrentDay
          match selectDailyEntry db cid dayNumber with
          | some e =>
            finishTodayEntry db cid entryData newUUID true e.ID
              (updateDailyEntryRow db.daily_entries e.ID entryData)
          | none =>
            finishTodayEntry db cid entryData newUUID false (newUUID 0)
              (insertDailyEntryRow db.daily_entries (newUUID 0) cid dayNumber entryData)

/-! ## Progress (`challenges.go`) -/

/-- A scanned row of the streak query: `(day_number, completed)`. -/
structure ProgressEntry where
  DayNumber : Int
  Completed : Bool
  deriving DecidableEq, Repr

/-- The three variables of the streak loop of `GetChallengeProgress`. -/
structure StreakState where
  streak : Nat
  longestStreak : Nat
  currentStreak : Nat
  deriving DecidableEq, Repr

/-- One iteration of the loop `for i, entry := range entries`; `next` is
`entries[i+1]`, absent when `i == len(entries)-1`. -/
def streakStep (st : StreakState) (entry : ProgressEntry) (next : Option ProgressEntry) :
    StreakState :=
  let counted : StreakState :=
    if entry.Completed then
      { st with streak := st.streak + 1,
                longestStreak :=
                  if st.streak + 1 > st.longestStreak then st.streak + 1 else st.longestStreak }
    else { st with streak := 0 }
  let atBoundary : Bool :=
    match next with
    | none => true
    | some nx => nx.DayNumber > entry.DayNumber + 1
  if atBoundary then
    if entry.Completed ∧ counted.streak > 0 then { counted with currentStreak := counted.streak }
    else counted
  else counted

/-- The streak loop of `GetChallengeProgress` from a given state. -/
def calculateStreaks : List ProgressEntry → StreakState → StreakState
  | [], st => st
  | entry :: rest, st => calculateStreaks rest (streakStep st entry rest.head?)

/-- The progress response (`completion_rate`, a float, is left out). -/
structure Progress where
  TotalDays : Nat
  CurrentDay : Int
  CompletedDays : Nat
  CurrentStreak : Nat
  LongestStreak : Nat
  Status : String
  deriving DecidableEq, Repr

/-- The streak query: the entries of the challenge `ORDER BY day_number ASC`. -/
def streakRows (db : DB) (challengeID : UUID) : List ProgressEntry :=
  ((db.daily_entries.filter fun e => e.ChallengeID = challengeID).insertionSort
    fun a b => a.DayNumber ≤ b.DayNumber).map fun e => ⟨e.DayNumber, e.Completed⟩

/-- The progress figures computed from the scanned rows and the completed-days
count. -/
def progressOf (challenge : Challenge) (completedDays : Nat) (entries : List ProgressEntry) :
    Progress :=
  let st := calculateStreaks entries ⟨0, 0, 0⟩
  { TotalDays := 75, CurrentDay := challenge.CurrentDay, CompletedDays := completedDays,
    CurrentStreak := st.currentStreak, LongestStreak := st.longestStreak,
    Status := challenge.Status }

/-- Model of `GetChallengeProgress`. -/
def GetChallengeProgress (db : DB) (caller : Option String) (challengeID : IDText) :
    Reply × Option Progress :=
  match caller with
  | none => (.failure 401 "Unauthorized", none)
  | some clerkID =>
    match db.users.find? fun u => u.ClerkID = clerkID with
    | none => (.failure 500 "Failed to retrieve user", none)
    | some user =>
      match challengeID with
      | .empty => (.failure 400 "Challenge ID is required", none)
      | .malformed => (.failure 400 "Invalid challenge ID format", none)
      | .valid challengeUUID =>
        match db.challenges.find? fun c => c.ID = challengeUUID ∧ c.UserID = user.ID with
        | none => (.failure 404 "Challenge not found", none)
        | some challenge =>
          -- SELECT COUNT(*) FROM daily_entries WHERE challenge_id = $1 AND completed = true
          let completedDays := (db.daily_entries.filter fun e =>
            e.ChallengeID = challengeUUID ∧ e.Completed = true).length
          (.success 200, some (progressOf challenge completedDays (streakRows db challengeUUID)))

/-! ## Transactions -/

/-- What a handler body that runs inside a transaction leaves behind when it
returns: the reply, the store as the transaction sees it, and whether
`tx.Commit` was reached and succeeded. -/
structure TxOutcome where
  reply : Reply
  working : DB
  committed : Bool
  deriving DecidableEq, Repr

/-- The deferred `tx.Rollback`: the store after the handler returned is the
working store of a committed transaction and the store before the call
otherwise. -/
def TxOutcome.settle (before : DB) (o : TxOutcome) : Reply × DB :=
  (o.reply, if o.committed then o.working else before)

/-- The loop `for _, id := range ids { tx.Exec("DELETE ... WHERE key = $1", id) }`
on one table.  Statement `k + i` deletes the rows whose key is the `i`-th
identifier; the loop stops at the first statement that fails.  The result is the
table when the loop is left and whether every statement succeeded. -/
def deleteEach {α : Type} (fails : Nat → Bool) (key : α → UUID) :
    Nat → List UUID → List α → List α × Bool
  | _, [], rows => (rows, true)
  | k, id :: rest, rows =>
    if fails k then (rows, false)
    else deleteEach fails key (k + 1) rest (rows.filter fun r => key r ≠ id)

/-! ## Challenges (`challenges.go`) -/

/-- The query `SELECT id FROM users WHERE clerk_id = $1`. -/
def selectUser (db : DB) (clerkID : String) : Option User :=
  db.users.find? fun u => u.ClerkID = clerkID

/-- The decoded body of `UpdateChallenge` (a `models.Challenge`; dates left out). -/
structure ChallengeBody where
  Name : String
  Description : String
  CurrentDay : Int
  Status : String
  deriving DecidableEq, Repr

/-- Model of `UpdateChallenge`. -/
def UpdateChallenge (db : DB) (caller : Option String) (challengeID : IDText)
    (body : Option ChallengeBody) : Reply × DB :=
  match caller with
  | none => (.failure 401 "Unauthorized", db)
  | some clerkID =>
    match selectUser db clerkID with
    | none => (.failure 500 "Failed to retrieve user", db)
    | some user =>
      match challengeID with
      | .empty => (.failure 400 "Challenge ID is required", db)
      | .malformed => (.failure 400 "Invalid challenge ID format", db)
      | .valid challengeUUID =>
        -- SELECT EXISTS(SELECT 1 FROM challenges WHERE id = $1 AND user_id = $2)
        if (db.challenges.any fun c => c.ID = challengeUUID ∧ c.UserID = user.ID) = false then
          (.failure 404 "Challenge not found", db)
        else
        match body with
        | none => (.failure 400 "Invalid request body", db)
        | some challenge =>
          -- a number that the `int` field `CurrentDay` does not hold makes `Decode` fail
          if ¬ IsGoInt challenge.CurrentDay then (.failure 400 "Invalid request body", db)
          else
          (.success 200,
            { db with challenges := db.challenges.map fun c =>
                if c.ID = challengeUUID ∧ c.UserID = user.ID then
                  { c with Name := challenge.Name, Description := challenge.Description,
                           CurrentDay := challenge.CurrentDay, Status := challenge.Status }
                else c })

/-- The end of `DeleteChallenge`: statement `k` is
`DELETE FROM challenges WHERE id = $1 AND user_id = $2`; zero rows affected
there end the call with a not-found error. Statement `k + 1` is the commit. -/
def deleteChallengeRow (tx : DB) (userID challengeUUID : UUID) (fails : Nat → Bool) (k : Nat) :
    TxOutcome :=
  if fails k then ⟨.failure 500 "Failed to delete challenge", tx, false⟩ else
  let rowsAffected :=
    (tx.challenges.filter fun c => c.ID = challengeUUID ∧ c.UserID = userID).length
  let tx6 : DB :=
    { tx with challenges :=
        tx.challenges.filter fun c => ¬ (c.ID = challengeUUID ∧ c.UserID = userID) }
  if rowsAffected = 0 then ⟨.failure 404 "Challenge not found", tx6, false⟩ else
  if fails (k + 1) then ⟨.failure 500 "Failed to commit transaction", tx6, false⟩ else
  ⟨.success 200, tx6, true⟩

/-- `DeleteChallenge` from the deletion of the sections (statement `k`) on. -/
def deleteChallengeSections (tx : DB) (userID challengeUUID : UUID) (fails : Nat → Bool)
    (k : Nat) : TxOutcome :=
  if fails k then ⟨.failure 500 "Failed to delete sections", tx, false⟩ else
  deleteChallengeRow
    { tx with sections := tx.sections.filter fun s => s.ChallengeID ≠ challengeUUID }
    userID challengeUUID fails (k + 1)

/-- `DeleteChallenge` from the deletion of the measurements (statement `k`) on. -/
def deleteChallengeMeasurements (tx : DB) (userID challengeUUID : UUID) (fails : Nat → Bool)
    (k : Nat) : TxOutcome :=
  if fails k then ⟨.failure 500 "Failed to delete measurements", tx, false⟩ else
  deleteChallengeSections
    { tx with measurements := tx.measurements.filter fun m => m.ChallengeID ≠ challengeUUID }
    userID challengeUUID fails (k + 1)

/-- `DeleteChallenge` from the deletion of the daily entries (statement `k`) on. -/
def deleteChallengeEntries (tx : DB) (userID challengeUUID : UUID) (fails : Nat → Bool)
    (k : Nat) : TxOutcome :=
  if fails k then ⟨.failure 500 "Failed to delete daily entries", tx, false⟩ else
  deleteChallengeMeasurements
    { tx with daily_entries := tx.daily_entries.filter fun e => e.ChallengeID ≠ challengeUUID }
    userID challengeUUID fails (k + 1)

/-- `DeleteChallenge` from the query of the daily entries (statement `k`) on:
the query, then one deletion of task entries per daily entry. -/
def deleteChallengeTaskEntries (tx : DB) (userID challengeUUID : UUID) (fails : Nat → Bool)
    (k : Nat) : TxOutcome :=
  if fails k then ⟨.failure 500 "Failed to query daily entries", tx, false⟩ else
  let entryIDs :=
    (tx.daily_entries.filter fun e => e.ChallengeID = challengeUUID).map fun e => e.ID
  let taskEntries :=
    deleteEach fails (fun te : TaskEntry => te.DailyEntryID) (k + 1) entryIDs tx.task_entries
  if taskEntries.2 = false then
    ⟨.failure 500 "Failed to delete task entries",
      { tx with task_entries := taskEntries.1 }, false⟩
  else
    deleteChallengeEntries { tx with task_entries := taskEntries.1 } userID challengeUUID fails
      (k + 1 + entryIDs.length)

/-- The body of `DeleteChallenge` from `tx.Query` on the sections to the return.
Statement 2 is the section query, statements `3 ..` delete the tasks of
one section each, then come the daily-entry query, one deletion of task entries per
daily entry, the deletions of the daily entries, the measurements and the
sections, the guarded deletion of the challenge row and the commit. -/
def DeleteChallengeTx (db : DB) (userID challengeUUID : UUID) (fails : Nat → Bool) :
    TxOutcome :=
  if fails 2 then ⟨.failure 500 "Failed to query sections", db, false⟩ else
  let sectionIDs := (db.sections.filter fun s => s.ChallengeID = challengeUUID).map fun s => s.ID
  let tasks := deleteEach fails (fun t : Task => t.SectionID) 3 sectionIDs db.tasks
  if tasks.2 = false then
    ⟨.failure 500 "Failed to delete tasks", { db with tasks := tasks.1 }, false⟩
  else
    deleteChallengeTaskEntries { db with tasks := tasks.1 } userID challengeUUID fails
      (3 + sectionIDs.length)

/-- Model of `DeleteChallenge`.  Statement 0 is the user query and statement 1
the start of the transaction. -/
def DeleteChallenge (db : DB) (caller : Option String) (challengeID : IDText)
    (fails : Nat → Bool) : Reply × DB :=
  match caller with
  | none => (.failure 401 "Unauthorized", db)
  | some clerkID =>
    match (if fails 0 then none else selectUser db clerkID) with
    | none => (.failure 500 "Failed to retrieve user", db)
    | some user =>
      match challengeID with
      | .empty => (.failure 400 "Challenge ID is required", db)
      | .malformed => (.failure 400 "Invalid challenge ID format", db)
      | .valid challengeUUID =>
        if fails 1 then (.failure 500 "Failed to start transaction", db)
        else (DeleteChallengeTx db user.ID challengeUUID fails).settle db

/-- Model of `ResetChallenge`: the guarded update of the challenge row, then the
deletion of the task entries and of the daily entries of the challenge. -/
def ResetChallenge (db : DB) (caller : Option String) (challengeID : IDText) : Reply × DB :=
  match caller with
  | none => (.failure 401 "Unauthorized", db)
  | some clerkID =>
    match selectUser db clerkID with
    | none => (.failure 500 "Failed to retrieve user", db)
    | some user =>
      match challengeID with
      | .empty => (.failure 400 "Challenge ID is required", db)
      | .malformed => (.failure 400 "Invalid challenge ID format", db)
      | .valid challengeUUID =>
        -- UPDATE challenges SET current_day = 1, status = 'active' WHERE id = $2 AND user_id = $3
        let challenges := db.challenges.map fun c =>
          if c.ID = challengeUUID ∧ c.UserID = user.ID then
            { c with CurrentDay := 1, Status := "active" }
          else c
        -- DELETE FROM task_entries WHERE daily_entry_id IN
        --   (SELECT id FROM daily_entries WHERE challenge_id = $1)
        let taskEntries := db.task_entries.filter fun te =>
          ¬ (db.daily_entries.any fun e => e.ChallengeID = challengeUUID ∧ e.ID = te.DailyEntryID)
        -- DELETE FROM daily_entries WHERE challenge_id = $1
        let daily := db.daily_entries.filter fun e => e.ChallengeID ≠ challengeUUID
        (.success 200,
          { db with challenges := challenges, daily_entries := daily,
                    task_entries := taskEntries })

/-! ## Daily entries by day (`entries.go`) -/

/-- Model of `UpdateDailyEntry`.  `day` is the result of `strconv.Atoi` on the
`day` URL parameter (`none` when it is no integer). -/
def UpdateDailyEntry (db : DB) (challengeID : IDText) (day : Option Int)
    (ctxUserID : Option UUID) (body : Option EntryData) (newUUID : Nat → UUID) : Reply × DB :=
  match uuidParse challengeID with
  | none => (.failure 400 "Invalid challenge ID", db)
  | some cid =>
    match day with
    | none => (.failure 400 "Invalid day number", db)
    | some dayNumber =>
      match ctxUserID with
      | none => (.crash, db)
      | some userID =>
        -- SELECT user_id FROM challenges WHERE id = $1;  err != nil || ownerID != userID
        match db.challenges.find? fun c => c.ID = cid with
        | none => (.failure 403 "You don't have access to this challenge", db)
        | some challenge =>
          if challenge.UserID ≠ userID then
            (.failure 403 "You don't have access to this challenge", db)
          else
          match body with
          | none => (.failure 400 "Invalid request body", db)
          | some entryData =>
            match selectDailyEntry db cid dayNumber with
            | none => (.failure 404 "Entry not found", db)
            | some e =>
              match saveTaskEntries e.ID newUUID entryData.TaskEntries 0 db.task_entries with
              | .error reply => (reply, db)
              | .ok taskEntries =>
                (.success 200,
                  { db with
                    daily_entries := updateDailyEntryRow db.daily_entries e.ID entryData
                    task_entries := taskEntries })

/-! ## Measurements (`measurements.go`) -/

/-- The decoded body of the measurement handlers (the numeric body metrics and
the date are left out). -/
structure MeasurementBody where
  DayNumber : Int
  deriving DecidableEq, Repr

/-- Model of `AddMeasurement`. -/
def AddMeasurement (db : DB) (challengeID : IDText) (ctxUserID : Option UUID)
    (body : Option MeasurementBody) (newID : UUID) : Reply × DB :=
  match uuidParse challengeID with
  | none => (.failure 400 "Invalid challenge ID", db)
  | some cid =>
    match ctxUserID with
    | none => (.crash, db)
    | some userID =>
      match db.challenges.find? fun c => c.ID = cid with
      | none => (.failure 404 "Challenge not found", db)
      | some challenge =>
        if challenge.UserID ≠ userID then
          (.failure 403 "You don't have access to this challenge", db)
        else
        match body with
        | none => (.failure 400 "Invalid request body", db)
        | some measurement =>
          let dayNumber :=
            if measurement.DayNumber ≤ 0 then challenge.CurrentDay else measurement.DayNumber
          (.success 201,
            { db with measurements := db.measurements ++ [⟨newID, cid, dayNumber⟩] })

/-- Model of `UpdateMeasurement`. -/
def UpdateMeasurement (db : DB) (measurementID : IDText) (ctxUserID : Option UUID)
    (body : Option MeasurementBody) : Reply × DB :=
  match uuidParse measurementID with
  | none => (.failure 400 "Invalid measurement ID", db)
  | some mid =>
    -- SELECT challenge_id FROM measurements WHERE id = $1
    match db.measurements.find? fun m => m.ID = mid with
    | none => (.failure 404 "Measurement not found", db)
    | some row =>
      match ctxUserID with
      | none => (.crash, db)
      | some userID =>
        -- SELECT user_id FROM challenges WHERE id = $1;  err != nil || ownerID != userID
        match db.challenges.find? fun c => c.ID = row.ChallengeID with
        | none => (.failure 403 "You don't have access to this measurement", db)
        | some challenge =>
          if challenge.UserID ≠ userID then
            (.failure 403 "You don't have access to this measurement", db)
          else
          match body with
          | none => (.failure 400 "Invalid request body", db)
          | some measurementUpdate =>
            (.success 200,
              { db with measurements := db.measurements.map fun m =>
                  if m.ID = mid then { m with DayNumber := measurementUpdate.DayNumber }
                  else m })

/-- Model of `DeleteMeasurement`. -/
def DeleteMeasurement (db : DB) (measurementID : IDText) (ctxUserID : Option UUID) :
    Reply × DB :=
  match uuidParse measurementID with
  | none => (.failure 400 "Invalid measurement ID", db)
  | some mid =>
    match db.measurements.find? fun m => m.ID = mid with
    | none => (.failure 404 "Measurement not found", db)
    | some row =>
      match ctxUserID with
      | none => (.crash, db)
      | some userID =>
        match db.challenges.find? fun c => c.ID = row.ChallengeID with
        | none => (.failure 403 "You don't have access to this measurement", db)
        | some challenge =>
          if challenge.UserID ≠ userID then
            (.failure 403 "You don't have access to this measurement", db)
          else
            (.success 200,
              { db with measurements := db.measurements.filter fun m => m.ID ≠ mid })

/-! ## Section creation (`sections.go`) -/

structure CreateSectionRequest where
  Name : String
  Description : String
  Order : String
  deriving DecidableEq, Repr

/-- Model of `validateChallengeOwnership`: the parameter parses and
`SELECT COUNT(*) FROM challenges WHERE id = $1 AND user_id = (SELECT id FROM
users WHERE clerk_id = $2)` counts a row.  The scalar subquery is `NULL` without
a user row and an error with more than one.  `true` stands for a `nil` error. -/
def validateChallengeOwnership (db : DB) (challengeID : IDText) (userID : String) : Bool :=
  match uuidParse challengeID with
  | none => false
  | some cid =>
    match db.users.filter fun u => u.ClerkID = userID with
    | [u] => (db.challenges.filter fun c => c.ID = cid ∧ c.UserID = u.ID).length != 0
    | _ => false

/-- The query `SELECT COALESCE(MAX("order"), 0) FROM sections WHERE challenge_id = $1`. -/
def maxSectionOrder (db : DB) (challengeID : UUID) : Int :=
  match ((db.sections.filter fun s => s.ChallengeID = challengeID).map fun s => s.Order) with
  | [] => 0
  | o :: os => os.foldl max o

/-- The Go conversion `string(i)` of an integer: the text made of the single
code point `i`, and the replacement character U+FFFD when `i` is no valid code
point. -/
def runeString (i : Int) : String :=
  if 0 ≤ i ∧ Nat.isValidChar i.toNat then String.singleton (Char.ofNat i.toNat)
  else String.singleton (Char.ofNat 0xFFFD)

/-- Blank characters of the storage engine's integer input. -/
def isBlank (c : Char) : Bool :=
  c.toNat = 32 || (9 ≤ c.toNat && c.toNat ≤ 13)

/-- Decimal digits of the storage engine's integer input. -/
def isDecimalDigit (c : Char) : Bool :=
  48 ≤ c.toNat && c.toNat ≤ 57

/-- The storage engine's conversion of a text parameter to an integer column:
optional blanks, an optional sign, one or more decimal digits, optional blanks.
Any other text is refused (`invalid input syntax for type integer`). -/
def integerOfText (s : String) : Option Int :=
  let cs := s.data.dropWhile isBlank
  let negative : Bool := cs.head?.any fun c => c.toNat = 45
  let unsigned := match cs with
    | c :: rest => if c.toNat = 45 ∨ c.toNat = 43 then rest else cs
    | [] => []
  let digits := unsigned.takeWhile isDecimalDigit
  let trailing := unsigned.dropWhile isDecimalDigit
  if digits = [] ∨ trailing.all isBlank = false then none
  else
    let n : Int := digits.foldl (fun a c => 10 * a + ((c.toNat : Int) - 48)) 0
    some (if negative then -n else n)

/-- Model of `CreateSection`; `body` is the decoded request and `newID` the
value of `uuid.New()`.  The order travels as a text to the `INSERT`. -/
def CreateSection (db : DB) (caller : Option String) (challengeID : IDText)
    (body : Option CreateSectionRequest) (newID : UUID) : Reply × DB :=
  match caller with
  | none => (.failure 401 "User not authenticated", db)
  | some userID =>
    if validateChallengeOwnership db challengeID userID = false then
      (.failure 404 "Challenge not found", db)
    else
    match body with
    | none => (.failure 400 "Invalid request body", db)
    | some req =>
      if req.Name = "" then (.failure 400 "Section name is required", db)
      else
      -- the statements below receive the parameter text as the challenge id
      match uuidParse challengeID with
      | none => (.failure 500 "Failed to determine section order", db)
      | some cid =>
        let order : String :=
          if req.Order = "" ∨ req.Order = "0" then runeString (maxSectionOrder db cid + 1)
          else req.Order
        match integerOfText order with
        | none => (.failure 500 "Failed to create section", db)
        | some o =>
          (.success 201,
            { db with sections := db.sections ++ [⟨newID, cid, req.Name, req.Description, o⟩] })

/-! ## Task update and challenge creation (`tasks.go`, `challenges.go`) -/

structure UpdateTaskRequest where
  Name : String
  Description : String
  TaskType : String
  Required : Bool
  RestartOnFail : Bool
  StrikesEnabled : Bool
  StrikesLimit : Int
  deriving DecidableEq, Repr

/-- Model of `UpdateTask`: the statement `UPDATE tasks SET name = $1, ...,
strikes_limit = $7 WHERE id = $8 RETURNING ...`, whose scan fails when no row
was updated. -/
def UpdateTask (db : DB) (caller : Option String) (taskID : IDText)
    (body : Option UpdateTaskRequest) : Reply × DB :=
  match caller with
  | none => (.failure 401 "User not authenticated", db)
  | some userID =>
    if validateTaskOwnership db taskID userID = false then
      (.failure 404 "Task not found", db)
    else
    match body with
    | none => (.failure 400 "Invalid request body", db)
    | some req =>
      -- a number that the `int` field does not hold makes `Decode` fail
      if ¬ IsGoInt req.StrikesLimit then (.failure 400 "Invalid request body", db)
      else if req.Name = "" then (.failure 400 "Task name is required", db)
      else if req.TaskType = "" then (.failure 400 "Task type is required", db)
      else
      let strikesLimit :=
        if req.StrikesEnabled ∧ req.StrikesLimit ≤ 0 then 3 else req.StrikesLimit
      if (db.tasks.any fun t => uuidParse taskID = some t.ID) = false then
        (.failure 500 "Failed to update task", db)
      else
        (.success 200,
          { db with tasks := db.tasks.map fun t =>
              if uuidParse taskID = some t.ID then
                { t with Name := req.Name, Description := req.Description,
                         TaskType := req.TaskType, Required := req.Required,
                         RestartOnFail := req.RestartOnFail,
                         StrikesEnabled := req.StrikesEnabled, StrikesLimit := strikesLimit }
              else t })

/-- Model of `CreateTask` with the arithmetic of Go's 64-bit `int`: the numbers
of the body reach the `int` fields `StrikesLimit` and `Order` only when they are
values of Go's `int`, and the next order `maxOrder + 1` is Go's wrapping sum.
`CreateTask` computes the same sum exactly; the two handlers agree whenever the
numbers of the body are values of Go's `int` and `maxOrder + 1` is one. -/
def CreateTaskInt64 (db : DB) (caller : Option String) (sectionID : IDText)
    (body : Option CreateTaskRequest) (newID : UUID) : Reply × DB :=
  match caller with
  | none => (.failure 401 "User not authenticated", db)
  | some userID =>
    if validateSectionOwnership db sectionID userID = false then
      (.failure 404 "Section not found", db)
    else
    match body with
    | none => (.failure 400 "Invalid request body", db)
    | some req =>
      -- a number that an `int` field does not hold makes `Decode` fail
      if ¬ (IsGoInt req.StrikesLimit ∧ IsGoInt req.Order) then
        (.failure 400 "Invalid request body", db)
      else if req.Name = "" then (.failure 400 "Task name is required", db)
      else if req.TaskType = "" then (.failure 400 "Task type is required", db)
      else
      let strikesLimit :=
        if req.StrikesEnabled ∧ req.StrikesLimit ≤ 0 then 3 else req.StrikesLimit
      match uuidParse sectionID with
      | none => (.failure 500 "Failed to determine task order", db)
      | some sid =>
        -- req.Order = maxOrder + 1
        let order := if req.Order ≤ 0 then goAdd (maxTaskOrder db sid) 1 else req.Order
        let task : Task :=
          { ID := newID, SectionID := sid, Name := req.Name, Description := req.Description,
            TaskType := req.TaskType, Required := req.Required,
            RestartOnFail := req.RestartOnFail, StrikesEnabled := req.StrikesEnabled,
            StrikesLimit := strikesLimit, Order := order }
        (.success 201, { db with tasks := db.tasks ++ [task] })

/-- Model of `CreateChallenge`: the decoded body is stored under a new
identifier for the caller with `status = "active"` and `current_day = 1`,
whatever the body says about them. -/
def CreateChallenge (db : DB) (caller : Option String) (body : Option ChallengeBody)
    (newID : UUID) : Reply × DB :=
  match caller with
  | none => (.failure 401 "Unauthorized", db)
  | some clerkID =>
    match selectUser db clerkID with
    | none => (.failure 500 "Failed to retrieve user", db)
    | some user =>
      match body with
      | none => (.failure 400 "Invalid request body", db)
      | some challenge =>
        -- a number that the `int` field `CurrentDay` does not hold makes `Decode` fail
        if ¬ IsGoInt challenge.CurrentDay then (.failure 400 "Invalid request body", db)
        else
        (.success 201,
          { db with challenges := db.challenges ++
              [{ ID := newID, UserID := user.ID, Name := challenge.Name,
                 Description := challenge.Description, CurrentDay := 1, Status := "active" }] })


/-! ## Specification of the streak figures -/

/-- The streak counter of the specification run over a sequence of records from
the value `s`: incremented on a completed record, reset to 0 on any other. -/
def counterFrom (s : Nat) (entries : List ProgressEntry) : Nat :=
  entries.foldl (fun c e => if e.Completed then c + 1 else 0) s

/-- The value of the streak counter after the record at position `i`. -/
def streakAt (entries : List ProgressEntry) (i : Nat) : Nat :=
  counterFrom 0 (entries.take (i + 1))

/-- The running maximum of the streak counter over all positions. -/
def runningMaximum (entries : List ProgressEntry) : Nat :=
  ((List.range entries.length).map (streakAt entries)).foldl max 0

/-- The sequence contains a block of `k` adjacent completed records. -/
def HasCompletedBlock (entries : List ProgressEntry) (k : Nat) : Prop :=
  List.replicate k true <:+: entries.map fun e => e.Completed

/-- Position `i` is completed and is the last record or is followed by a record
whose day number exceeds its own by more than 1. -/
def isBoundary (entries : List ProgressEntry) (i : Nat) : Bool :=
  match entries[i]?, entries[i + 1]? with
  | some e, none => e.Completed
  | some e, some nx => e.Completed && decide (nx.DayNumber > e.DayNumber + 1)
  | none, _ => false

/-! ## Specification of the ordered sibling sets -/

/-- The order values of the tasks of a section, in storage order. -/
def taskOrders (db : DB) (sectionID : UUID) : List Int :=
  (db.tasks.filter fun t => t.SectionID = sectionID).map fun t => t.Order

/-- The order values of the sections of a challenge, in storage order. -/
def sectionOrders (db : DB) (challengeID : UUID) : List Int :=
  (db.sections.filter fun s => s.ChallengeID = challengeID).map fun s => s.Order

/-- The order values are exactly `1..N`, each once, for `N` the number of
siblings. -/
def DenseOrders (orders : List Int) : Prop :=
  List.Perm orders ((List.range' 1 orders.length).map Int.ofNat)

instance (orders : List Int) : Decidable (DenseOrders orders) := by
  unfold DenseOrders; infer_instance

/-- The effect of a move from order `c` to a smaller order `n` on an order value. -/
def moveFront (n c x : Int) : Int :=
  if x = c then n else if n ≤ x ∧ x < c then x + 1 else x

/-- The effect of a move from order `c` to a larger order `n` on an order value. -/
def moveBack (n c x : Int) : Int :=
  if x = c then n else if c < x ∧ x ≤ n then x - 1 else x

/-- The effect of removing the sibling of order `c` on a remaining order value. -/
def closeGap (c x : Int) : Int :=
  if x > c then x - 1 else x

/-- The row-level effect of moving task `u` of section `sid` from order `c` to a
smaller order `n`: the task gets `n`, its siblings with order in `[n, c)` move
one place back, every other row is kept. -/
def moveTaskFront (u sid : UUID) (n c : Int) (t : Task) : Task :=
  if t.ID = u then { t with Order := n }
  else if t.SectionID = sid ∧ n ≤ t.Order ∧ t.Order < c then { t with Order := t.Order + 1 }
  else t

/-- The row-level effect of moving task `u` of section `sid` from order `c` to a
larger order `n`: the task gets `n`, its siblings with order in `(c, n]` move
one place forward, every other row is kept. -/
def moveTaskBack (u sid : UUID) (n c : Int) (t : Task) : Task :=
  if t.ID = u then { t with Order := n }
  else if t.SectionID = sid ∧ c < t.Order ∧ t.Order ≤ n then { t with Order := t.Order - 1 }
  else t

/-- The row-level effect of closing the gap left at order `c` in section `sid`. -/
def closeTaskGap (sid : UUID) (c : Int) (t : Task) : Task :=
  if t.SectionID = sid ∧ t.Order > c then { t with Order := t.Order - 1 } else t

/-- The row-level effect of moving section `u` of challenge `cid` from order `c`
to a smaller order `n`. -/
def moveSectionFront (u cid : UUID) (n c : Int) (s : Section) : Section :=
  if s.ID = u then { s with Order := n }
  else if s.ChallengeID = cid ∧ n ≤ s.Order ∧ s.Order < c then { s with Order := s.Order + 1 }
  else s

/-- The row-level effect of moving section `u` of challenge `cid` from order `c`
to a larger order `n`. -/
def moveSectionBack (u cid : UUID) (n c : Int) (s : Section) : Section :=
  if s.ID = u then { s with Order := n }
  else if s.ChallengeID = cid ∧ c < s.Order ∧ s.Order ≤ n then { s with Order := s.Order - 1 }
  else s

/-- Whether `utils.Success` was written. -/
def Reply.isSuccess : Reply → Bool
  | .success _ => true
  | _ => false

/-- A call of one of the three task handlers. -/
inductive TaskCall where
  | create (sectionID : IDText) (body : Option CreateTaskRequest) (newID : UUID)
  | delete (taskID : IDText)
  | reorder (taskID : IDText) (body : Option ReorderTaskRequest)

/-- Run a call of a task handler on the store. -/
def runTaskCall (db : DB) (caller : Option String) : TaskCall → Reply × DB
  | .create sectionID body newID => CreateTask db caller sectionID body newID
  | .delete taskID => DeleteTask db caller taskID
  | .reorder taskID body => ReorderTask db caller taskID body

/-- The calls that keep the task orders dense: a creation that leaves the order
to the handler (`order <= 0`) and draws an unused identifier, any deletion, and
a move whose target is at most the number of tasks of the section. -/
def TaskCall.inRange (db : DB) : TaskCall → Bool
  | .create _ body newID =>
      (match body with
        | some req => decide (req.Order ≤ 0)
        | none => true) && decide (newID ∉ db.tasks.map fun t => t.ID)
  | .delete _ => true
  | .reorder taskID body =>
      match selectTask db taskID, body with
      | some E, some req => decide (req.Order ≤ ((taskOrders db E.SectionID).length : Int))
      | _, _ => true

/-- The target of a section move is at most the number of sections of the
challenge. -/
def sectionMoveInRange (db : DB) (sectionID : IDText) (body : Option ReorderSectionRequest) :
    Bool :=
  match selectSection db sectionID, body with
  | some E, some req => decide (req.Order ≤ ((sectionOrders db E.ChallengeID).length : Int))
  | _, _ => true

/-- The stores reached from `db0` by successful in-range calls of the task
handlers, by any callers. -/
inductive TasksReachable (db0 : DB) : DB → Prop where
  | start : TasksReachable db0 db0
  | step (db : DB) (caller : Option String) (call : TaskCall) :
      TasksReachable db0 db → call.inRange db = true →
      (runTaskCall db caller call).1.isSuccess = true →
      TasksReachable db0 (runTaskCall db caller call).2

/-! ## Example stores -/

/-- One user `alice` owning the active challenge 10, which has the sections
A, B, C, D (ids 21..24) with orders 1..4; section A holds the tasks a, b, c
(ids 31..33) with orders 1..3. -/
def exampleDB : DB :=
  { users := [⟨1, "alice"⟩]
    challenges := [⟨10, 1, "Hard 75", "", 1, "active"⟩]
    sections := [⟨21, 10, "A", "", 1⟩, ⟨22, 10, "B", "", 2⟩, ⟨23, 10, "C", "", 3⟩,
                 ⟨24, 10, "D", "", 4⟩]
    tasks := [⟨31, 21, "a", "", "boolean", true, false, false, 0, 1⟩,
              ⟨32, 21, "b", "", "boolean", true, false, false, 0, 2⟩,
              ⟨33, 21, "c", "", "boolean", true, false, false, 0, 3⟩]
    daily_entries := []
    task_entries := []
    measurements := [] }

/-- A task creation request that leaves the order to the handler. -/
def exampleTaskRequest : CreateTaskRequest :=
  { Name := "read", Description := "", TaskType := "boolean", Required := true,
    RestartOnFail := false, StrikesEnabled := false, StrikesLimit := 0, Order := 0 }

/-- The sections of a challenge as `GetSections` lists them: name and order,
`ORDER BY "order" ASC`. -/
def listSections (db : DB) (challengeID : UUID) : List (String × Int) :=
  ((db.sections.filter fun s => s.ChallengeID = challengeID).insertionSort
    fun a b => a.Order ≤ b.Order).map fun s => (s.Name, s.Order)

/-- The tasks of a section as `GetTasks` lists them: name and order,
`ORDER BY "order" ASC`. -/
def listTasks (db : DB) (sectionID : UUID) : List (String × Int) :=
  ((db.tasks.filter fun t => t.SectionID = sectionID).insertionSort
    fun a b => a.Order ≤ b.Order).map fun t => (t.Name, t.Order)

/-- The example store after a task was created in the empty section B (id 22)
without an explicit order. -/
def exampleAfterCreate : DB :=
  (CreateTask exampleDB (some "alice") (.valid 22) (some exampleTaskRequest) 100).2

/-- The calls of the density example: two creations in section B, a move of the
second task to the front, and the deletion of the first. -/
def exampleCalls : List TaskCall :=
  [.create (.valid 22) (some exampleTaskRequest) 100,
   .create (.valid 22) (some exampleTaskRequest) 101,
   .reorder (.valid 101) (some ⟨1⟩),
   .delete (.valid 100)]

/-- Run a list of calls of the task handlers, one after the other. -/
def runTaskCalls (caller : Option String) : DB → List TaskCall → DB
  | db, [] => db
  | db, call :: rest => runTaskCalls caller (runTaskCall db caller call).2 rest

/-- A store with one user `alice`, her active challenge 10 at day `currentDay`,
and one daily entry per given `(day_number, completed)` pair, stored in the
given order. -/
def progressDB (currentDay : Int) (rows : List (Int × Bool)) : DB :=
  { users := [⟨1, "alice"⟩]
    challenges := [⟨10, 1, "Hard 75", "", currentDay, "active"⟩]
    sections := []
    tasks := []
    daily_entries := rows.enum.map fun r => ⟨100 + r.1, 10, r.2.1, r.2.2, "", "", 0, 0⟩
    task_entries := []
    measurements := [] }

/-! ## Specification of the day ledger -/

/-- The `current_day` of a challenge. -/
def currentDayOf (db : DB) (challengeID : UUID) : Option Int :=
  (db.challenges.find? fun c => c.ID = challengeID).map fun c => c.CurrentDay

/-- The store holds a day record for `(challengeID, day)`. -/
def HasDayRecord (db : DB) (challengeID : UUID) (day : Int) : Prop :=
  ∃ e ∈ db.daily_entries, e.ChallengeID = challengeID ∧ e.DayNumber = day

instance (db : DB) (challengeID : UUID) (day : Int) :
    Decidable (HasDayRecord db challengeID day) := by
  unfold HasDayRecord; infer_instance

/-- The day records of a challenge, in storage order. -/
def dayRecords (db : DB) (challengeID : UUID) : List DailyEntry :=
  db.daily_entries.filter fun e => e.ChallengeID = challengeID

/-- Every element of `task_entries` carries a `task_id` that is the text of a
UUID. -/
def ValidPayload (entryData : EntryData) : Prop :=
  ∀ td ∈ entryData.TaskEntries, ∃ u, td.task_id = some (.valid u)

/-- A payload without task entries. -/
def examplePayload (completed : Bool) : EntryData :=
  { Completed := completed, Notes := "done", ProgressPhotoURL := "", EnergyLevel := 4,
    MoodLevel := 5, TaskEntries := [] }

/-- Two calls of `CreateOrUpdateTodayEntry` in succession by the same caller on
the same challenge: the replies and stores after the first and after the second
call. -/
def upsertTodayTwice (db : DB) (challengeID userID : UUID) (p1 p2 : EntryData)
    (newUUID1 newUUID2 : Nat → UUID) : (Reply × DB) × (Reply × DB) :=
  let first := CreateOrUpdateTodayEntry db (.valid challengeID) (some userID) (some p1) newUUID1
  (first,
    CreateOrUpdateTodayEntry first.2 (.valid challengeID) (some userID) (some p2) newUUID2)

/-! ## Specification of the cascades -/

/-- The section belongs to the challenge. -/
def sectionOf (challengeID : UUID) (s : Section) : Prop :=
  s.ChallengeID = challengeID

/-- The task belongs to a section of the challenge. -/
def taskOf (db : DB) (challengeID : UUID) (t : Task) : Prop :=
  ∃ s ∈ db.sections, s.ChallengeID = challengeID ∧ s.ID = t.SectionID

/-- The task record belongs to a day record of the challenge. -/
def taskEntryOf (db : DB) (challengeID : UUID) (te : TaskEntry) : Prop :=
  ∃ e ∈ db.daily_entries, e.ChallengeID = challengeID ∧ e.ID = te.DailyEntryID

instance (db : DB) (challengeID : UUID) (t : Task) : Decidable (taskOf db challengeID t) := by
  unfold taskOf; infer_instance

instance (db : DB) (challengeID : UUID) (te : TaskEntry) :
    Decidable (taskEntryOf db challengeID te) := by
  unfold taskEntryOf; infer_instance

/-- The store without the challenge and everything that belongs to it: its
sections, their tasks, its day records, their task records and its
measurements.  Every other row is kept, in storage order. -/
def withoutChallenge (db : DB) (challengeID : UUID) : DB :=
  { users := db.users
    challenges := db.challenges.filter fun c => c.ID ≠ challengeID
    sections := db.sections.filter fun s => s.ChallengeID ≠ challengeID
    tasks := db.tasks.filter fun t => ¬ taskOf db challengeID t
    daily_entries := db.daily_entries.filter fun e => e.ChallengeID ≠ challengeID
    task_entries := db.task_entries.filter fun te => ¬ taskEntryOf db challengeID te
    measurements := db.measurements.filter fun m => m.ChallengeID ≠ challengeID }

/-- The store after a reset of the challenge: the challenge row is at day 1 and
active, its day records and their task records are gone, every other row is
kept. -/
def afterReset (db : DB) (challengeID : UUID) : DB :=
  { db with
    challenges := db.challenges.map fun c =>
      if c.ID = challengeID then { c with CurrentDay := 1, Status := "active" } else c
    daily_entries := db.daily_entries.filter fun e => e.ChallengeID ≠ challengeID
    task_entries := db.task_entries.filter fun te => ¬ taskEntryOf db challengeID te }

/-- No statement fails. -/
def noFailure : Nat → Bool := fun _ => false

/-- Two users, `alice` (1) and `bob` (2).  Alice owns the active challenge 10 at
day 3 with the section 21, its task 31, the day records 41 and 42 (days 1 and
2), the task records 51 and 52 and the measurement 61.  Bob owns the challenge
11 with the section 22, its task 32, the day record 43, the task record 53 and
the measurement 62. -/
def sharedDB : DB :=
  { users := [⟨1, "alice"⟩, ⟨2, "bob"⟩]
    challenges := [⟨10, 1, "Hard 75", "", 3, "active"⟩, ⟨11, 2, "Soft 30", "", 2, "active"⟩]
    sections := [⟨21, 10, "A", "", 1⟩, ⟨22, 11, "B", "", 1⟩]
    tasks := [⟨31, 21, "a", "", "boolean", true, false, false, 0, 1⟩,
              ⟨32, 22, "b", "", "boolean", true, false, false, 0, 1⟩]
    daily_entries := [⟨41, 10, 1, true, "", "", 3, 3⟩, ⟨42, 10, 2, true, "", "", 3, 3⟩,
                      ⟨43, 11, 1, true, "", "", 3, 3⟩]
    task_entries := [⟨51, 41, 31, true, "true", ""⟩, ⟨52, 42, 31, true, "true", ""⟩,
                     ⟨53, 43, 32, true, "true", ""⟩]
    measurements := [⟨61, 10, 1⟩, ⟨62, 11, 1⟩] }

/-- A store in which alice's challenge 10 has five day records (41..45), each
with one task record (51..55). -/
def fiveDaysDB : DB :=
  { users := [⟨1, "alice"⟩]
    challenges := [⟨10, 1, "Hard 75", "", 6, "active"⟩]
    sections := [⟨21, 10, "A", "", 1⟩]
    tasks := [⟨31, 21, "a", "", "boolean", true, false, false, 0, 1⟩]
    daily_entries := (List.range 5).map fun i => ⟨41 + i, 10, (i : Int) + 1, true, "", "", 3, 3⟩
    task_entries := (List.range 5).map fun i => ⟨51 + i, 41 + i, 31, true, "true", ""⟩
    measurements := [] }

/-- The oracle under which exactly statement `i` fails. -/
def failsAt (i : Nat) : Nat → Bool := fun k => k = i

/-! ## Example stores and payloads for the entry handlers -/

/-- The shared store in which alice's challenge 10 is completed. -/
def completedDB : DB :=
  { sharedDB with
    challenges := [⟨10, 1, "Hard 75", "", 3, "completed"⟩, ⟨11, 2, "Soft 30", "", 2, "active"⟩] }

/-- A payload whose second task entry has no `task_id`. -/
def missingTaskIDPayload : EntryData :=
  { Completed := true, Notes := "", ProgressPhotoURL := "", EnergyLevel := 3, MoodLevel := 3,
    TaskEntries := [⟨some (.valid 31), true, "", "true"⟩, ⟨none, true, "", "true"⟩] }

/-- A payload whose second task entry has a `task_id` that is no UUID. -/
def malformedTaskIDPayload : EntryData :=
  { Completed := true, Notes := "", ProgressPhotoURL := "", EnergyLevel := 3, MoodLevel := 3,
    TaskEntries := [⟨some (.valid 31), true, "", "true"⟩, ⟨some .malformed, true, "", "true"⟩] }

/-- A payload that names the task 31 twice. -/
def repeatedTaskPayload : EntryData :=
  { Completed := false, Notes := "", ProgressPhotoURL := "", EnergyLevel := 3, MoodLevel := 3,
    TaskEntries := [⟨some (.valid 31), false, "", "1"⟩, ⟨some (.valid 31), true, "", "2"⟩] }

/-- The natural keys `(challenge_id, day_number)` of the day records. -/
def dayKeys (db : DB) : List (UUID × Int) :=
  db.daily_entries.map fun e => (e.ChallengeID, e.DayNumber)

/-- The natural keys `(daily_entry_id, task_id)` of the task records. -/
def taskKeys (rows : List TaskEntry) : List (UUID × UUID) :=
  rows.map fun te => (te.DailyEntryID, te.TaskID)

/-! ## Specification of the siblings of a moved entity -/

/-- The order values of the tasks of a section other than task `u`, in storage
order. -/
def otherTaskOrders (db : DB) (sectionID u : UUID) : List Int :=
  (db.tasks.filter fun t => t.SectionID = sectionID ∧ t.ID ≠ u).map fun t => t.Order

/-- The order values of the sections of a challenge other than section `u`, in
storage order. -/
def otherSectionOrders (db : DB) (challengeID u : UUID) : List Int :=
  (db.sections.filter fun s => s.ChallengeID = challengeID ∧ s.ID ≠ u).map fun s => s.Order

/-- The example store after alice created the section `Z` (id 25) in her
challenge with the explicit order text `"-1"`. -/
def negativeOrderDB : DB :=
  (CreateSection exampleDB (some "alice") (.valid 10) (some ⟨"Z", "", "-1"⟩) 25).2

/-! ## Specification of sequences of ledger calls -/

/-- A call of `CreateOrUpdateTodayEntry`: the URL parameter, the user found in
the request context, the decoded body and the identifiers drawn. -/
structure TodayCall where
  challengeID : IDText
  ctxUserID : Option UUID
  body : Option EntryData
  newUUID : Nat → UUID

/-- Run a list of `CreateOrUpdateTodayEntry` calls, one after the other. -/
def runTodayCalls : DB → List TodayCall → DB
  | db, [] => db
  | db, call :: rest =>
    runTodayCalls
      (CreateOrUpdateTodayEntry db call.challengeID call.ctxUserID call.body call.newUUID).2 rest

/-- The day record that a payload writes under a given identifier and key. -/
def writtenRecord (entryID challengeID : UUID) (day : Int) (entryData : EntryData) :
    DailyEntry :=
  { ID := entryID, ChallengeID := challengeID, DayNumber := day,
    Completed := entryData.Completed, Notes := entryData.Notes,
    ProgressPhotoURL := entryData.ProgressPhotoURL, EnergyLevel := entryData.EnergyLevel,
    MoodLevel := entryData.MoodLevel }

/-- A call of one of the handlers that write the challenge row or the day
ledger. -/
inductive LedgerCall where
  | createChallenge (caller : Option String) (body : Option ChallengeBody) (newID : UUID)
  | updateChallenge (caller : Option String) (challengeID : IDText)
      (body : Option ChallengeBody)
  | resetChallenge (caller : Option String) (challengeID : IDText)
  | today (challengeID : IDText) (ctxUserID : Option UUID) (body : Option EntryData)
      (newUUID : Nat → UUID)
  | byDay (challengeID : IDText) (day : Option Int) (ctxUserID : Option UUID)
      (body : Option EntryData) (newUUID : Nat → UUID)

/-- Run a ledger call on the store. -/
def runLedgerCall (db : DB) : LedgerCall → Reply × DB
  | .createChallenge caller body newID => CreateChallenge db caller body newID
  | .updateChallenge caller challengeID body => UpdateChallenge db caller challengeID body
  | .resetChallenge caller challengeID => ResetChallenge db caller challengeID
  | .today challengeID ctxUserID body newUUID =>
      CreateOrUpdateTodayEntry db challengeID ctxUserID body newUUID
  | .byDay challengeID day ctxUserID body newUUID =>
      UpdateDailyEntry db challengeID day ctxUserID body newUUID

/-- The calls that keep `current_day >= 1`: every call except an
`UpdateChallenge` whose body carries a `current_day` below 1. -/
def LedgerCall.keepsDay : LedgerCall → Bool
  | .updateChallenge _ _ (some body) => decide (1 ≤ body.CurrentDay)
  | _ => true

/-- The calls that never lower a `current_day`: all but `ResetChallenge` and
`UpdateChallenge`. -/
def LedgerCall.neverLowers : LedgerCall → Bool
  | .updateChallenge _ _ _ => false
  | .resetChallenge _ _ => false
  | _ => true

/-- The stores reached from `db0` by successful ledger calls that keep
`current_day >= 1`. -/
inductive LedgerReachable (db0 : DB) : DB → Prop where
  | start : LedgerReachable db0 db0
  | step (db : DB) (call : LedgerCall) :
      LedgerReachable db0 db → call.keepsDay = true →
      (runLedgerCall db call).1.isSuccess = true →
      LedgerReachable db0 (runLedgerCall db call).2

/-- A store with the user `alice` and no challenge. -/
def emptyDB : DB :=
  { users := [⟨1, "alice"⟩], challenges := [], sections := [], tasks := [],
    daily_entries := [], task_entries := [], measurements := [] }

/-- The store after alice created a challenge (id 10) in the empty store. -/
def createdDB : DB :=
  (CreateChallenge emptyDB (some "alice") (some ⟨"Hard 75", "", 40, "failed"⟩) 10).2

/-- The challenge is at day `d` and has exactly one record for day `d`, with
identifier `entryID`. -/
def SingleDayRecord (db : DB) (challengeID : UUID) (d : Int) (entryID : UUID) : Prop :=
  currentDayOf db challengeID = some d
  ∧ (dayKeys db).count (challengeID, d) = 1
  ∧ ∃ e, selectDailyEntry db challengeID d = some e ∧ e.ID = entryID

/-! ## Example stores at the bounds of Go's `int` -/

/-- The example store after alice created the task 100 in the empty section B
(id 22) with the explicit order `2^63 - 1`, the largest value of Go's `int`. -/
def largestOrderDB : DB :=
  (CreateTaskInt64 exampleDB (some "alice") (.valid 22)
    (some { exampleTaskRequest with Order := 9223372036854775807 }) 100).2

/-! ## Streak lemmas -/

theorem streakStep_streak (st : StreakState) (e : ProgressEntry) (nx : Option ProgressEntry) :
    (streakStep st e nx).streak = if e.Completed then st.streak + 1 else 0 := by
  unfold streakStep
  cases hc : e.Completed <;> cases nx <;> simp only [] <;> split_ifs <;> simp_all

theorem streakStep_longest (st : StreakState) (e : ProgressEntry) (nx : Option ProgressEntry) :
    (streakStep st e nx).longestStreak =
      if e.Completed then max st.longestStreak (st.streak + 1) else st.longestStreak := by
  unfold streakStep
  cases hc : e.Completed <;> cases nx <;> simp only [Nat.max_def] <;> split_ifs <;>
    simp_all <;> omega

theorem calculateStreaks_streak (l : List ProgressEntry) (st : StreakState) :
    (calculateStreaks l st).streak = counterFrom st.streak l := by
  induction l generalizing st with
  | nil => rfl
  | cons e rest ih =>
    simp only [calculateStreaks, ih, streakStep_streak, counterFrom, List.foldl_cons]

theorem replicate_true_prefix_cons (j : Nat) (b : Bool) (fl : List Bool) :
    List.replicate j true <+: b :: fl ↔
      j = 0 ∨ (b = true ∧ ∃ k, j = k + 1 ∧ List.replicate k true <+: fl) := by
  cases j with
  | zero => simp
  | succ k => simp [List.replicate_succ, List.cons_prefix_cons, eq_comm]

/-- Loop invariant of the streak loop for `longestStreak`, from any state whose
counter does not exceed its maximum. -/
theorem calculateStreaks_longest_inv (l : List ProgressEntry) (st : StreakState)
    (h : st.streak ≤ st.longestStreak) :
    st.longestStreak ≤ (calculateStreaks l st).longestStreak
    ∧ (∀ j, HasCompletedBlock l j → j ≤ (calculateStreaks l st).longestStreak)
    ∧ (∀ j, List.replicate j true <+: (l.map fun e => e.Completed) →
        st.streak + j ≤ (calculateStreaks l st).longestStreak)
    ∧ ((calculateStreaks l st).longestStreak = st.longestStreak
        ∨ HasCompletedBlock l (calculateStreaks l st).longestStreak
        ∨ ∃ j, List.replicate j true <+: (l.map fun e => e.Completed)
            ∧ (calculateStreaks l st).longestStreak = st.streak + j) := by
  induction l generalizing st with
  | nil =>
    refine ⟨le_refl _, ?_, ?_, Or.inl rfl⟩
    · intro j hj
      have : j = 0 := by simpa [HasCompletedBlock] using hj
      subst this; exact Nat.zero_le _
    · intro j hj
      have : j = 0 := by simpa using hj
      subst this; simpa [calculateStreaks] using h
  | cons e rest ih =>
    have hs := streakStep_streak st e rest.head?
    have hl := streakStep_longest st e rest.head?
    simp only [calculateStreaks]
    cases hc : e.Completed with
    | true =>
      simp only [hc, if_true] at hs hl
      obtain ⟨i1, i2, i3, i4⟩ := ih (streakStep st e rest.head?) (by rw [hs, hl]; omega)
      rw [hs] at i3 i4
      rw [hl] at i1 i4
      refine ⟨by omega, ?_, ?_, ?_⟩
      · intro j hj
        simp only [HasCompletedBlock, List.map_cons, hc, List.infix_cons_iff] at hj
        rcases hj with hj | hj
        · rw [replicate_true_prefix_cons] at hj
          rcases hj with hj | ⟨_, k, hk, hj⟩
          · omega
          · have := i3 k hj; omega
        · exact i2 j hj
      · intro j hj
        simp only [List.map_cons, hc] at hj
        rw [replicate_true_prefix_cons] at hj
        rcases hj with hj | ⟨_, k, hk, hj⟩
        · omega
        · have := i3 k hj; omega
      · rcases i4 with i4 | i4 | ⟨k, hk, i4⟩
        · rcases Nat.le_total st.longestStreak (st.streak + 1) with hm | hm
          · right; right
            refine ⟨1, ?_, by rw [i4]; omega⟩
            simp only [List.map_cons, hc]
            rw [replicate_true_prefix_cons]
            exact Or.inr ⟨rfl, 0, rfl, by simp⟩
          · left; rw [i4]; omega
        · right; left
          simp only [HasCompletedBlock, List.map_cons, List.infix_cons_iff]
          exact Or.inr i4
        · right; right
          refine ⟨k + 1, ?_, by rw [i4]; omega⟩
          simp only [List.map_cons, hc]
          rw [replicate_true_prefix_cons]
          exact Or.inr ⟨rfl, k, rfl, hk⟩
    | false =>
      simp only [hc, Bool.false_eq_true, if_false] at hs hl
      obtain ⟨i1, i2, i3, i4⟩ := ih (streakStep st e rest.head?) (by rw [hs]; omega)
      rw [hs] at i3 i4
      rw [hl] at i1 i4
      refine ⟨i1, ?_, ?_, ?_⟩
      · intro j hj
        simp only [HasCompletedBlock, List.map_cons, hc, List.infix_cons_iff] at hj
        rcases hj with hj | hj
        · rw [replicate_true_prefix_cons] at hj
          rcases hj with hj | ⟨hb, _⟩
          · omega
          · exact absurd hb (by decide)
        · exact i2 j hj
      · intro j hj
        simp only [List.map_cons, hc] at hj
        rw [replicate_true_prefix_cons] at hj
        rcases hj with hj | ⟨hb, _⟩
        · omega
        · exact absurd hb (by decide)
      · rcases i4 with i4 | i4 | ⟨k, hk, i4⟩
        · exact Or.inl i4
        · right; left
          simp only [HasCompletedBlock, List.map_cons, List.infix_cons_iff]
          exact Or.inr i4
        · right; left
          simp only [HasCompletedBlock, List.map_cons, List.infix_cons_iff]
          refine Or.inr ?_
          rw [i4, Nat.zero_add]
          exact hk.isInfix

/-- The loop computes the length of the longest block of adjacent completed
records. -/
theorem calculateStreaks_longest_isGreatest (l : List ProgressEntry) :
    IsGreatest {k | HasCompletedBlock l k} (calculateStreaks l ⟨0, 0, 0⟩).longestStreak := by
  obtain ⟨_, i2, _, i4⟩ := calculateStreaks_longest_inv l ⟨0, 0, 0⟩ (le_refl _)
  refine ⟨?_, fun j hj => i2 j hj⟩
  rcases i4 with i4 | i4 | ⟨k, hk, i4⟩
  · show HasCompletedBlock l _
    rw [i4]
    simp [HasCompletedBlock]
  · exact i4
  · show HasCompletedBlock l _
    rw [i4]
    simpa [HasCompletedBlock] using hk.isInfix

theorem calculateStreaks_congr (l : List ProgressEntry) (st st2 : StreakState)
    (hs : st.streak = st2.streak) (hl : st.longestStreak = st2.longestStreak) :
    (calculateStreaks l st).streak = (calculateStreaks l st2).streak
    ∧ (calculateStreaks l st).longestStreak = (calculateStreaks l st2).longestStreak := by
  rw [calculateStreaks_streak, calculateStreaks_streak, hs]
  refine ⟨rfl, ?_⟩
  induction l generalizing st st2 with
  | nil => exact hl
  | cons e rest ih =>
    simp only [calculateStreaks]
    apply ih
    · rw [streakStep_streak, streakStep_streak, hs]
    · rw [streakStep_longest, streakStep_longest, hs, hl]

theorem calculateStreaks_longest_step (st : StreakState) (e : ProgressEntry)
    (nx nx2 : Option ProgressEntry) (l : List ProgressEntry) :
    (calculateStreaks l (streakStep st e nx)).longestStreak
      = (calculateStreaks l (streakStep st e nx2)).longestStreak :=
  (calculateStreaks_congr l _ _ (by rw [streakStep_streak, streakStep_streak])
    (by rw [streakStep_longest, streakStep_longest])).2

theorem calculateStreaks_longest_snoc (l : List ProgressEntry) (e : ProgressEntry)
    (st : StreakState) :
    (calculateStreaks (l ++ [e]) st).longestStreak =
      if e.Completed then
        max (calculateStreaks l st).longestStreak ((calculateStreaks l st).streak + 1)
      else (calculateStreaks l st).longestStreak := by
  induction l generalizing st with
  | nil => simp [calculateStreaks, streakStep_longest]
  | cons a rest ih =>
    show (calculateStreaks (rest ++ [e]) (streakStep st a (rest ++ [e]).head?)).longestStreak
      = if e.Completed then
          max (calculateStreaks rest (streakStep st a rest.head?)).longestStreak
            ((calculateStreaks rest (streakStep st a rest.head?)).streak + 1)
        else (calculateStreaks rest (streakStep st a rest.head?)).longestStreak
    rw [ih, calculateStreaks_streak, calculateStreaks_streak, streakStep_streak,
      streakStep_streak, calculateStreaks_longest_step st a _ rest.head?]

theorem counterFrom_snoc (s : Nat) (l : List ProgressEntry) (e : ProgressEntry) :
    counterFrom s (l ++ [e]) = if e.Completed then counterFrom s l + 1 else 0 := by
  simp [counterFrom, List.foldl_append]

theorem runningMaximum_snoc (l : List ProgressEntry) (e : ProgressEntry) :
    runningMaximum (l ++ [e]) = max (runningMaximum l) (counterFrom 0 (l ++ [e])) := by
  have hmap : (List.range l.length).map (streakAt (l ++ [e]))
      = (List.range l.length).map (streakAt l) := by
    apply List.map_congr_left
    intro i hi
    have hi2 : i + 1 ≤ l.length := by simpa using hi
    simp only [streakAt, List.take_append_of_le_length hi2]
  have hlast : streakAt (l ++ [e]) l.length = counterFrom 0 (l ++ [e]) := by
    have : (l ++ [e]).take (l.length + 1) = l ++ [e] :=
      List.take_of_length_le (by simp)
    simp only [streakAt, this]
  simp only [runningMaximum, List.length_append, List.length_singleton, List.range_succ,
    List.map_append, List.map_cons, List.map_nil, List.foldl_append, List.foldl_cons,
    List.foldl_nil, hmap, hlast]

/-- The loop computes the running maximum of the streak counter. -/
theorem calculateStreaks_longest_eq_runningMaximum (l : List ProgressEntry) :
    (calculateStreaks l ⟨0, 0, 0⟩).longestStreak = runningMaximum l := by
  induction l using List.reverseRecOn with
  | nil => rfl
  | append_singleton l e ih =>
    rw [calculateStreaks_longest_snoc, runningMaximum_snoc, counterFrom_snoc, ih,
      calculateStreaks_streak]
    cases e.Completed <;> simp

theorem isBoundary_cons_succ (e : ProgressEntry) (rest : List ProgressEntry) (i : Nat) :
    isBoundary (e :: rest) (i + 1) = isBoundary rest i := by
  simp [isBoundary]

theorem isBoundary_completed (l : List ProgressEntry) (i : Nat) (h : isBoundary l i = true) :
    ∃ e, l[i]? = some e ∧ e.Completed = true := by
  unfold isBoundary at h
  split at h
  · exact ⟨_, by assumption, h⟩
  · exact ⟨_, by assumption, by simp at h; exact h.1⟩
  · exact absurd h (by simp)

theorem isBoundary_of_length_le (l : List ProgressEntry) (i : Nat) (h : l.length ≤ i) :
    isBoundary l i = false := by
  have : l[i]? = none := List.getElem?_eq_none h
  simp [isBoundary, this]

theorem streakStep_current (st : StreakState) (e : ProgressEntry) (rest : List ProgressEntry) :
    (streakStep st e rest.head?).currentStreak =
      if isBoundary (e :: rest) 0 then st.streak + 1 else st.currentStreak := by
  unfold streakStep isBoundary
  cases rest with
  | nil => cases hc : e.Completed <;> simp [hc]
  | cons nx tl =>
    cases hc : e.Completed <;> by_cases hd : e.DayNumber + 1 < nx.DayNumber <;> simp [hd, hc]

/-- Loop invariant of the streak loop for `currentStreak`. -/
theorem calculateStreaks_current_inv (l : List ProgressEntry) (st : StreakState) :
    (∀ i, isBoundary l i = true → (∀ j, i < j → isBoundary l j = false) →
        (calculateStreaks l st).currentStreak = counterFrom st.streak (l.take (i + 1)))
    ∧ ((∀ i, isBoundary l i = false) →
        (calculateStreaks l st).currentStreak = st.currentStreak) := by
  induction l generalizing st with
  | nil =>
    refine ⟨?_, fun _ => rfl⟩
    intro i hi
    simp [isBoundary] at hi
  | cons e rest ih =>
    obtain ⟨ih1, ih2⟩ := ih (streakStep st e rest.head?)
    simp only [calculateStreaks]
    constructor
    · intro i hi hlast
      cases i with
      | zero =>
        rw [ih2 (fun j => by rw [← isBoundary_cons_succ e]; exact hlast (j + 1) (by omega)),
          streakStep_current, hi]
        obtain ⟨e2, he2, hc⟩ := isBoundary_completed _ _ hi
        simp only [List.getElem?_cons_zero, Option.some.injEq] at he2
        subst he2
        simp [counterFrom, hc]
      | succ k =>
        rw [isBoundary_cons_succ] at hi
        rw [ih1 k hi (fun j hj => by
          rw [← isBoundary_cons_succ e]; exact hlast (j + 1) (by omega)), streakStep_streak]
        simp [counterFrom]
    · intro hall
      rw [ih2 (fun j => by rw [← isBoundary_cons_succ e]; exact hall (j + 1)),
        streakStep_current, hall 0]
      simp

theorem counterFrom_zero_eq_trailing (l : List ProgressEntry) :
    counterFrom 0 l = (l.reverse.takeWhile fun e => e.Completed).length := by
  induction l using List.reverseRecOn with
  | nil => rfl
  | append_singleton l e ih =>
    rw [counterFrom_snoc, List.reverse_append, List.reverse_singleton, List.singleton_append,
      List.takeWhile_cons]
    cases e.Completed <;> simp [ih]

theorem isBoundary_last (l : List ProgressEntry) (e : ProgressEntry) (hc : e.Completed = true) :
    isBoundary (l ++ [e]) l.length = true := by
  have h1 : (l ++ [e])[l.length]? = some e := by simp
  have h2 : (l ++ [e])[l.length + 1]? = none := List.getElem?_eq_none (by simp)
  simp [isBoundary, h1, h2, hc]

/-! ## Dense order lists -/

theorem denseOrders_iff (l : List Int) :
    DenseOrders l ↔ l.Nodup ∧ ∀ x ∈ l, 1 ≤ x ∧ x ≤ (l.length : Int) := by
  have hnd : ((List.range' 1 l.length).map Int.ofNat).Nodup :=
    (List.nodup_range' 1 l.length).map Int.ofNat_injective
  have hmem : ∀ x : Int, x ∈ (List.range' 1 l.length).map Int.ofNat ↔
      1 ≤ x ∧ x ≤ (l.length : Int) := by
    intro x
    simp only [List.mem_map, List.mem_range'_1]
    constructor
    · rintro ⟨k, ⟨h1, h2⟩, rfl⟩
      simp only [Int.ofNat_eq_coe]
      omega
    · rintro ⟨h1, h2⟩
      refine ⟨x.toNat, by omega, ?_⟩
      simp only [Int.ofNat_eq_coe]
      omega
  constructor
  · intro h
    exact ⟨h.nodup_iff.mpr hnd, fun x hx => (hmem x).mp (h.mem_iff.mp hx)⟩
  · rintro ⟨h1, h2⟩
    have hsub : l ⊆ (List.range' 1 l.length).map Int.ofNat :=
      fun x hx => (hmem x).mpr (h2 x hx)
    exact (List.subperm_of_subset h1 hsub).perm_of_length_le (by simp)

theorem denseOrders_map_moveFront (l : List Int) (n c : Int) (h : DenseOrders l)
    (hc : c ∈ l) (hn : 1 ≤ n) (hlt : n < c) : DenseOrders (l.map (moveFront n c)) := by
  rw [denseOrders_iff] at h ⊢
  obtain ⟨h1, h2⟩ := h
  have hcb := h2 c hc
  refine ⟨h1.map_on ?_, ?_⟩
  · intro x hx y hy hxy
    have := h2 x hx; have := h2 y hy
    unfold moveFront at hxy
    split_ifs at hxy <;> omega
  · intro y hy
    obtain ⟨x, hx, rfl⟩ := List.mem_map.mp hy
    have := h2 x hx
    simp only [List.length_map]
    unfold moveFront
    split_ifs <;> omega

theorem denseOrders_map_moveBack (l : List Int) (n c : Int) (h : DenseOrders l)
    (hc : c ∈ l) (hgt : c < n) (hn : n ≤ (l.length : Int)) :
    DenseOrders (l.map (moveBack n c)) := by
  rw [denseOrders_iff] at h ⊢
  obtain ⟨h1, h2⟩ := h
  have hcb := h2 c hc
  refine ⟨h1.map_on ?_, ?_⟩
  · intro x hx y hy hxy
    have := h2 x hx; have := h2 y hy
    unfold moveBack at hxy
    split_ifs at hxy <;> omega
  · intro y hy
    obtain ⟨x, hx, rfl⟩ := List.mem_map.mp hy
    have := h2 x hx
    simp only [List.length_map]
    unfold moveBack
    split_ifs <;> omega

theorem denseOrders_erase_closeGap (l : List Int) (c : Int) (h : DenseOrders l) (hc : c ∈ l) :
    DenseOrders ((l.erase c).map (closeGap c)) := by
  rw [denseOrders_iff] at h ⊢
  obtain ⟨h1, h2⟩ := h
  have hcb := h2 c hc
  have hlen : (l.erase c).length + 1 = l.length := by
    rw [List.length_erase_of_mem hc]
    have : 0 < l.length := List.length_pos_of_mem hc
    omega
  have hne : ∀ x ∈ l.erase c, x ≠ c ∧ x ∈ l := fun x hx =>
    ⟨fun e => (h1.not_mem_erase) (e ▸ hx), List.mem_of_mem_erase hx⟩
  refine ⟨(h1.erase c).map_on ?_, ?_⟩
  · intro x hx y hy hxy
    have := hne x hx; have := hne y hy
    unfold closeGap at hxy
    split_ifs at hxy <;> omega
  · intro y hy
    obtain ⟨x, hx, rfl⟩ := List.mem_map.mp hy
    have := hne x hx
    have := h2 x (hne x hx).2
    simp only [List.length_map]
    unfold closeGap
    split_ifs <;> omega

theorem denseOrders_append_next (l : List Int) (h : DenseOrders l) :
    DenseOrders (l ++ [(l.length : Int) + 1]) := by
  rw [denseOrders_iff] at h ⊢
  obtain ⟨h1, h2⟩ := h
  refine ⟨?_, ?_⟩
  · rw [List.nodup_append]
    refine ⟨h1, List.nodup_singleton _, ?_⟩
    intro x hx hx2
    have := h2 x hx
    simp only [List.mem_singleton] at hx2
    omega
  · intro x hx
    simp only [List.length_append, List.length_singleton, Nat.cast_add, Nat.cast_one]
    rcases List.mem_append.mp hx with hx | hx
    · have := h2 x hx; omega
    · simp only [List.mem_singleton] at hx
      omega

/-! ## Row-level lemmas for tasks -/

theorem selectTask_some (db : DB) (u : UUID) (E : Task) (h : selectTask db (.valid u) = some E) :
    E ∈ db.tasks ∧ E.ID = u := by
  unfold selectTask at h
  refine ⟨List.mem_of_find?_eq_some h, ?_⟩
  have := List.find?_some h
  simpa [uuidParse, eq_comm] using this

theorem task_eq_of_id (db : DB) (hids : (db.tasks.map fun t => t.ID).Nodup) (a b : Task)
    (ha : a ∈ db.tasks) (hb : b ∈ db.tasks) (h : a.ID = b.ID) : a = b :=
  List.inj_on_of_nodup_map hids ha hb h

theorem ReorderTask_front (db : DB) (userID : String) (u : UUID) (n : Int) (E : Task)
    (hown : validateTaskOwnership db (.valid u) userID = true)
    (hE : selectTask db (.valid u) = some E) (hn : 0 < n) (hlt : n < E.Order)
    (hint : IsGoInt n) :
    ReorderTask db (some userID) (.valid u) (some ⟨n⟩)
      = (.success 200,
          { db with tasks := db.tasks.map (moveTaskFront u E.SectionID n E.Order) }) := by
  unfold ReorderTask
  simp only [hown, hE, Bool.true_eq_false, if_false, hint, not_true_eq_false, not_le.mpr hn,
    hlt, if_true, List.map_map]
  congr 2
  apply List.map_congr_left
  intro t _
  by_cases hc : t.SectionID = E.SectionID ∧ n ≤ t.Order ∧ t.Order < E.Order <;>
    by_cases h1 : u = t.ID
  · simp [moveTaskFront, uuidParse, hc, h1]
  · simp [moveTaskFront, uuidParse, hc, h1, Ne.symm h1]
  · simp [moveTaskFront, uuidParse, hc, h1]
  · simp [moveTaskFront, uuidParse, hc, h1, Ne.symm h1]

theorem ReorderTask_back (db : DB) (userID : String) (u : UUID) (n : Int) (E : Task)
    (hown : validateTaskOwnership db (.valid u) userID = true)
    (hE : selectTask db (.valid u) = some E) (hn : 0 < n) (hgt : E.Order < n)
    (hint : IsGoInt n) :
    ReorderTask db (some userID) (.valid u) (some ⟨n⟩)
      = (.success 200,
          { db with tasks := db.tasks.map (moveTaskBack u E.SectionID n E.Order) }) := by
  unfold ReorderTask
  simp only [hown, hE, Bool.true_eq_false, if_false, hint, not_true_eq_false, not_le.mpr hn,
    not_lt.mpr (le_of_lt hgt), gt_iff_lt, hgt, if_true, List.map_map]
  congr 2
  apply List.map_congr_left
  intro t _
  by_cases hc : t.SectionID = E.SectionID ∧ E.Order < t.Order ∧ t.Order ≤ n <;>
    by_cases h1 : u = t.ID
  · simp [moveTaskBack, uuidParse, hc, h1]
  · simp [moveTaskBack, uuidParse, hc, h1, Ne.symm h1]
  · simp [moveTaskBack, uuidParse, hc, h1]
  · simp [moveTaskBack, uuidParse, hc, h1, Ne.symm h1]

theorem DeleteTask_eq (db : DB) (userID : String) (u : UUID) (E : Task)
    (hown : validateTaskOwnership db (.valid u) userID = true)
    (hE : selectTask db (.valid u) = some E) :
    DeleteTask db (some userID) (.valid u)
      = (.success 200,
          { db with tasks := ((db.tasks.filter fun t => t.ID ≠ u).map
              (closeTaskGap E.SectionID E.Order)) }) := by
  unfold DeleteTask
  simp only [hown, hE, Bool.true_eq_false, if_false]
  congr 2
  have : (db.tasks.filter fun t => ¬ (uuidParse (.valid u) = some t.ID))
      = db.tasks.filter fun t => t.ID ≠ u := by
    apply List.filter_congr
    intro t _
    simp [uuidParse, eq_comm]
  rw [this]
  rfl

/-! ## Order lists of the tasks of a section under the three handlers -/

theorem taskOrders_map (db : DB) (f : Task → Task)
    (hf : ∀ t, (f t).SectionID = t.SectionID) (sid : UUID) :
    taskOrders { db with tasks := db.tasks.map f } sid
      = (db.tasks.filter fun t => t.SectionID = sid).map fun t => (f t).Order := by
  unfold taskOrders
  simp only [List.filter_map, List.map_map]
  have : (db.tasks.filter ((fun t => decide (t.SectionID = sid)) ∘ f))
      = db.tasks.filter fun t => t.SectionID = sid := by
    apply List.filter_congr
    intro t _
    simp [hf t]
  rw [this]
  rfl

theorem moveTaskFront_parent (u sid : UUID) (n c : Int) (t : Task) :
    (moveTaskFront u sid n c t).SectionID = t.SectionID := by
  unfold moveTaskFront; split_ifs <;> rfl

theorem moveTaskBack_parent (u sid : UUID) (n c : Int) (t : Task) :
    (moveTaskBack u sid n c t).SectionID = t.SectionID := by
  unfold moveTaskBack; split_ifs <;> rfl

theorem closeTaskGap_parent (sid : UUID) (c : Int) (t : Task) :
    (closeTaskGap sid c t).SectionID = t.SectionID := by
  unfold closeTaskGap; split_ifs <;> rfl

theorem moveTaskFront_id (u sid : UUID) (n c : Int) (t : Task) :
    (moveTaskFront u sid n c t).ID = t.ID := by
  unfold moveTaskFront; split_ifs <;> rfl

theorem moveTaskBack_id (u sid : UUID) (n c : Int) (t : Task) :
    (moveTaskBack u sid n c t).ID = t.ID := by
  unfold moveTaskBack; split_ifs <;> rfl

theorem closeTaskGap_id (sid : UUID) (c : Int) (t : Task) :
    (closeTaskGap sid c t).ID = t.ID := by
  unfold closeTaskGap; split_ifs <;> rfl

/-- Within a section whose orders are pairwise distinct, a task is determined by
its order. -/
theorem task_eq_of_order (db : DB) (sid : UUID) (hnd : (taskOrders db sid).Nodup) (a b : Task)
    (ha : a ∈ db.tasks) (hb : b ∈ db.tasks) (hsa : a.SectionID = sid) (hsb : b.SectionID = sid)
    (h : a.Order = b.Order) : a = b := by
  unfold taskOrders at hnd
  exact List.inj_on_of_nodup_map hnd (List.mem_filter.mpr ⟨ha, by simpa using hsa⟩)
    (List.mem_filter.mpr ⟨hb, by simpa using hsb⟩) h

theorem taskOrders_moveFront_same (db : DB) (u : UUID) (n : Int) (E : Task)
    (hids : (db.tasks.map fun t => t.ID).Nodup) (hE : E ∈ db.tasks) (hu : E.ID = u)
    (hnd : (taskOrders db E.SectionID).Nodup) :
    taskOrders { db with tasks := db.tasks.map (moveTaskFront u E.SectionID n E.Order) }
        E.SectionID
      = (taskOrders db E.SectionID).map (moveFront n E.Order) := by
  rw [taskOrders_map db _ (moveTaskFront_parent u E.SectionID n E.Order)]
  unfold taskOrders
  rw [List.map_map]
  apply List.map_congr_left
  intro t ht
  obtain ⟨ht1, ht2⟩ := List.mem_filter.mp ht
  have ht2 : t.SectionID = E.SectionID := by simpa using ht2
  simp only [Function.comp, moveTaskFront, moveFront]
  by_cases h1 : t.ID = u
  · have : t = E := task_eq_of_id db hids t E ht1 hE (h1.trans hu.symm)
    subst this
    simp [h1]
  · have h2 : t.Order ≠ E.Order := fun e =>
      h1 ((task_eq_of_order db _ hnd t E ht1 hE ht2 rfl e) ▸ hu)
    simp only [h1, h2, ht2, if_false, true_and]
    split_ifs <;> rfl

theorem taskOrders_moveBack_same (db : DB) (u : UUID) (n : Int) (E : Task)
    (hids : (db.tasks.map fun t => t.ID).Nodup) (hE : E ∈ db.tasks) (hu : E.ID = u)
    (hnd : (taskOrders db E.SectionID).Nodup) :
    taskOrders { db with tasks := db.tasks.map (moveTaskBack u E.SectionID n E.Order) }
        E.SectionID
      = (taskOrders db E.SectionID).map (moveBack n E.Order) := by
  rw [taskOrders_map db _ (moveTaskBack_parent u E.SectionID n E.Order)]
  unfold taskOrders
  rw [List.map_map]
  apply List.map_congr_left
  intro t ht
  obtain ⟨ht1, ht2⟩ := List.mem_filter.mp ht
  have ht2 : t.SectionID = E.SectionID := by simpa using ht2
  simp only [Function.comp, moveTaskBack, moveBack]
  by_cases h1 : t.ID = u
  · have : t = E := task_eq_of_id db hids t E ht1 hE (h1.trans hu.symm)
    subst this
    simp [h1]
  · have h2 : t.Order ≠ E.Order := fun e =>
      h1 ((task_eq_of_order db _ hnd t E ht1 hE ht2 rfl e) ▸ hu)
    simp only [h1, h2, ht2, if_false, true_and]
    split_ifs <;> rfl

/-- A rewrite of the task rows that keeps the rows of section `sid` keeps the
order list of `sid`. -/
theorem taskOrders_map_other (db : DB) (f : Task → Task) (sid : UUID)
    (hf : ∀ t, (f t).SectionID = t.SectionID)
    (hfix : ∀ t ∈ db.tasks, t.SectionID = sid → (f t).Order = t.Order) :
    taskOrders { db with tasks := db.tasks.map f } sid = taskOrders db sid := by
  rw [taskOrders_map db f hf]
  unfold taskOrders
  apply List.map_congr_left
  intro t ht
  obtain ⟨ht1, ht2⟩ := List.mem_filter.mp ht
  exact hfix t ht1 (by simpa using ht2)

theorem moveTaskFront_other (db : DB) (u : UUID) (n : Int) (E : Task) (sid : UUID)
    (hids : (db.tasks.map fun t => t.ID).Nodup) (hE : E ∈ db.tasks) (hu : E.ID = u)
    (hne : sid ≠ E.SectionID) (t : Task) (ht : t ∈ db.tasks) (hs : t.SectionID = sid) :
    (moveTaskFront u E.SectionID n E.Order t).Order = t.Order := by
  have h1 : t.ID ≠ u := fun e =>
    hne (by rw [← hs, task_eq_of_id db hids t E ht hE (e.trans hu.symm)])
  have h2 : t.SectionID ≠ E.SectionID := fun e => hne (hs ▸ e)
  simp [moveTaskFront, h1, h2]

theorem moveTaskBack_other (db : DB) (u : UUID) (n : Int) (E : Task) (sid : UUID)
    (hids : (db.tasks.map fun t => t.ID).Nodup) (hE : E ∈ db.tasks) (hu : E.ID = u)
    (hne : sid ≠ E.SectionID) (t : Task) (ht : t ∈ db.tasks) (hs : t.SectionID = sid) :
    (moveTaskBack u E.SectionID n E.Order t).Order = t.Order := by
  have h1 : t.ID ≠ u := fun e =>
    hne (by rw [← hs, task_eq_of_id db hids t E ht hE (e.trans hu.symm)])
  have h2 : t.SectionID ≠ E.SectionID := fun e => hne (hs ▸ e)
  simp [moveTaskBack, h1, h2]

theorem denseOrders_filter_closeGap (l : List Int) (c : Int) (h : DenseOrders l) (hc : c ∈ l) :
    DenseOrders ((l.filter fun x => x ≠ c).map (closeGap c)) := by
  have hnd : l.Nodup := ((denseOrders_iff l).mp h).1
  have := denseOrders_erase_closeGap l c h hc
  rw [hnd.erase_eq_filter] at this
  have hf : (l.filter fun x => x ≠ c) = l.filter fun x => decide (x ≠ c) := rfl
  simpa using this

theorem taskOrders_delete_same (db : DB) (u : UUID) (E : Task)
    (hids : (db.tasks.map fun t => t.ID).Nodup) (hE : E ∈ db.tasks) (hu : E.ID = u)
    (hnd : (taskOrders db E.SectionID).Nodup) :
    taskOrders { db with tasks := ((db.tasks.filter fun t => t.ID ≠ u).map
        (closeTaskGap E.SectionID E.Order)) } E.SectionID
      = ((taskOrders db E.SectionID).filter fun x => x ≠ E.Order).map (closeGap E.Order) := by
  unfold taskOrders
  simp only [List.filter_map, List.map_map, List.filter_filter]
  have hl : (db.tasks.filter fun t =>
        (((fun t => decide (t.SectionID = E.SectionID)) ∘
          closeTaskGap E.SectionID E.Order) t && decide (t.ID ≠ u)))
      = db.tasks.filter fun t =>
        (((fun x => decide (x ≠ E.Order)) ∘ fun t => t.Order) t
          && decide (t.SectionID = E.SectionID)) := by
    apply List.filter_congr
    intro t ht
    simp only [Function.comp, closeTaskGap_parent]
    by_cases hs : t.SectionID = E.SectionID
    · by_cases h1 : t.ID = u
      · have : t = E := task_eq_of_id db hids t E ht hE (h1.trans hu.symm)
        subst this
        simp [h1]
      · have h2 : t.Order ≠ E.Order := fun e =>
          h1 ((task_eq_of_order db _ hnd t E ht hE hs rfl e) ▸ hu)
        simp [hs, h1, h2]
    · simp [hs]
  rw [hl]
  apply List.map_congr_left
  intro t ht
  obtain ⟨_, ht2⟩ := List.mem_filter.mp ht
  have hs : t.SectionID = E.SectionID := by
    simp only [Bool.and_eq_true, decide_eq_true_eq] at ht2
    exact ht2.2
  simp only [Function.comp, closeTaskGap, closeGap, hs, true_and]
  split_ifs <;> rfl

theorem taskOrders_delete_other (db : DB) (u : UUID) (E : Task) (sid : UUID)
    (hids : (db.tasks.map fun t => t.ID).Nodup) (hE : E ∈ db.tasks) (hu : E.ID = u)
    (hne : sid ≠ E.SectionID) :
    taskOrders { db with tasks := ((db.tasks.filter fun t => t.ID ≠ u).map
        (closeTaskGap E.SectionID E.Order)) } sid
      = taskOrders db sid := by
  unfold taskOrders
  simp only [List.filter_map, List.map_map, List.filter_filter]
  have hl : (db.tasks.filter fun t =>
        (((fun t => decide (t.SectionID = sid)) ∘
          closeTaskGap E.SectionID E.Order) t && decide (t.ID ≠ u)))
      = db.tasks.filter fun t => decide (t.SectionID = sid) := by
    apply List.filter_congr
    intro t ht
    simp only [Function.comp, closeTaskGap_parent]
    by_cases hs : t.SectionID = sid
    · have h1 : t.ID ≠ u := fun e =>
        hne (by rw [← hs, task_eq_of_id db hids t E ht hE (e.trans hu.symm)])
      simp [hs, h1]
    · simp [hs]
  rw [hl]
  apply List.map_congr_left
  intro t ht
  obtain ⟨_, ht2⟩ := List.mem_filter.mp ht
  have hs : t.SectionID = sid := by simpa using ht2
  have h2 : t.SectionID ≠ E.SectionID := fun e => hne (hs ▸ e)
  simp [closeTaskGap, h2]

theorem taskOrders_append (db : DB) (task : Task) (sid : UUID) :
    taskOrders { db with tasks := db.tasks ++ [task] } sid
      = if task.SectionID = sid then taskOrders db sid ++ [task.Order] else taskOrders db sid := by
  unfold taskOrders
  by_cases h : task.SectionID = sid <;> simp [List.filter_append, h]

theorem foldl_max_spec (os : List Int) (o : Int) :
    os.foldl max o ∈ o :: os ∧ ∀ x ∈ o :: os, x ≤ os.foldl max o := by
  induction os generalizing o with
  | nil => simp
  | cons a rest ih =>
    obtain ⟨h1, h2⟩ := ih (max o a)
    simp only [List.foldl_cons]
    refine ⟨?_, ?_⟩
    · rcases List.mem_cons.mp h1 with h | h
      · rw [h]
        rcases le_total o a with hoa | hoa
        · rw [max_eq_right hoa]; simp
        · rw [max_eq_left hoa]; simp
      · simp [h]
    · intro x hx
      rcases List.mem_cons.mp hx with h | h
      · rw [h]; exact le_trans (le_max_left o a) (h2 _ (List.mem_cons_self _ _))
      · rcases List.mem_cons.mp h with h | h
        · rw [h]; exact le_trans (le_max_right o a) (h2 _ (List.mem_cons_self _ _))
        · exact h2 x (List.mem_cons_of_mem _ h)

theorem maxTaskOrder_dense (db : DB) (sid : UUID) (h : DenseOrders (taskOrders db sid)) :
    maxTaskOrder db sid = ((taskOrders db sid).length : Int) := by
  have hb := ((denseOrders_iff _).mp h).2
  have hmem : ∀ x : Int, 1 ≤ x → x ≤ ((taskOrders db sid).length : Int) →
      x ∈ taskOrders db sid := by
    intro x h1 h2
    refine (List.Perm.mem_iff h).mpr (List.mem_map.mpr ⟨x.toNat, ?_, ?_⟩)
    · rw [List.mem_range'_1]; omega
    · simp only [Int.ofNat_eq_coe]; omega
  unfold maxTaskOrder
  change (match taskOrders db sid with
    | [] => 0
    | o :: os => os.foldl max o) = _
  generalize taskOrders db sid = l at hb hmem
  cases l with
  | nil => rfl
  | cons o os =>
    obtain ⟨h1, h2⟩ := foldl_max_spec os o
    have hle := (hb _ h1).2
    have hge := h2 _ (hmem ((o :: os).length : Int) (by simp) (le_refl _))
    exact le_antisymm hle hge

theorem tasks_filter_ne_eq_erase (db : DB) (u : UUID) (E : Task)
    (hids : (db.tasks.map fun t => t.ID).Nodup) (hE : E ∈ db.tasks) (hu : E.ID = u) :
    (db.tasks.filter fun t => t.ID ≠ u) = db.tasks.erase E := by
  rw [(List.Nodup.of_map _ hids).erase_eq_filter]
  apply List.filter_congr
  intro t ht
  by_cases h : t = E
  · subst h; simp [hu]
  · have : t.ID ≠ u := fun e => h (task_eq_of_id db hids t E ht hE (e.trans hu.symm))
    simp [h, this]

theorem closeGap_lt_iff (c x y : Int) (hx : x ≠ c) (hy : y ≠ c) :
    x < y ↔ closeGap c x < closeGap c y := by
  unfold closeGap
  split_ifs <;> omega

/-! ## The density invariant for tasks -/

theorem selectTask_valid (db : DB) (taskID : IDText) (E : Task)
    (h : selectTask db taskID = some E) : taskID = .valid E.ID := by
  have := List.find?_some h
  cases taskID <;> simp [uuidParse] at this ⊢
  exact this

theorem ReorderTask_cases (db : DB) (caller : Option String) (taskID : IDText)
    (body : Option ReorderTaskRequest) :
    (ReorderTask db caller taskID body).2 = db
    ∨ ∃ userID u n E, caller = some userID ∧ taskID = .valid u ∧ body = some ⟨n⟩
        ∧ validateTaskOwnership db (.valid u) userID = true
        ∧ selectTask db (.valid u) = some E ∧ 0 < n ∧ IsGoInt n
        ∧ (n < E.Order ∨ E.Order < n) := by
  cases caller with
  | none => left; rfl
  | some userID =>
    cases hown : validateTaskOwnership db taskID userID with
    | false => left; simp [ReorderTask, hown]
    | true =>
      cases body with
      | none => left; simp [ReorderTask, hown]
      | some req =>
        by_cases hg : IsGoInt req.Order
        · by_cases hn : req.Order ≤ 0
          · left; simp [ReorderTask, hown, hg, hn]
          · cases hsel : selectTask db taskID with
            | none => left; simp [ReorderTask, hown, hg, hn, hsel]
            | some E =>
              have hv := selectTask_valid db taskID E hsel
              rcases lt_trichotomy req.Order E.Order with h | h | h
              · right
                exact ⟨userID, E.ID, req.Order, E, rfl, hv, rfl, hv ▸ hown, hv ▸ hsel,
                  not_le.mp hn, hg, Or.inl h⟩
              · left
                have hn2 : ¬ E.Order ≤ 0 := h ▸ hn
                have hg2 : IsGoInt E.Order := h ▸ hg
                simp [ReorderTask, hown, hsel, h, hn2, hg2]
              · right
                exact ⟨userID, E.ID, req.Order, E, rfl, hv, rfl, hv ▸ hown, hv ▸ hsel,
                  not_le.mp hn, hg, Or.inr h⟩
        · left; simp [ReorderTask, hown, hg]

theorem DeleteTask_cases (db : DB) (caller : Option String) (taskID : IDText) :
    (DeleteTask db caller taskID).2 = db
    ∨ ∃ userID u E, caller = some userID ∧ taskID = .valid u
        ∧ validateTaskOwnership db (.valid u) userID = true
        ∧ selectTask db (.valid u) = some E := by
  cases caller with
  | none => left; rfl
  | some userID =>
    cases hown : validateTaskOwnership db taskID userID with
    | false => left; simp [DeleteTask, hown]
    | true =>
      cases hsel : selectTask db taskID with
      | none => left; simp [DeleteTask, hown, hsel]
      | some E =>
        have hv := selectTask_valid db taskID E hsel
        right
        exact ⟨userID, E.ID, E, rfl, hv, hv ▸ hown, hv ▸ hsel⟩

theorem CreateTask_cases (db : DB) (caller : Option String) (sectionID : IDText)
    (body : Option CreateTaskRequest) (newID : UUID) :
    (CreateTask db caller sectionID body newID).2 = db
    ∨ ∃ sid req task, sectionID = .valid sid ∧ body = some req
        ∧ task.ID = newID ∧ task.SectionID = sid
        ∧ task.Order = (if req.Order ≤ 0 then maxTaskOrder db sid + 1 else req.Order)
        ∧ CreateTask db caller sectionID body newID
            = (.success 201, { db with tasks := db.tasks ++ [task] }) := by
  cases caller with
  | none => left; rfl
  | some userID =>
    cases hown : validateSectionOwnership db sectionID userID with
    | false => left; simp [CreateTask, hown]
    | true =>
      cases body with
      | none => left; simp [CreateTask, hown]
      | some req =>
        by_cases h1 : req.Name = ""
        · left; simp [CreateTask, hown, h1]
        · by_cases h2 : req.TaskType = ""
          · left; simp [CreateTask, hown, h1, h2]
          · cases sectionID with
            | empty => left; simp [CreateTask, hown, h1, h2, uuidParse]
            | malformed => left; simp [CreateTask, hown, h1, h2, uuidParse]
            | valid sid =>
              right
              refine ⟨sid, req,
                { ID := newID, SectionID := sid, Name := req.Name,
                  Description := req.Description, TaskType := req.TaskType,
                  Required := req.Required, RestartOnFail := req.RestartOnFail,
                  StrikesEnabled := req.StrikesEnabled,
                  StrikesLimit :=
                    if req.StrikesEnabled ∧ req.StrikesLimit ≤ 0 then 3 else req.StrikesLimit,
                  Order := if req.Order ≤ 0 then maxTaskOrder db sid + 1 else req.Order },
                rfl, rfl, rfl, rfl, rfl, ?_⟩
              simp only [CreateTask, hown, h1, h2, uuidParse, Bool.true_eq_false, if_false]

theorem tasks_ids_map (f : Task → Task) (hf : ∀ t, (f t).ID = t.ID) (l : List Task) :
    (l.map f).map (fun t => t.ID) = l.map fun t => t.ID := by
  rw [List.map_map]
  exact List.map_congr_left fun t _ => hf t

/-- One in-range call keeps the identifiers distinct and the orders of a section
dense. -/
theorem runTaskCall_inv (db : DB) (caller : Option String) (call : TaskCall) (sid : UUID)
    (hids : (db.tasks.map fun t => t.ID).Nodup) (hd : DenseOrders (taskOrders db sid))
    (hr : call.inRange db = true) :
    ((runTaskCall db caller call).2.tasks.map fun t => t.ID).Nodup
    ∧ DenseOrders (taskOrders (runTaskCall db caller call).2 sid) := by
  cases call with
  | create sectionID body newID =>
    simp only [TaskCall.inRange, Bool.and_eq_true, decide_eq_true_eq] at hr
    obtain ⟨hord, hfresh⟩ := hr
    rcases CreateTask_cases db caller sectionID body newID with h | ⟨s, req, task, _, hb, hi, hs, ho, h⟩
    · simp only [runTaskCall, h]; exact ⟨hids, hd⟩
    · simp only [runTaskCall, h]
      constructor
      · rw [List.map_append, List.nodup_append]
        refine ⟨hids, List.nodup_singleton _, ?_⟩
        intro x hx hx2
        simp only [List.map_cons, List.map_nil, List.mem_singleton] at hx2
        rw [hx2, hi] at hx
        exact hfresh hx
      · rw [taskOrders_append]
        split_ifs with hs2
        · subst hb
          simp only [decide_eq_true_eq] at hord
          rw [ho, if_pos hord, hs.symm.trans hs2, maxTaskOrder_dense db sid hd]
          exact denseOrders_append_next _ hd
        · exact hd
  | delete taskID =>
    rcases DeleteTask_cases db caller taskID with h | ⟨userID, u, E, hc, ht, hown, hsel⟩
    · simp only [runTaskCall, h]; exact ⟨hids, hd⟩
    · subst hc ht
      obtain ⟨hE, hu⟩ := selectTask_some db u E hsel
      simp only [runTaskCall, DeleteTask_eq db userID u E hown hsel]
      constructor
      · rw [tasks_ids_map _ (closeTaskGap_id _ _)]
        exact hids.sublist ((List.filter_sublist _).map _)
      · by_cases hs : sid = E.SectionID
        · subst hs
          rw [taskOrders_delete_same db u E hids hE hu ((denseOrders_iff _).mp hd).1]
          refine denseOrders_filter_closeGap _ _ hd ?_
          exact List.mem_map.mpr ⟨E, List.mem_filter.mpr ⟨hE, by simp⟩, rfl⟩
        · rw [taskOrders_delete_other db u E sid hids hE hu hs]
          exact hd
  | reorder taskID body =>
    rcases ReorderTask_cases db caller taskID body with
      h | ⟨userID, u, n, E, hc, ht, hb, hown, hsel, hn, hint, hlt | hgt⟩
    · simp only [runTaskCall, h]; exact ⟨hids, hd⟩
    · subst hc ht hb
      obtain ⟨hE, hu⟩ := selectTask_some db u E hsel
      simp only [runTaskCall, ReorderTask_front db userID u n E hown hsel hn hlt hint]
      constructor
      · rw [tasks_ids_map _ (moveTaskFront_id _ _ _ _)]; exact hids
      · by_cases hs : sid = E.SectionID
        · subst hs
          rw [taskOrders_moveFront_same db u n E hids hE hu ((denseOrders_iff _).mp hd).1]
          refine denseOrders_map_moveFront _ _ _ hd ?_ (by omega) hlt
          exact List.mem_map.mpr ⟨E, List.mem_filter.mpr ⟨hE, by simp⟩, rfl⟩
        · rw [taskOrders_map_other db _ sid (moveTaskFront_parent _ _ _ _)
            (moveTaskFront_other db u n E sid hids hE hu hs)]
          exact hd
    · subst hc ht hb
      obtain ⟨hE, hu⟩ := selectTask_some db u E hsel
      have hle : n ≤ ((taskOrders db E.SectionID).length : Int) := by
        simpa [TaskCall.inRange, hsel] using hr
      simp only [runTaskCall, ReorderTask_back db userID u n E hown hsel hn hgt hint]
      constructor
      · rw [tasks_ids_map _ (moveTaskBack_id _ _ _ _)]; exact hids
      · by_cases hs : sid = E.SectionID
        · subst hs
          rw [taskOrders_moveBack_same db u n E hids hE hu ((denseOrders_iff _).mp hd).1]
          refine denseOrders_map_moveBack _ _ _ hd ?_ hgt hle
          exact List.mem_map.mpr ⟨E, List.mem_filter.mpr ⟨hE, by simp⟩, rfl⟩
        · rw [taskOrders_map_other db _ sid (moveTaskBack_parent _ _ _ _)
            (moveTaskBack_other db u n E sid hids hE hu hs)]
          exact hd

theorem tasksReachable_inv (db0 db : DB) (sid : UUID)
    (hids : (db0.tasks.map fun t => t.ID).Nodup) (hd : DenseOrders (taskOrders db0 sid))
    (h : TasksReachable db0 db) :
    (db.tasks.map fun t => t.ID).Nodup ∧ DenseOrders (taskOrders db sid) := by
  induction h with
  | start => exact ⟨hids, hd⟩
  | step db1 caller call _ hr _ ih => exact runTaskCall_inv db1 caller call sid ih.1 ih.2 hr

/-! ## Row-level lemmas for sections -/

theorem selectSection_some (db : DB) (u : UUID) (E : Section) (h : selectSection db (.valid u) = some E) :
    E ∈ db.sections ∧ E.ID = u := by
  unfold selectSection at h
  refine ⟨List.mem_of_find?_eq_some h, ?_⟩
  have := List.find?_some h
  simpa [uuidParse, eq_comm] using this

theorem section_eq_of_id (db : DB) (hids : (db.sections.map fun t => t.ID).Nodup) (a b : Section)
    (ha : a ∈ db.sections) (hb : b ∈ db.sections) (h : a.ID = b.ID) : a = b :=
  List.inj_on_of_nodup_map hids ha hb h

theorem ReorderSection_front (db : DB) (userID : String) (u : UUID) (n : Int) (E : Section)
    (hown : validateSectionOwnership db (.valid u) userID = true)
    (hE : selectSection db (.valid u) = some E) (hn : 0 < n) (hlt : n < E.Order)
    (hint : IsGoInt n) :
    ReorderSection db (some userID) (.valid u) (some ⟨n⟩)
      = (.success 200,
          { db with sections := db.sections.map (moveSectionFront u E.ChallengeID n E.Order) }) := by
  unfold ReorderSection
  simp only [hown, hE, Bool.true_eq_false, if_false, hint, not_true_eq_false, not_le.mpr hn,
    hlt, if_true, List.map_map]
  congr 2
  apply List.map_congr_left
  intro t _
  by_cases hc : t.ChallengeID = E.ChallengeID ∧ n ≤ t.Order ∧ t.Order < E.Order <;>
    by_cases h1 : u = t.ID
  · simp [moveSectionFront, uuidParse, hc, h1]
  · simp [moveSectionFront, uuidParse, hc, h1, Ne.symm h1]
  · simp [moveSectionFront, uuidParse, hc, h1]
  · simp [moveSectionFront, uuidParse, hc, h1, Ne.symm h1]

theorem ReorderSection_back (db : DB) (userID : String) (u : UUID) (n : Int) (E : Section)
    (hown : validateSectionOwnership db (.valid u) userID = true)
    (hE : selectSection db (.valid u) = some E) (hn : 0 < n) (hgt : E.Order < n)
    (hint : IsGoInt n) :
    ReorderSection db (some userID) (.valid u) (some ⟨n⟩)
      = (.success 200,
          { db with sections := db.sections.map (moveSectionBack u E.ChallengeID n E.Order) }) := by
  unfold ReorderSection
  simp only [hown, hE, Bool.true_eq_false, if_false, hint, not_true_eq_false, not_le.mpr hn,
    not_lt.mpr (le_of_lt hgt), gt_iff_lt, hgt, if_true, List.map_map]
  congr 2
  apply List.map_congr_left
  intro t _
  by_cases hc : t.ChallengeID = E.ChallengeID ∧ E.Order < t.Order ∧ t.Order ≤ n <;>
    by_cases h1 : u = t.ID
  · simp [moveSectionBack, uuidParse, hc, h1]
  · simp [moveSectionBack, uuidParse, hc, h1, Ne.symm h1]
  · simp [moveSectionBack, uuidParse, hc, h1]
  · simp [moveSectionBack, uuidParse, hc, h1, Ne.symm h1]

theorem sectionOrders_map (db : DB) (f : Section → Section)
    (hf : ∀ t, (f t).ChallengeID = t.ChallengeID) (sid : UUID) :
    sectionOrders { db with sections := db.sections.map f } sid
      = (db.sections.filter fun t => t.ChallengeID = sid).map fun t => (f t).Order := by
  unfold sectionOrders
  simp only [List.filter_map, List.map_map]
  have : (db.sections.filter ((fun t => decide (t.ChallengeID = sid)) ∘ f))
      = db.sections.filter fun t => t.ChallengeID = sid := by
    apply List.filter_congr
    intro t _
    simp [hf t]
  rw [this]
  rfl

theorem moveSectionFront_parent (u sid : UUID) (n c : Int) (t : Section) :
    (moveSectionFront u sid n c t).ChallengeID = t.ChallengeID := by
  unfold moveSectionFront; split_ifs <;> rfl

theorem moveSectionBack_parent (u sid : UUID) (n c : Int) (t : Section) :
    (moveSectionBack u sid n c t).ChallengeID = t.ChallengeID := by
  unfold moveSectionBack; split_ifs <;> rfl

theorem moveSectionFront_id (u sid : UUID) (n c : Int) (t : Section) :
    (moveSectionFront u sid n c t).ID = t.ID := by
  unfold moveSectionFront; split_ifs <;> rfl

theorem moveSectionBack_id (u sid : UUID) (n c : Int) (t : Section) :
    (moveSectionBack u sid n c t).ID = t.ID := by
  unfold moveSectionBack; split_ifs <;> rfl

/-- Within a challenge whose orders are pairwise distinct, a section is determined by
its order. -/
theorem section_eq_of_order (db : DB) (sid : UUID) (hnd : (sectionOrders db sid).Nodup) (a b : Section)
    (ha : a ∈ db.sections) (hb : b ∈ db.sections) (hsa : a.ChallengeID = sid) (hsb : b.ChallengeID = sid)
    (h : a.Order = b.Order) : a = b := by
  unfold sectionOrders at hnd
  exact List.inj_on_of_nodup_map hnd (List.mem_filter.mpr ⟨ha, by simpa using hsa⟩)
    (List.mem_filter.mpr ⟨hb, by simpa using hsb⟩) h

theorem sectionOrders_moveFront_same (db : DB) (u : UUID) (n : Int) (E : Section)
    (hids : (db.sections.map fun t => t.ID).Nodup) (hE : E ∈ db.sections) (hu : E.ID = u)
    (hnd : (sectionOrders db E.ChallengeID).Nodup) :
    sectionOrders { db with sections := db.sections.map (moveSectionFront u E.ChallengeID n E.Order) }
        E.ChallengeID
      = (sectionOrders db E.ChallengeID).map (moveFront n E.Order) := by
  rw [sectionOrders_map db _ (moveSectionFront_parent u E.ChallengeID n E.Order)]
  unfold sectionOrders
  rw [List.map_map]
  apply List.map_congr_left
  intro t ht
  obtain ⟨ht1, ht2⟩ := List.mem_filter.mp ht
  have ht2 : t.ChallengeID = E.ChallengeID := by simpa using ht2
  simp only [Function.comp, moveSectionFront, moveFront]
  by_cases h1 : t.ID = u
  · have : t = E := section_eq_of_id db hids t E ht1 hE (h1.trans hu.symm)
    subst this
    simp [h1]
  · have h2 : t.Order ≠ E.Order := fun e =>
      h1 ((section_eq_of_order db _ hnd t E ht1 hE ht2 rfl e) ▸ hu)
    simp only [h1, h2, ht2, if_false, true_and]
    split_ifs <;> rfl

theorem sectionOrders_moveBack_same (db : DB) (u : UUID) (n : Int) (E : Section)
    (hids : (db.sections.map fun t => t.ID).Nodup) (hE : E ∈ db.sections) (hu : E.ID = u)
    (hnd : (sectionOrders db E.ChallengeID).Nodup) :
    sectionOrders { db with sections := db.sections.map (moveSectionBack u E.ChallengeID n E.Order) }
        E.ChallengeID
      = (sectionOrders db E.ChallengeID).map (moveBack n E.Order) := by
  rw [sectionOrders_map db _ (moveSectionBack_parent u E.ChallengeID n E.Order)]
  unfold sectionOrders
  rw [List.map_map]
  apply List.map_congr_left
  intro t ht
  obtain ⟨ht1, ht2⟩ := List.mem_filter.mp ht
  have ht2 : t.ChallengeID = E.ChallengeID := by simpa using ht2
  simp only [Function.comp, moveSectionBack, moveBack]
  by_cases h1 : t.ID = u
  · have : t = E := section_eq_of_id db hids t E ht1 hE (h1.trans hu.symm)
    subst this
    simp [h1]
  · have h2 : t.Order ≠ E.Order := fun e =>
      h1 ((section_eq_of_order db _ hnd t E ht1 hE ht2 rfl e) ▸ hu)
    simp only [h1, h2, ht2, if_false, true_and]
    split_ifs <;> rfl

/-- A rewrite of the section rows that keeps the rows of challenge `sid` keeps the
order list of `sid`. -/
theorem sectionOrders_map_other (db : DB) (f : Section → Section) (sid : UUID)
    (hf : ∀ t, (f t).ChallengeID = t.ChallengeID)
    (hfix : ∀ t ∈ db.sections, t.ChallengeID = sid → (f t).Order = t.Order) :
    sectionOrders { db with sections := db.sections.map f } sid = sectionOrders db sid := by
  rw [sectionOrders_map db f hf]
  unfold sectionOrders
  apply List.map_congr_left
  intro t ht
  obtain ⟨ht1, ht2⟩ := List.mem_filter.mp ht
  exact hfix t ht1 (by simpa using ht2)

theorem moveSectionFront_other (db : DB) (u : UUID) (n : Int) (E : Section) (sid : UUID)
    (hids : (db.sections.map fun t => t.ID).Nodup) (hE : E ∈ db.sections) (hu : E.ID = u)
    (hne : sid ≠ E.ChallengeID) (t : Section) (ht : t ∈ db.sections) (hs : t.ChallengeID = sid) :
    (moveSectionFront u E.ChallengeID n E.Order t).Order = t.Order := by
  have h1 : t.ID ≠ u := fun e =>
    hne (by rw [← hs, section_eq_of_id db hids t E ht hE (e.trans hu.symm)])
  have h2 : t.ChallengeID ≠ E.ChallengeID := fun e => hne (hs ▸ e)
  simp [moveSectionFront, h1, h2]

theorem moveSectionBack_other (db : DB) (u : UUID) (n : Int) (E : Section) (sid : UUID)
    (hids : (db.sections.map fun t => t.ID).Nodup) (hE : E ∈ db.sections) (hu : E.ID = u)
    (hne : sid ≠ E.ChallengeID) (t : Section) (ht : t ∈ db.sections) (hs : t.ChallengeID = sid) :
    (moveSectionBack u E.ChallengeID n E.Order t).Order = t.Order := by
  have h1 : t.ID ≠ u := fun e =>
    hne (by rw [← hs, section_eq_of_id db hids t E ht hE (e.trans hu.symm)])
  have h2 : t.ChallengeID ≠ E.ChallengeID := fun e => hne (hs ▸ e)
  simp [moveSectionBack, h1, h2]

/-! ## The density invariant for sections -/

theorem selectSection_valid (db : DB) (sectionID : IDText) (E : Section)
    (h : selectSection db sectionID = some E) : sectionID = .valid E.ID := by
  have := List.find?_some h
  cases sectionID <;> simp [uuidParse] at this ⊢
  exact this

theorem ReorderSection_cases (db : DB) (caller : Option String) (sectionID : IDText)
    (body : Option ReorderSectionRequest) :
    (ReorderSection db caller sectionID body).2 = db
    ∨ ∃ userID u n E, caller = some userID ∧ sectionID = .valid u ∧ body = some ⟨n⟩
        ∧ validateSectionOwnership db (.valid u) userID = true
        ∧ selectSection db (.valid u) = some E ∧ 0 < n ∧ IsGoInt n
        ∧ (n < E.Order ∨ E.Order < n) := by
  cases caller with
  | none => left; rfl
  | some userID =>
    cases hown : validateSectionOwnership db sectionID userID with
    | false => left; simp [ReorderSection, hown]
    | true =>
      cases body with
      | none => left; simp [ReorderSection, hown]
      | some req =>
        by_cases hg : IsGoInt req.Order
        · by_cases hn : req.Order ≤ 0
          · left; simp [ReorderSection, hown, hg, hn]
          · cases hsel : selectSection db sectionID with
            | none => left; simp [ReorderSection, hown, hg, hn, hsel]
            | some E =>
              have hv := selectSection_valid db sectionID E hsel
              rcases lt_trichotomy req.Order E.Order with h | h | h
              · right
                exact ⟨userID, E.ID, req.Order, E, rfl, hv, rfl, hv ▸ hown, hv ▸ hsel,
                  not_le.mp hn, hg, Or.inl h⟩
              · left
                have hn2 : ¬ E.Order ≤ 0 := h ▸ hn
                have hg2 : IsGoInt E.Order := h ▸ hg
                simp [ReorderSection, hown, hsel, h, hn2, hg2]
              · right
                exact ⟨userID, E.ID, req.Order, E, rfl, hv, rfl, hv ▸ hown, hv ▸ hsel,
                  not_le.mp hn, hg, Or.inr h⟩
        · left; simp [ReorderSection, hown, hg]

theorem sections_ids_map (f : Section → Section) (hf : ∀ t, (f t).ID = t.ID) (l : List Section) :
    (l.map f).map (fun t => t.ID) = l.map fun t => t.ID := by
  rw [List.map_map]
  exact List.map_congr_left fun t _ => hf t

/-- An in-range `ReorderSection` keeps the identifiers distinct and the section
orders of every challenge dense. -/
theorem ReorderSection_inv (db : DB) (caller : Option String) (sectionID : IDText)
    (body : Option ReorderSectionRequest) (cid : UUID)
    (hids : (db.sections.map fun s => s.ID).Nodup) (hd : DenseOrders (sectionOrders db cid))
    (hr : sectionMoveInRange db sectionID body = true) :
    ((ReorderSection db caller sectionID body).2.sections.map fun s => s.ID).Nodup
    ∧ DenseOrders (sectionOrders (ReorderSection db caller sectionID body).2 cid) := by
  rcases ReorderSection_cases db caller sectionID body with
    h | ⟨userID, u, n, E, hc, ht, hb, hown, hsel, hn, hint, hlt | hgt⟩
  · rw [h]; exact ⟨hids, hd⟩
  · subst hc ht hb
    obtain ⟨hE, hu⟩ := selectSection_some db u E hsel
    simp only [ReorderSection_front db userID u n E hown hsel hn hlt hint]
    constructor
    · rw [sections_ids_map _ (moveSectionFront_id _ _ _ _)]; exact hids
    · by_cases hs : cid = E.ChallengeID
      · subst hs
        rw [sectionOrders_moveFront_same db u n E hids hE hu ((denseOrders_iff _).mp hd).1]
        refine denseOrders_map_moveFront _ _ _ hd ?_ (by omega) hlt
        exact List.mem_map.mpr ⟨E, List.mem_filter.mpr ⟨hE, by simp⟩, rfl⟩
      · rw [sectionOrders_map_other db _ cid (moveSectionFront_parent _ _ _ _)
          (moveSectionFront_other db u n E cid hids hE hu hs)]
        exact hd
  · subst hc ht hb
    obtain ⟨hE, hu⟩ := selectSection_some db u E hsel
    have hle : n ≤ ((sectionOrders db E.ChallengeID).length : Int) := by
      simpa [sectionMoveInRange, hsel] using hr
    simp only [ReorderSection_back db userID u n E hown hsel hn hgt hint]
    constructor
    · rw [sections_ids_map _ (moveSectionBack_id _ _ _ _)]; exact hids
    · by_cases hs : cid = E.ChallengeID
      · subst hs
        rw [sectionOrders_moveBack_same db u n E hids hE hu ((denseOrders_iff _).mp hd).1]
        refine denseOrders_map_moveBack _ _ _ hd ?_ hgt hle
        exact List.mem_map.mpr ⟨E, List.mem_filter.mpr ⟨hE, by simp⟩, rfl⟩
      · rw [sectionOrders_map_other db _ cid (moveSectionBack_parent _ _ _ _)
          (moveSectionBack_other db u n E cid hids hE hu hs)]
        exact hd

/-! ## Day ledger lemmas -/

theorem saveTaskEntries_ok (entryID : UUID) (newUUID : Nat → UUID) (tds : List TaskEntryData)
    (h : ∀ td ∈ tds, ∃ u, td.task_id = some (.valid u)) (k : Nat) (table : List TaskEntry) :
    ∃ t, saveTaskEntries entryID newUUID tds k table = .ok t := by
  induction tds generalizing k table with
  | nil => exact ⟨table, rfl⟩
  | cons td rest ih =>
    obtain ⟨u, hu⟩ := h td (List.mem_cons_self _ _)
    have hrest : ∀ x ∈ rest, ∃ u, x.task_id = some (.valid u) :=
      fun x hx => h x (List.mem_cons_of_mem _ hx)
    simp only [saveTaskEntries, hu, uuidParse]
    split
    · exact ih hrest _ _
    · exact ih hrest _ _

theorem saveTaskEntries_error (entryID : UUID) (newUUID : Nat → UUID)
    (tds : List TaskEntryData) (k : Nat) (table : List TaskEntry) (r : Reply)
    (h : saveTaskEntries entryID newUUID tds k table = .error r) : r.isSuccess = false := by
  induction tds generalizing k table with
  | nil => simp [saveTaskEntries] at h
  | cons td rest ih =>
    unfold saveTaskEntries at h
    split at h
    · cases h; rfl
    · split at h
      · cases h; rfl
      · split at h
        · exact ih _ _ h
        · exact ih _ _ h

theorem selectDailyEntry_isSome (db : DB) (cid : UUID) (day : Int) :
    (selectDailyEntry db cid day).isSome = true ↔ HasDayRecord db cid day := by
  unfold selectDailyEntry HasDayRecord
  rw [List.find?_isSome]
  simp

theorem selectDailyEntry_none (db : DB) (cid : UUID) (day : Int) :
    selectDailyEntry db cid day = none ↔ ¬ HasDayRecord db cid day := by
  rw [← selectDailyEntry_isSome]
  cases selectDailyEntry db cid day <;> simp

theorem find_incrementCurrentDay (rows : List Challenge) (cid : UUID) :
    (incrementCurrentDay rows cid).find? (fun c => c.ID = cid)
      = (rows.find? fun c => c.ID = cid).map
          fun c => { c with CurrentDay := c.CurrentDay + 1 } := by
  induction rows with
  | nil => rfl
  | cons c rest ih =>
    unfold incrementCurrentDay at ih ⊢
    by_cases h : c.ID = cid
    · simp [List.find?_cons, h]
    · simp only [List.map_cons, h, if_false, List.find?_cons, decide_False]
      exact ih

/-- What a successful `CreateOrUpdateTodayEntry` has done. -/
theorem CreateOrUpdateTodayEntry_success (db : DB) (cid : UUID) (ctxUserID : Option UUID)
    (body : Option EntryData) (newUUID : Nat → UUID) (challenge : Challenge)
    (hc : (db.challenges.find? fun c => c.ID = cid) = some challenge)
    (hs : (CreateOrUpdateTodayEntry db (.valid cid) ctxUserID body newUUID).1.isSuccess = true) :
    ∃ entryData taskEntries, body = some entryData
      ∧ ctxUserID = some challenge.UserID ∧ challenge.Status = "active"
      ∧ (CreateOrUpdateTodayEntry db (.valid cid) ctxUserID body newUUID).1 = .success 200
      ∧ (CreateOrUpdateTodayEntry db (.valid cid) ctxUserID body newUUID).2
        = { db with
            challenges :=
              if entryData.Completed = true ∧ ¬ HasDayRecord db cid challenge.CurrentDay then
                incrementCurrentDay db.challenges cid
              else db.challenges
            daily_entries :=
              match selectDailyEntry db cid challenge.CurrentDay with
              | some e => updateDailyEntryRow db.daily_entries e.ID entryData
              | none => insertDailyEntryRow db.daily_entries (newUUID 0) cid
                  challenge.CurrentDay entryData
            task_entries := taskEntries } := by
  cases ctxUserID with
  | none => simp [CreateOrUpdateTodayEntry, uuidParse, hc, Reply.isSuccess] at hs
  | some userID =>
    by_cases hu : challenge.UserID = userID
    · by_cases ha : challenge.Status = "active"
      · cases body with
        | none => simp [CreateOrUpdateTodayEntry, uuidParse, hc, hu, ha, Reply.isSuccess] at hs
        | some entryData =>
          subst hu
          cases hsel : selectDailyEntry db cid challenge.CurrentDay with
          | some e =>
            have hrec : HasDayRecord db cid challenge.CurrentDay :=
              (selectDailyEntry_isSome db cid _).mp (by rw [hsel]; rfl)
            cases hsave : saveTaskEntries e.ID newUUID entryData.TaskEntries 0
                db.task_entries with
            | error r =>
              have hr := saveTaskEntries_error _ _ _ _ _ r hsave
              simp [CreateOrUpdateTodayEntry, uuidParse, hc, ha, hsel, finishTodayEntry, hsave,
                hr] at hs
            | ok t =>
              refine ⟨entryData, t, rfl, rfl, ha, ?_, ?_⟩ <;>
                simp [CreateOrUpdateTodayEntry, uuidParse, hc, ha, hsel, finishTodayEntry,
                  hsave, hrec]
          | none =>
            have hrec : ¬ HasDayRecord db cid challenge.CurrentDay :=
              (selectDailyEntry_none db cid _).mp hsel
            cases hsave : saveTaskEntries (newUUID 0) newUUID entryData.TaskEntries 1
                db.task_entries with
            | error r =>
              have hr := saveTaskEntries_error _ _ _ _ _ r hsave
              simp [CreateOrUpdateTodayEntry, uuidParse, hc, ha, hsel, finishTodayEntry, hsave,
                hr] at hs
            | ok t =>
              refine ⟨entryData, t, rfl, rfl, ha, ?_, ?_⟩ <;>
                simp [CreateOrUpdateTodayEntry, uuidParse, hc, ha, hsel, finishTodayEntry,
                  hsave, hrec]
      · simp [CreateOrUpdateTodayEntry, uuidParse, hc, hu, ha, Reply.isSuccess] at hs
    · simp [CreateOrUpdateTodayEntry, uuidParse, hc, hu, Reply.isSuccess] at hs

/-- An owner's call on an active challenge with a valid payload succeeds. -/
theorem CreateOrUpdateTodayEntry_isSuccess (db : DB) (cid : UUID) (entryData : EntryData)
    (newUUID : Nat → UUID) (challenge : Challenge)
    (hc : (db.challenges.find? fun c => c.ID = cid) = some challenge)
    (ha : challenge.Status = "active") (hv : ValidPayload entryData) :
    (CreateOrUpdateTodayEntry db (.valid cid) (some challenge.UserID) (some entryData)
      newUUID).1.isSuccess = true := by
  unfold CreateOrUpdateTodayEntry
  simp only [uuidParse, hc, ha, ne_eq, not_true_eq_false, if_false]
  cases hsel : selectDailyEntry db cid challenge.CurrentDay with
  | some e =>
    obtain ⟨t, ht⟩ := saveTaskEntries_ok e.ID newUUID entryData.TaskEntries hv
      0 db.task_entries
    simp [finishTodayEntry, ht, Reply.isSuccess]
  | none =>
    obtain ⟨t, ht⟩ := saveTaskEntries_ok (newUUID 0) newUUID entryData.TaskEntries hv
      1 db.task_entries
    simp [finishTodayEntry, ht, Reply.isSuccess]

/-- A call by the owner on an active challenge whose current day has no record,
with a valid completed payload: the reply and the store after the call. -/
theorem CreateOrUpdateTodayEntry_first_completion (db : DB) (cid : UUID)
    (entryData : EntryData) (newUUID : Nat → UUID) (challenge : Challenge)
    (hc : (db.challenges.find? fun c => c.ID = cid) = some challenge)
    (ha : challenge.Status = "active") (hv : ValidPayload entryData)
    (hdone : entryData.Completed = true)
    (hno : ¬ HasDayRecord db cid challenge.CurrentDay) :
    ∃ taskEntries,
      CreateOrUpdateTodayEntry db (.valid cid) (some challenge.UserID) (some entryData) newUUID
        = (.success 200,
            { db with
              challenges := incrementCurrentDay db.challenges cid
              daily_entries := insertDailyEntryRow db.daily_entries (newUUID 0) cid
                challenge.CurrentDay entryData
              task_entries := taskEntries }) := by
  have hs := CreateOrUpdateTodayEntry_isSuccess db cid entryData newUUID challenge hc ha hv
  obtain ⟨e, t, hb, _, _, hr, hdb⟩ :=
    CreateOrUpdateTodayEntry_success db cid (some challenge.UserID) (some entryData) newUUID
      challenge hc hs
  cases hb
  refine ⟨t, Prod.ext hr ?_⟩
  rw [hdb]
  simp only [hdone, hno, not_false_eq_true, and_self, if_true,
    (selectDailyEntry_none db cid challenge.CurrentDay).mpr hno]

/-! ## Cascade lemmas -/

theorem deleteEach_fst {α : Type} (fails : Nat → Bool) (key : α → UUID) (k : Nat)
    (ids : List UUID) (rows : List α) (h : (deleteEach fails key k ids rows).2 = true) :
    (deleteEach fails key k ids rows).1 = rows.filter fun r => key r ∉ ids := by
  induction ids generalizing k rows with
  | nil => simp [deleteEach]
  | cons id rest ih =>
    unfold deleteEach at h ⊢
    by_cases hf : fails k = true
    · simp [hf] at h
    · simp only [hf, Bool.false_eq_true, if_false] at h ⊢
      rw [ih _ _ h, List.filter_filter]
      apply List.filter_congr
      intro r _
      by_cases h1 : key r = id <;> simp [h1]

theorem deleteEach_snd_of_noFailure {α : Type} (fails : Nat → Bool) (key : α → UUID) (k : Nat)
    (ids : List UUID) (rows : List α) (hf : ∀ i, fails i = false) :
    (deleteEach fails key k ids rows).2 = true := by
  induction ids generalizing k rows with
  | nil => rfl
  | cons id rest ih =>
    unfold deleteEach
    simp only [hf k, Bool.false_eq_true, if_false]
    exact ih _ _

theorem deleteChallengeRow_committed (tx : DB) (userID cid : UUID) (fails : Nat → Bool)
    (k : Nat) :
    (deleteChallengeRow tx userID cid fails k).committed
      = (deleteChallengeRow tx userID cid fails k).reply.isSuccess := by
  unfold deleteChallengeRow
  dsimp only
  split_ifs <;> rfl

theorem deleteChallengeTaskEntries_committed (tx : DB) (userID cid : UUID)
    (fails : Nat → Bool) (k : Nat) :
    (deleteChallengeTaskEntries tx userID cid fails k).committed
      = (deleteChallengeTaskEntries tx userID cid fails k).reply.isSuccess := by
  unfold deleteChallengeTaskEntries deleteChallengeEntries deleteChallengeMeasurements
    deleteChallengeSections
  dsimp only
  split_ifs <;> first | rfl | exact deleteChallengeRow_committed _ _ _ _ _

/-- The transaction of `DeleteChallenge` is committed exactly when it replies
with success. -/
theorem DeleteChallengeTx_committed (db : DB) (userID cid : UUID) (fails : Nat → Bool) :
    (DeleteChallengeTx db userID cid fails).committed
      = (DeleteChallengeTx db userID cid fails).reply.isSuccess := by
  unfold DeleteChallengeTx
  dsimp only
  split_ifs <;> first | rfl | exact deleteChallengeTaskEntries_committed _ _ _ _ _

theorem deleteChallengeRow_working (tx : DB) (userID cid : UUID) (fails : Nat → Bool) (k : Nat)
    (h : (deleteChallengeRow tx userID cid fails k).committed = true) :
    (deleteChallengeRow tx userID cid fails k).reply = .success 200
    ∧ (∃ c ∈ tx.challenges, c.ID = cid ∧ c.UserID = userID)
    ∧ (deleteChallengeRow tx userID cid fails k).working
      = { tx with
          challenges := tx.challenges.filter fun c => ¬ (c.ID = cid ∧ c.UserID = userID) } := by
  unfold deleteChallengeRow at h ⊢
  dsimp only at h ⊢
  split_ifs at h ⊢ with h1 h2 h3
  refine ⟨rfl, ?_, rfl⟩
  by_contra hno
  apply h2
  rw [List.length_eq_zero, List.filter_eq_nil_iff]
  intro c hc hcond
  exact hno ⟨c, hc, by simpa using hcond⟩

theorem deleteChallengeTaskEntries_working (tx : DB) (userID cid : UUID) (fails : Nat → Bool)
    (k : Nat) (h : (deleteChallengeTaskEntries tx userID cid fails k).committed = true) :
    (deleteChallengeTaskEntries tx userID cid fails k).reply = .success 200
    ∧ (∃ c ∈ tx.challenges, c.ID = cid ∧ c.UserID = userID)
    ∧ (deleteChallengeTaskEntries tx userID cid fails k).working
      = { tx with
          challenges := tx.challenges.filter fun c => ¬ (c.ID = cid ∧ c.UserID = userID)
          sections := tx.sections.filter fun s => s.ChallengeID ≠ cid
          daily_entries := tx.daily_entries.filter fun e => e.ChallengeID ≠ cid
          task_entries := tx.task_entries.filter fun te => ¬ taskEntryOf tx cid te
          measurements := tx.measurements.filter fun m => m.ChallengeID ≠ cid } := by
  unfold deleteChallengeTaskEntries deleteChallengeEntries deleteChallengeMeasurements
    deleteChallengeSections at h ⊢
  dsimp only at h ⊢
  split_ifs at h ⊢ with h1 h2 h3 h4 h5
  obtain ⟨r1, r2, r3⟩ := deleteChallengeRow_working _ userID cid fails _ h
  refine ⟨r1, r2, ?_⟩
  rw [r3]
  have hte := deleteEach_fst fails (fun te : TaskEntry => te.DailyEntryID) _ _ tx.task_entries
    (by simpa using h2)
  simp only [hte]
  congr 1
  apply List.filter_congr
  intro te _
  simp [taskEntryOf, eq_comm]

/-- A committed transaction of `DeleteChallenge` has removed the rows of the
challenge and the challenge row owned by the caller. -/
theorem DeleteChallengeTx_working (db : DB) (userID cid : UUID) (fails : Nat → Bool)
    (h : (DeleteChallengeTx db userID cid fails).committed = true) :
    (DeleteChallengeTx db userID cid fails).reply = .success 200
    ∧ (∃ c ∈ db.challenges, c.ID = cid ∧ c.UserID = userID)
    ∧ (DeleteChallengeTx db userID cid fails).working
      = { withoutChallenge db cid with
          challenges := db.challenges.filter fun c => ¬ (c.ID = cid ∧ c.UserID = userID) } := by
  unfold DeleteChallengeTx at h ⊢
  dsimp only at h ⊢
  split_ifs at h ⊢ with h1 h2
  obtain ⟨r1, r2, r3⟩ := deleteChallengeTaskEntries_working _ userID cid fails _ h
  refine ⟨r1, r2, ?_⟩
  rw [r3]
  have ht := deleteEach_fst fails (fun t : Task => t.SectionID) 3 _ db.tasks
    (by simpa using h2)
  simp only [withoutChallenge, ht, taskEntryOf]
  congr 1
  apply List.filter_congr
  intro t _
  simp [taskOf, eq_comm]

theorem DeleteChallenge_unchanged_of_not_success (db : DB) (caller : Option String)
    (challengeID : IDText) (fails : Nat → Bool)
    (h : (DeleteChallenge db caller challengeID fails).1.isSuccess = false) :
    (DeleteChallenge db caller challengeID fails).2 = db := by
  unfold DeleteChallenge at h ⊢
  cases caller with
  | none => rfl
  | some clerkID =>
    dsimp only at h ⊢
    cases hu : (if fails 0 = true then none else selectUser db clerkID) with
    | none => rfl
    | some user =>
      rw [hu] at h
      cases challengeID with
      | empty => rfl
      | malformed => rfl
      | valid cid =>
        dsimp only at h ⊢
        split_ifs at h ⊢ with h1
        · rfl
        · unfold TxOutcome.settle at h ⊢
          dsimp only at h ⊢
          rw [DeleteChallengeTx_committed, h]
          rfl

theorem DeleteChallenge_success (db : DB) (caller : Option String)
    (challengeID : IDText) (fails : Nat → Bool)
    (h : (DeleteChallenge db caller challengeID fails).1.isSuccess = true) :
    ∃ clerkID user cid, caller = some clerkID ∧ selectUser db clerkID = some user
      ∧ challengeID = .valid cid
      ∧ (DeleteChallengeTx db user.ID cid fails).committed = true
      ∧ DeleteChallenge db caller challengeID fails
        = ((DeleteChallengeTx db user.ID cid fails).reply,
            (DeleteChallengeTx db user.ID cid fails).working) := by
  cases caller with
  | none => simp [DeleteChallenge, Reply.isSuccess] at h
  | some clerkID =>
    by_cases h0 : fails 0 = true
    · simp [DeleteChallenge, h0, Reply.isSuccess] at h
    · cases hu : selectUser db clerkID with
      | none => simp [DeleteChallenge, h0, hu, Reply.isSuccess] at h
      | some user =>
        cases challengeID with
        | empty => simp [DeleteChallenge, h0, hu, Reply.isSuccess] at h
        | malformed => simp [DeleteChallenge, h0, hu, Reply.isSuccess] at h
        | valid cid =>
          by_cases h1 : fails 1 = true
          · simp [DeleteChallenge, h0, hu, h1, Reply.isSuccess] at h
          · simp only [DeleteChallenge, h0, hu, h1, TxOutcome.settle, if_false,
              Bool.false_eq_true] at h
            have hc : (DeleteChallengeTx db user.ID cid fails).committed = true := by
              rw [DeleteChallengeTx_committed]; exact h
            refine ⟨clerkID, user, cid, rfl, hu, rfl, hc, ?_⟩
            simp [DeleteChallenge, h0, hu, h1, TxOutcome.settle, hc]

theorem DeleteChallengeTx_not_owner (db : DB) (userID cid : UUID) (fails : Nat → Bool)
    (hno : ¬ ∃ c ∈ db.challenges, c.ID = cid ∧ c.UserID = userID) :
    (DeleteChallengeTx db userID cid fails).committed = false := by
  cases hc : (DeleteChallengeTx db userID cid fails).committed with
  | false => rfl
  | true => exact absurd (DeleteChallengeTx_working db userID cid fails hc).2.1 hno

theorem DeleteChallengeTx_notFound (db : DB) (userID cid : UUID) (fails : Nat → Bool)
    (hf : ∀ i, fails i = false)
    (hno : ¬ ∃ c ∈ db.challenges, c.ID = cid ∧ c.UserID = userID) :
    (DeleteChallengeTx db userID cid fails).reply = .failure 404 "Challenge not found" := by
  have hall : ∀ a ∈ db.challenges, a.ID = cid → ¬ a.UserID = userID :=
    fun a ha h1 h2 => hno ⟨a, ha, h1, h2⟩
  unfold DeleteChallengeTx deleteChallengeTaskEntries deleteChallengeEntries
    deleteChallengeMeasurements deleteChallengeSections deleteChallengeRow
  simp [hf, deleteEach_snd_of_noFailure]
  rw [if_pos hall]

/-! ## Lemmas on the two entry handlers -/

theorem saveTaskEntries_invalid (entryID : UUID) (newUUID : Nat → UUID)
    (tds : List TaskEntryData) (k : Nat) (table : List TaskEntry)
    (h : ∃ td ∈ tds, ¬ ∃ u, td.task_id = some (.valid u)) :
    saveTaskEntries entryID newUUID tds k table = .error .crash
    ∨ saveTaskEntries entryID newUUID tds k table
        = .error (.failure 400 "Invalid task ID in task entries") := by
  induction tds generalizing k table with
  | nil => obtain ⟨td, htd, _⟩ := h; simp at htd
  | cons td rest ih =>
    unfold saveTaskEntries
    cases hid : td.task_id with
    | none => left; rfl
    | some text =>
      cases text with
      | empty => right; rfl
      | malformed => right; rfl
      | valid u =>
        have hrest : ∃ x ∈ rest, ¬ ∃ u, x.task_id = some (.valid u) := by
          obtain ⟨x, hx, hbad⟩ := h
          rcases List.mem_cons.mp hx with rfl | hx2
          · exact absurd ⟨u, hid⟩ hbad
          · exact ⟨x, hx2, hbad⟩
        simp only [uuidParse]
        split
        · exact ih _ _ hrest
        · exact ih _ _ hrest

/-- The store after `UpdateDailyEntry`: unchanged, or the day record found for
the day rewritten and the task entries saved; no other table is written. -/
theorem UpdateDailyEntry_store (db : DB) (challengeID : IDText) (day : Option Int)
    (ctxUserID : Option UUID) (body : Option EntryData) (newUUID : Nat → UUID) :
    (UpdateDailyEntry db challengeID day ctxUserID body newUUID).2 = db
    ∨ ∃ cid dayNumber e entryData t,
        challengeID = .valid cid ∧ day = some dayNumber ∧ body = some entryData
        ∧ selectDailyEntry db cid dayNumber = some e
        ∧ saveTaskEntries e.ID newUUID entryData.TaskEntries 0 db.task_entries = .ok t
        ∧ UpdateDailyEntry db challengeID day ctxUserID body newUUID
          = (.success 200,
              { db with
                daily_entries := updateDailyEntryRow db.daily_entries e.ID entryData
                task_entries := t }) := by
  unfold UpdateDailyEntry
  cases challengeID with
  | empty => left; rfl
  | malformed => left; rfl
  | valid cid =>
    cases day with
    | none => left; rfl
    | some dayNumber =>
      cases ctxUserID with
      | none => left; rfl
      | some userID =>
        simp only [uuidParse]
        cases hc : db.challenges.find? fun c => decide (c.ID = cid) with
        | none => left; rfl
        | some challenge =>
          by_cases hu : challenge.UserID = userID
          · cases body with
            | none => left; simp [hu]
            | some entryData =>
              cases hsel : selectDailyEntry db cid dayNumber with
              | none => left; simp [hu, hsel]
              | some e =>
                cases hsave : saveTaskEntries e.ID newUUID entryData.TaskEntries 0
                    db.task_entries with
                | error r => left; simp [hu, hsel, hsave]
                | ok t =>
                  right
                  exact ⟨cid, dayNumber, e, entryData, t, rfl, rfl, rfl, hsel, hsave,
                    by simp [hu, hsel, hsave]⟩
          · left; simp [hu]

/-- The store after `CreateOrUpdateTodayEntry`: unchanged, or the day record of
the current day rewritten or appended, the task entries saved and the challenge
table possibly advanced. -/
theorem CreateOrUpdateTodayEntry_store (db : DB) (challengeID : IDText)
    (ctxUserID : Option UUID) (body : Option EntryData) (newUUID : Nat → UUID) :
    (CreateOrUpdateTodayEntry db challengeID ctxUserID body newUUID).2 = db
    ∨ ∃ cid challenge entryData entryID k t,
        challengeID = .valid cid ∧ body = some entryData
        ∧ (db.challenges.find? fun c => c.ID = cid) = some challenge
        ∧ saveTaskEntries entryID newUUID entryData.TaskEntries k db.task_entries = .ok t
        ∧ (CreateOrUpdateTodayEntry db challengeID ctxUserID body newUUID).2.task_entries = t
        ∧ ((∃ e, selectDailyEntry db cid challenge.CurrentDay = some e ∧ entryID = e.ID
              ∧ (CreateOrUpdateTodayEntry db challengeID ctxUserID body newUUID).2.daily_entries
                = updateDailyEntryRow db.daily_entries e.ID entryData)
          ∨ (selectDailyEntry db cid challenge.CurrentDay = none
              ∧ (CreateOrUpdateTodayEntry db challengeID ctxUserID body newUUID).2.daily_entries
                = insertDailyEntryRow db.daily_entries entryID cid challenge.CurrentDay
                    entryData)) := by
  unfold CreateOrUpdateTodayEntry
  cases challengeID with
  | empty => left; rfl
  | malformed => left; rfl
  | valid cid =>
    cases ctxUserID with
    | none => left; rfl
    | some userID =>
      simp only [uuidParse]
      cases hc : db.challenges.find? fun c => decide (c.ID = cid) with
      | none => left; rfl
      | some challenge =>
        by_cases hu : challenge.UserID = userID
        · by_cases ha : challenge.Status = "active"
          · cases body with
            | none => left; simp [hu, ha]
            | some entryData =>
              cases hsel : selectDailyEntry db cid challenge.CurrentDay with
              | some e =>
                cases hsave : saveTaskEntries e.ID newUUID entryData.TaskEntries 0
                    db.task_entries with
                | error r => left; simp [hu, ha, hsel, finishTodayEntry, hsave]
                | ok t =>
                  right
                  refine ⟨cid, challenge, entryData, e.ID, 0, t, rfl, rfl, hc, hsave, ?_,
                    Or.inl ⟨e, hsel, rfl, ?_⟩⟩ <;> simp [hu, ha, hsel, finishTodayEntry, hsave]
              | none =>
                cases hsave : saveTaskEntries (newUUID 0) newUUID entryData.TaskEntries 1
                    db.task_entries with
                | error r => left; simp [hu, ha, hsel, finishTodayEntry, hsave]
                | ok t =>
                  right
                  refine ⟨cid, challenge, entryData, newUUID 0, 1, t, rfl, rfl, hc, hsave, ?_,
                    Or.inr ⟨hsel, ?_⟩⟩ <;> simp [hu, ha, hsel, finishTodayEntry, hsave]
          · left; simp [hu, ha]
        · left; simp [hu]

theorem dayKeys_updateDailyEntryRow (rows : List DailyEntry) (entryID : UUID)
    (entryData : EntryData) :
    (updateDailyEntryRow rows entryID entryData).map (fun e => (e.ChallengeID, e.DayNumber))
      = rows.map fun e => (e.ChallengeID, e.DayNumber) := by
  unfold updateDailyEntryRow
  rw [List.map_map]
  apply List.map_congr_left
  intro d _
  simp only [Function.comp]
  split_ifs <;> rfl

theorem taskKeys_update (table : List TaskEntry) (x : UUID) (c : Bool) (v n : String) :
    taskKeys (table.map fun te =>
        if te.ID = x then { te with Completed := c, Value := v, Notes := n } else te)
      = taskKeys table := by
  unfold taskKeys
  rw [List.map_map]
  apply List.map_congr_left
  intro te _
  simp only [Function.comp]
  split_ifs <;> rfl

theorem saveTaskEntries_keys_nodup (entryID : UUID) (newUUID : Nat → UUID)
    (tds : List TaskEntryData) (k : Nat) (table t : List TaskEntry)
    (h : saveTaskEntries entryID newUUID tds k table = .ok t)
    (hnd : (taskKeys table).Nodup) : (taskKeys t).Nodup := by
  induction tds generalizing k table with
  | nil =>
    simp only [saveTaskEntries, Except.ok.injEq] at h
    rw [← h]; exact hnd
  | cons td rest ih =>
    unfold saveTaskEntries at h
    split at h
    · cases h
    · split at h
      · cases h
      · rename_i taskID _
        split at h
        · refine ih _ _ h ?_
          rw [taskKeys_update]; exact hnd
        · rename_i hnone
          refine ih _ _ h ?_
          unfold taskKeys at hnd ⊢
          rw [List.map_append, List.nodup_append]
          refine ⟨hnd, List.nodup_singleton _, ?_⟩
          intro key hk1 hk2
          simp only [List.map_cons, List.map_nil, List.mem_singleton] at hk2
          obtain ⟨te, hte, hkey⟩ := List.mem_map.mp hk1
          rw [hk2] at hkey
          have hp := List.find?_eq_none.mp hnone te hte
          simp only [Prod.mk.injEq] at hkey
          simp [hkey.1, hkey.2] at hp

/-! ## Lemmas on section creation -/

theorem integerOfText_singleton (c : Char) :
    integerOfText (String.singleton c)
      = if isDecimalDigit c = true then some ((c.toNat : Int) - 48) else none := by
  have hd : (String.singleton c).data = [c] := rfl
  unfold integerOfText
  rw [hd]
  by_cases hb : isBlank c = true
  · have hnd : isDecimalDigit c = false := by
      simp only [isBlank, isDecimalDigit, Bool.or_eq_true, Bool.and_eq_true,
        decide_eq_true_eq] at hb ⊢
      rcases hb with hb | hb <;> simp <;> omega
    simp [List.dropWhile, hb, hnd]
  · by_cases hs : c.toNat = 45 ∨ c.toNat = 43
    · have hnd : isDecimalDigit c = false := by
        simp only [isDecimalDigit]
        rcases hs with hs | hs <;> simp [hs]
      simp [List.dropWhile, hb, hs, hnd]
    · have h45 : ¬ c.toNat = 45 := fun h => hs (Or.inl h)
      have h43 : ¬ c.toNat = 43 := fun h => hs (Or.inr h)
      by_cases hdg : isDecimalDigit c = true
      · simp [List.dropWhile, List.takeWhile, hb, hs, hdg, h45, h43]
      · simp [List.dropWhile, List.takeWhile, hb, hs, hdg, h45, h43]

theorem toNat_ofNat_of_valid (m : Nat) (h : Nat.isValidChar m) : (Char.ofNat m).toNat = m := by
  simp only [Char.ofNat, h, Char.ofNatAux, Char.toNat, dite_true]
  rfl

/-- The text `string(n)` is never read back as the integer `n`. -/
theorem integerOfText_runeString_ne (n : Int) : integerOfText (runeString n) ≠ some n := by
  unfold runeString
  split_ifs with h
  · rw [integerOfText_singleton]
    split_ifs
    · rw [toNat_ofNat_of_valid _ h.2]
      intro heq
      simp only [Option.some.injEq] at heq
      omega
    · simp
  · rw [integerOfText_singleton]
    have : isDecimalDigit (Char.ofNat 0xFFFD) = false := by decide
    simp [this]

/-- A `CreateSection` call that leaves the order to the handler never stores
the next order: it fails and stores nothing, or it stores an order other than
1 plus the maximum. -/
theorem CreateSection_implicit_order_never_next (db : DB) (caller : Option String)
    (cid : UUID) (req : CreateSectionRequest) (newID : UUID)
    (himplicit : req.Order = "" ∨ req.Order = "0") :
    (CreateSection db caller (.valid cid) (some req) newID).2 = db
    ∨ ∃ o, o ≠ maxSectionOrder db cid + 1
        ∧ (CreateSection db caller (.valid cid) (some req) newID).2.sections
          = db.sections ++ [⟨newID, cid, req.Name, req.Description, o⟩] := by
  unfold CreateSection
  cases caller with
  | none => left; rfl
  | some userID =>
    by_cases hown : validateChallengeOwnership db (.valid cid) userID = false
    · left; simp [hown]
    · by_cases hname : req.Name = ""
      · left; simp [hown, hname]
      · simp only [hown, hname, uuidParse, himplicit, if_true, if_false]
        cases hparse : integerOfText (runeString (maxSectionOrder db cid + 1)) with
        | none => left; rfl
        | some o =>
          right
          refine ⟨o, ?_, rfl⟩
          intro ho
          exact integerOfText_runeString_ne _ (ho ▸ hparse)

/-! ## Lemmas on task creation and update -/

/-- Go's sum is the exact sum whenever the exact sum is a value of Go's `int`. -/
theorem goAdd_eq (a b : Int) (h : IsGoInt (a + b)) : goAdd a b = a + b := by
  unfold IsGoInt goIntMin goIntMax at h
  unfold goAdd goIntMin
  omega

/-- A task that passes the ownership check is a row of the store. -/
theorem validateTaskOwnership_exists (db : DB) (taskID : IDText) (userID : String)
    (h : validateTaskOwnership db taskID userID = true) :
    ∃ u, taskID = .valid u ∧ ∃ t ∈ db.tasks, t.ID = u := by
  cases taskID with
  | empty => simp [validateTaskOwnership, uuidParse] at h
  | malformed => simp [validateTaskOwnership, uuidParse] at h
  | valid u =>
    refine ⟨u, rfl, ?_⟩
    simp only [validateTaskOwnership, uuidParse, bne_iff_ne, ne_eq, List.length_eq_zero] at h
    obtain ⟨x, hx⟩ := List.exists_mem_of_ne_nil _ h
    simp only [List.mem_flatMap, List.mem_filter, decide_eq_true_eq] at hx
    obtain ⟨t, ht, _, _, _, _, _, hid, _⟩ := hx
    exact ⟨t, ht, hid⟩

/-- The result of `UpdateTask` for the owner of the task, with a name, a type and
a strikes limit that is a value of Go's `int`. -/
theorem UpdateTask_owner (db : DB) (userID : String) (u : UUID) (req : UpdateTaskRequest)
    (hown : validateTaskOwnership db (.valid u) userID = true)
    (hname : req.Name ≠ "") (htype : req.TaskType ≠ "") (hint : IsGoInt req.StrikesLimit) :
    UpdateTask db (some userID) (.valid u) (some req)
      = (.success 200,
          { db with tasks := db.tasks.map fun t =>
              if t.ID = u then
                { t with Name := req.Name, Description := req.Description,
                         TaskType := req.TaskType, Required := req.Required,
                         RestartOnFail := req.RestartOnFail,
                         StrikesEnabled := req.StrikesEnabled,
                         StrikesLimit :=
                           if req.StrikesEnabled ∧ req.StrikesLimit ≤ 0 then 3
                           else req.StrikesLimit }
              else t }) := by
  obtain ⟨u2, hu2, t0, ht0, hid0⟩ := validateTaskOwnership_exists db _ userID hown
  cases hu2
  have hany : (db.tasks.any fun t => uuidParse (.valid u) = some t.ID) = true := by
    simp only [List.any_eq_true, decide_eq_true_eq, uuidParse, Option.some.injEq]
    exact ⟨t0, ht0, hid0.symm⟩
  simp only [UpdateTask, hown, hname, htype, hany, hint, if_false, Bool.true_eq_false,
    not_true_eq_false]
  congr 2
  apply List.map_congr_left
  intro t _
  by_cases h : t.ID = u
  · simp [uuidParse, h]
  · simp [uuidParse, h, Ne.symm h]

/-- The result of `CreateTaskInt64` for the owner of the section, with a name, a
type and body numbers that are values of Go's `int`. -/
theorem CreateTaskInt64_owner (db : DB) (userID : String) (sid : UUID)
    (req : CreateTaskRequest) (newID : UUID)
    (hown : validateSectionOwnership db (.valid sid) userID = true)
    (hname : req.Name ≠ "") (htype : req.TaskType ≠ "")
    (hlimit : IsGoInt req.StrikesLimit) (horder : IsGoInt req.Order) :
    CreateTaskInt64 db (some userID) (.valid sid) (some req) newID
      = (.success 201, { db with tasks := db.tasks ++
          [{ ID := newID, SectionID := sid, Name := req.Name, Description := req.Description,
             TaskType := req.TaskType, Required := req.Required,
             RestartOnFail := req.RestartOnFail, StrikesEnabled := req.StrikesEnabled,
             StrikesLimit :=
               if req.StrikesEnabled ∧ req.StrikesLimit ≤ 0 then 3 else req.StrikesLimit,
             Order := if req.Order ≤ 0 then goAdd (maxTaskOrder db sid) 1 else req.Order }] }) := by
  simp only [CreateTaskInt64, hown, hname, htype, hlimit, horder, uuidParse, if_false,
    Bool.true_eq_false, and_self, not_true_eq_false]

/-- `CreateTaskInt64` and `CreateTask` agree on a body whose numbers are values
of Go's `int` when the next order, where it is computed, is one. -/
theorem CreateTaskInt64_eq_CreateTask (db : DB) (caller : Option String) (sectionID : IDText)
    (req : CreateTaskRequest) (newID : UUID)
    (hlimit : IsGoInt req.StrikesLimit) (horder : IsGoInt req.Order)
    (hnext : ∀ sid, sectionID = .valid sid → req.Order ≤ 0 →
      IsGoInt (maxTaskOrder db sid + 1)) :
    CreateTaskInt64 db caller sectionID (some req) newID
      = CreateTask db caller sectionID (some req) newID := by
  cases caller with
  | none => rfl
  | some userID =>
    cases sectionID with
    | empty => simp [CreateTaskInt64, CreateTask, uuidParse, hlimit, horder]
    | malformed => simp [CreateTaskInt64, CreateTask, uuidParse, hlimit, horder]
    | valid sid =>
      by_cases hord : req.Order ≤ 0
      · have := goAdd_eq _ _ (hnext sid rfl hord)
        simp only [CreateTaskInt64, CreateTask, uuidParse, hlimit, horder, and_self,
          not_true_eq_false, if_false, this]
      · simp only [CreateTaskInt64, CreateTask, uuidParse, hlimit, horder, and_self,
          not_true_eq_false, if_false, hord]

/-! ## Lemmas on moves: relative order and round trips -/

theorem moveFront_lt_iff (n c x y : Int) (hx : x ≠ c) (hy : y ≠ c) :
    moveFront n c x < moveFront n c y ↔ x < y := by
  unfold moveFront
  rw [if_neg hx, if_neg hy]
  split_ifs <;> omega

theorem moveBack_lt_iff (n c x y : Int) (hx : x ≠ c) (hy : y ≠ c) :
    moveBack n c x < moveBack n c y ↔ x < y := by
  unfold moveBack
  rw [if_neg hx, if_neg hy]
  split_ifs <;> omega

/-- Moving to the back and then to the front again restores an order value. -/
theorem moveFront_moveBack (n c x : Int) (hx : x ≠ c) (hlt : c < n) :
    moveFront c n (moveBack n c x) = x := by
  unfold moveFront moveBack
  rw [if_neg hx]
  split_ifs <;> omega

/-- Moving to the front and then to the back again restores an order value. -/
theorem moveBack_moveFront (n c x : Int) (hx : x ≠ c) (hlt : n < c) :
    moveBack c n (moveFront n c x) = x := by
  unfold moveFront moveBack
  rw [if_neg hx]
  split_ifs <;> omega

/-- A move beyond the last order acts on the other orders as the removal of the
moved one. -/
theorem moveBack_eq_closeGap (n c x : Int) (hx : x ≠ c) (hle : x ≤ n) :
    moveBack n c x = closeGap c x := by
  unfold moveBack closeGap
  rw [if_neg hx]
  split_ifs <;> omega

theorem moveTaskFront_order (u sid : UUID) (n c : Int) (t : Task) (hid : t.ID ≠ u)
    (hs : t.SectionID = sid) (hc : t.Order ≠ c) :
    (moveTaskFront u sid n c t).Order = moveFront n c t.Order := by
  unfold moveTaskFront moveFront
  rw [if_neg hid, if_neg hc]
  by_cases h : n ≤ t.Order ∧ t.Order < c
  · rw [if_pos ⟨hs, h⟩, if_pos h]
  · rw [if_neg (fun hh => h hh.2), if_neg h]

theorem moveTaskBack_order (u sid : UUID) (n c : Int) (t : Task) (hid : t.ID ≠ u)
    (hs : t.SectionID = sid) (hc : t.Order ≠ c) :
    (moveTaskBack u sid n c t).Order = moveBack n c t.Order := by
  unfold moveTaskBack moveBack
  rw [if_neg hid, if_neg hc]
  by_cases h : c < t.Order ∧ t.Order ≤ n
  · rw [if_pos ⟨hs, h⟩, if_pos h]
  · rw [if_neg (fun hh => h hh.2), if_neg h]

/-- A row map that keeps the identifiers commutes with the task query. -/
theorem selectTask_map (db : DB) (f : Task → Task) (hf : ∀ t, (f t).ID = t.ID)
    (taskID : IDText) :
    selectTask { db with tasks := db.tasks.map f } taskID = (selectTask db taskID).map f := by
  unfold selectTask
  simp only
  induction db.tasks with
  | nil => rfl
  | cons t rest ih =>
    simp only [List.map_cons, List.find?_cons, hf]
    by_cases h : uuidParse taskID = some t.ID
    · simp [h]
    · simp [h, ih]

/-- A row map that keeps identifiers and parents keeps the ownership check. -/
theorem validateTaskOwnership_map (db : DB) (f : Task → Task) (hf : ∀ t, (f t).ID = t.ID)
    (hp : ∀ t, (f t).SectionID = t.SectionID) (taskID : IDText) (userID : String) :
    validateTaskOwnership { db with tasks := db.tasks.map f } taskID userID
      = validateTaskOwnership db taskID userID := by
  unfold validateTaskOwnership
  cases uuidParse taskID with
  | none => rfl
  | some tid =>
    simp only [List.flatMap_map, hf, hp]

theorem ReorderTask_same (db : DB) (userID : String) (u : UUID) (E : Task)
    (hown : validateTaskOwnership db (.valid u) userID = true)
    (hE : selectTask db (.valid u) = some E) (hc : 0 < E.Order) (hint : IsGoInt E.Order) :
    ReorderTask db (some userID) (.valid u) (some ⟨E.Order⟩) = (.success 200, db) := by
  unfold ReorderTask
  simp only [hown, hE, Bool.true_eq_false, if_false, not_le.mpr hc, lt_irrefl, gt_iff_lt, hint,
    not_true_eq_false]

/-- The two row maps of a move to the front and back again cancel on the rows of
the store. -/
theorem moveTaskBack_moveTaskFront (db : DB) (u : UUID) (n : Int) (E : Task)
    (hids : (db.tasks.map fun t => t.ID).Nodup) (hE : E ∈ db.tasks) (hu : E.ID = u)
    (hnd : (taskOrders db E.SectionID).Nodup) (hlt : n < E.Order) (t : Task)
    (ht : t ∈ db.tasks) :
    moveTaskBack u E.SectionID E.Order n (moveTaskFront u E.SectionID n E.Order t) = t := by
  by_cases hid : t.ID = u
  · have hte : t = E := task_eq_of_id db hids t E ht hE (hid.trans hu.symm)
    subst hte
    cases t
    simp_all [moveTaskFront, moveTaskBack]
  · by_cases hs : t.SectionID = E.SectionID
    · have hc : t.Order ≠ E.Order := fun h =>
        hid ((congrArg Task.ID (task_eq_of_order db E.SectionID hnd t E ht hE hs rfl h)).trans hu)
      by_cases hr : n ≤ t.Order ∧ t.Order < E.Order
      · have h1 : moveTaskFront u E.SectionID n E.Order t = { t with Order := t.Order + 1 } := by
          unfold moveTaskFront
          rw [if_neg hid, if_pos ⟨hs, hr⟩]
        rw [h1]
        unfold moveTaskBack
        simp only [hid, if_false]
        split_ifs with h
        · cases t
          simp
        · exact absurd ⟨hs, by omega, by omega⟩ h
      · have h1 : moveTaskFront u E.SectionID n E.Order t = t := by
          unfold moveTaskFront
          rw [if_neg hid, if_neg (fun hh => hr hh.2)]
        rw [h1]
        unfold moveTaskBack
        rw [if_neg hid, if_neg (by intro hh; omega)]
    · have h1 : moveTaskFront u E.SectionID n E.Order t = t := by
        unfold moveTaskFront
        rw [if_neg hid, if_neg (fun hh => hs hh.1)]
      rw [h1]
      unfold moveTaskBack
      rw [if_neg hid, if_neg (fun hh => hs hh.1)]

/-- The two row maps of a move to the back and front again cancel on the rows of
the store. -/
theorem moveTaskFront_moveTaskBack (db : DB) (u : UUID) (n : Int) (E : Task)
    (hids : (db.tasks.map fun t => t.ID).Nodup) (hE : E ∈ db.tasks) (hu : E.ID = u)
    (hnd : (taskOrders db E.SectionID).Nodup) (hlt : E.Order < n) (t : Task)
    (ht : t ∈ db.tasks) :
    moveTaskFront u E.SectionID E.Order n (moveTaskBack u E.SectionID n E.Order t) = t := by
  by_cases hid : t.ID = u
  · have hte : t = E := task_eq_of_id db hids t E ht hE (hid.trans hu.symm)
    subst hte
    cases t
    simp_all [moveTaskFront, moveTaskBack]
  · by_cases hs : t.SectionID = E.SectionID
    · have hc : t.Order ≠ E.Order := fun h =>
        hid ((congrArg Task.ID (task_eq_of_order db E.SectionID hnd t E ht hE hs rfl h)).trans hu)
      by_cases hr : E.Order < t.Order ∧ t.Order ≤ n
      · have h1 : moveTaskBack u E.SectionID n E.Order t = { t with Order := t.Order - 1 } := by
          unfold moveTaskBack
          rw [if_neg hid, if_pos ⟨hs, hr⟩]
        rw [h1]
        unfold moveTaskFront
        simp only [hid, if_false]
        split_ifs with h
        · cases t
          simp
        · exact absurd ⟨hs, by omega, by omega⟩ h
      · have h1 : moveTaskBack u E.SectionID n E.Order t = t := by
          unfold moveTaskBack
          rw [if_neg hid, if_neg (fun hh => hr hh.2)]
        rw [h1]
        unfold moveTaskFront
        rw [if_neg hid, if_neg (by intro hh; omega)]
    · have h1 : moveTaskBack u E.SectionID n E.Order t = t := by
        unfold moveTaskBack
        rw [if_neg hid, if_neg (fun hh => hs hh.1)]
      rw [h1]
      unfold moveTaskFront
      rw [if_neg hid, if_neg (fun hh => hs hh.1)]

/-- A move of task `u` to a positive order followed by a move back to its
positive former order restores the store. -/
theorem ReorderTask_round_trip (db : DB) (userID : String) (u : UUID) (n : Int) (E : Task)
    (hids : (db.tasks.map fun t => t.ID).Nodup)
    (hnd : (taskOrders db E.SectionID).Nodup)
    (hown : validateTaskOwnership db (.valid u) userID = true)
    (hE : selectTask db (.valid u) = some E) (hn : 0 < n) (hc : 0 < E.Order)
    (hint : IsGoInt n) (hintc : IsGoInt E.Order) :
    (ReorderTask db (some userID) (.valid u) (some ⟨n⟩)).1 = .success 200
    ∧ ReorderTask (ReorderTask db (some userID) (.valid u) (some ⟨n⟩)).2 (some userID)
        (.valid u) (some ⟨E.Order⟩) = (.success 200, db) := by
  obtain ⟨hmem, hu⟩ := selectTask_some db u E hE
  rcases lt_trichotomy n E.Order with hlt | heq | hgt
  · rw [ReorderTask_front db userID u n E hown hE hn hlt hint]
    refine ⟨rfl, ?_⟩
    have hown1 : validateTaskOwnership
        { db with tasks := db.tasks.map (moveTaskFront u E.SectionID n E.Order) } (.valid u)
        userID = true := by
      rw [validateTaskOwnership_map db _ (moveTaskFront_id u E.SectionID n E.Order)
        (moveTaskFront_parent u E.SectionID n E.Order)]
      exact hown
    have hE1 : selectTask
        { db with tasks := db.tasks.map (moveTaskFront u E.SectionID n E.Order) } (.valid u)
        = some { E with Order := n } := by
      rw [selectTask_map db _ (moveTaskFront_id u E.SectionID n E.Order), hE]
      simp [moveTaskFront, hu]
    have h2 := ReorderTask_back _ userID u E.Order _ hown1 hE1 hc hlt hintc
    simp only at h2
    have hmap : (db.tasks.map (moveTaskFront u E.SectionID n E.Order)).map
        (moveTaskBack u E.SectionID E.Order n) = db.tasks := by
      rw [List.map_map]
      conv_rhs => rw [← List.map_id db.tasks]
      apply List.map_congr_left
      intro t ht
      exact moveTaskBack_moveTaskFront db u n E hids hmem hu hnd hlt t ht
    rw [h2, hmap]
  · subst heq
    rw [ReorderTask_same db userID u E hown hE hc hintc]
    exact ⟨rfl, ReorderTask_same db userID u E hown hE hc hintc⟩
  · rw [ReorderTask_back db userID u n E hown hE hn hgt hint]
    refine ⟨rfl, ?_⟩
    have hown1 : validateTaskOwnership
        { db with tasks := db.tasks.map (moveTaskBack u E.SectionID n E.Order) } (.valid u)
        userID = true := by
      rw [validateTaskOwnership_map db _ (moveTaskBack_id u E.SectionID n E.Order)
        (moveTaskBack_parent u E.SectionID n E.Order)]
      exact hown
    have hE1 : selectTask
        { db with tasks := db.tasks.map (moveTaskBack u E.SectionID n E.Order) } (.valid u)
        = some { E with Order := n } := by
      rw [selectTask_map db _ (moveTaskBack_id u E.SectionID n E.Order), hE]
      simp [moveTaskBack, hu]
    have h2 := ReorderTask_front _ userID u E.Order _ hown1 hE1 hc hgt hintc
    simp only at h2
    have hmap : (db.tasks.map (moveTaskBack u E.SectionID n E.Order)).map
        (moveTaskFront u E.SectionID E.Order n) = db.tasks := by
      rw [List.map_map]
      conv_rhs => rw [← List.map_id db.tasks]
      apply List.map_congr_left
      intro t ht
      exact moveTaskFront_moveTaskBack db u n E hids hmem hu hnd hgt t ht
    rw [h2, hmap]

theorem otherTaskOrders_moveBack (db : DB) (u : UUID) (n : Int) (E : Task)
    (hids : (db.tasks.map fun t => t.ID).Nodup) (hE : E ∈ db.tasks) (hu : E.ID = u)
    (hnd : (taskOrders db E.SectionID).Nodup)
    (hle : ∀ x ∈ taskOrders db E.SectionID, x ≤ n) :
    otherTaskOrders { db with tasks := db.tasks.map (moveTaskBack u E.SectionID n E.Order) }
        E.SectionID u
      = ((taskOrders db E.SectionID).filter fun x => x ≠ E.Order).map (closeGap E.Order) := by
  unfold otherTaskOrders taskOrders
  simp only [List.filter_map, List.map_map, List.filter_filter]
  have hside : ∀ t ∈ db.tasks, t.SectionID = E.SectionID → (t.ID ≠ u ↔ t.Order ≠ E.Order) := by
    intro t ht hs
    constructor
    · intro hid h
      exact hid ((congrArg Task.ID
        (task_eq_of_order db E.SectionID hnd t E ht hE hs rfl h)).trans hu)
    · intro hc hid
      exact hc (congrArg Task.Order (task_eq_of_id db hids t E ht hE (hid.trans hu.symm)))
  have hfilt : db.tasks.filter
        ((fun t => decide (t.SectionID = E.SectionID ∧ t.ID ≠ u))
          ∘ moveTaskBack u E.SectionID n E.Order)
      = db.tasks.filter fun a =>
          ((fun x => decide (x ≠ E.Order)) ∘ fun t => t.Order) a
            && decide (a.SectionID = E.SectionID) := by
    apply List.filter_congr
    intro t ht
    simp only [Function.comp, moveTaskBack_parent, moveTaskBack_id]
    by_cases hs : t.SectionID = E.SectionID
    · by_cases hid : t.ID = u
      · have := (hside t ht hs).not.mp (not_not.mpr hid)
        simp [hs, hid, not_not.mp this]
      · have := (hside t ht hs).mp hid
        simp [hs, hid, this]
    · simp [hs]
  rw [hfilt]
  apply List.map_congr_left
  intro t ht
  obtain ⟨htm, hcond⟩ := List.mem_filter.mp ht
  simp only [Function.comp, Bool.and_eq_true, decide_eq_true_eq] at hcond
  have hid : t.ID ≠ u := (hside t htm hcond.2).mpr hcond.1
  simp only [Function.comp]
  rw [moveTaskBack_order u E.SectionID n E.Order t hid hcond.2 hcond.1]
  exact moveBack_eq_closeGap n E.Order t.Order hcond.1
    (hle _ (List.mem_map.mpr ⟨t, List.mem_filter.mpr ⟨htm, by simpa using hcond.2⟩, rfl⟩))

/-- The task rows read after a row map that keeps the identifiers. -/
theorem selectTask_moved (db : DB) (f : Task → Task) (hf : ∀ t, (f t).ID = t.ID) (a : UUID)
    (A : Task) (hA : selectTask db (.valid a) = some A) :
    selectTask { db with tasks := db.tasks.map f } (.valid a) = some (f A) := by
  rw [selectTask_map db f hf, hA]
  rfl

/-- A move to the front keeps the relative order of the other tasks of the
section. -/
theorem moveTaskFront_relative (db : DB) (u : UUID) (n : Int) (E : Task)
    (hE : E ∈ db.tasks) (hu : E.ID = u) (hnd : (taskOrders db E.SectionID).Nodup)
    (A B : Task) (hA : A ∈ db.tasks) (hB : B ∈ db.tasks) (ha : A.ID ≠ u) (hb : B.ID ≠ u)
    (hsa : A.SectionID = E.SectionID) (hsb : B.SectionID = E.SectionID) :
    (moveTaskFront u E.SectionID n E.Order A).Order
        < (moveTaskFront u E.SectionID n E.Order B).Order ↔ A.Order < B.Order := by
  have hca : A.Order ≠ E.Order := fun h =>
    ha ((congrArg Task.ID (task_eq_of_order db E.SectionID hnd A E hA hE hsa rfl h)).trans hu)
  have hcb : B.Order ≠ E.Order := fun h =>
    hb ((congrArg Task.ID (task_eq_of_order db E.SectionID hnd B E hB hE hsb rfl h)).trans hu)
  rw [moveTaskFront_order u E.SectionID n E.Order A ha hsa hca,
    moveTaskFront_order u E.SectionID n E.Order B hb hsb hcb]
  exact moveFront_lt_iff n E.Order A.Order B.Order hca hcb

/-- A move to the back keeps the relative order of the other tasks of the
section. -/
theorem moveTaskBack_relative (db : DB) (u : UUID) (n : Int) (E : Task)
    (hE : E ∈ db.tasks) (hu : E.ID = u) (hnd : (taskOrders db E.SectionID).Nodup)
    (A B : Task) (hA : A ∈ db.tasks) (hB : B ∈ db.tasks) (ha : A.ID ≠ u) (hb : B.ID ≠ u)
    (hsa : A.SectionID = E.SectionID) (hsb : B.SectionID = E.SectionID) :
    (moveTaskBack u E.SectionID n E.Order A).Order
        < (moveTaskBack u E.SectionID n E.Order B).Order ↔ A.Order < B.Order := by
  have hca : A.Order ≠ E.Order := fun h =>
    ha ((congrArg Task.ID (task_eq_of_order db E.SectionID hnd A E hA hE hsa rfl h)).trans hu)
  have hcb : B.Order ≠ E.Order := fun h =>
    hb ((congrArg Task.ID (task_eq_of_order db E.SectionID hnd B E hB hE hsb rfl h)).trans hu)
  rw [moveTaskBack_order u E.SectionID n E.Order A ha hsa hca,
    moveTaskBack_order u E.SectionID n E.Order B hb hsb hcb]
  exact moveBack_lt_iff n E.Order A.Order B.Order hca hcb


/-! ## Moves of tasks beyond the last order and within the range -/

/-- A move of a task of a dense section to a target beyond the number of tasks:
the task gets the target, the other tasks get the orders `1..N-1`, and no task
has an order between `N` and the target. -/
theorem ReorderTask_beyond_last (db : DB) (userID : String) (u : UUID) (n : Int) (E : Task)
    (hids : (db.tasks.map fun t => t.ID).Nodup)
    (hown : validateTaskOwnership db (.valid u) userID = true)
    (hE : selectTask db (.valid u) = some E)
    (hd : DenseOrders (taskOrders db E.SectionID))
    (hn : ((taskOrders db E.SectionID).length : Int) < n) (hint : IsGoInt n) :
    (ReorderTask db (some userID) (.valid u) (some ⟨n⟩)).1 = .success 200
    ∧ selectTask (ReorderTask db (some userID) (.valid u) (some ⟨n⟩)).2 (.valid u)
        = some { E with Order := n }
    ∧ DenseOrders
        (otherTaskOrders (ReorderTask db (some userID) (.valid u) (some ⟨n⟩)).2 E.SectionID u)
    ∧ (otherTaskOrders (ReorderTask db (some userID) (.valid u) (some ⟨n⟩)).2
          E.SectionID u).length + 1 = (taskOrders db E.SectionID).length
    ∧ n ∈ taskOrders (ReorderTask db (some userID) (.valid u) (some ⟨n⟩)).2 E.SectionID
    ∧ ∀ x ∈ taskOrders (ReorderTask db (some userID) (.valid u) (some ⟨n⟩)).2 E.SectionID,
        x = n ∨ x < ((taskOrders db E.SectionID).length : Int) := by
  obtain ⟨hmem, hu⟩ := selectTask_some db u E hE
  obtain ⟨hnd, hb⟩ := (denseOrders_iff _).mp hd
  have hc : E.Order ∈ taskOrders db E.SectionID :=
    List.mem_map.mpr ⟨E, List.mem_filter.mpr ⟨hmem, by simp⟩, rfl⟩
  have hgt : E.Order < n := lt_of_le_of_lt (hb _ hc).2 hn
  have hpos : 0 < n := lt_of_lt_of_le (by omega) (le_of_lt hgt |>.trans' (hb _ hc).1)
  have hle : ∀ x ∈ taskOrders db E.SectionID, x ≤ n := fun x hx =>
    le_of_lt (lt_of_le_of_lt (hb x hx).2 hn)
  rw [ReorderTask_back db userID u n E hown hE hpos hgt hint]
  have hother := otherTaskOrders_moveBack db u n E hids hmem hu hnd hle
  have hsame := taskOrders_moveBack_same db u n E hids hmem hu hnd
  refine ⟨rfl, ?_, ?_, ?_, ?_, ?_⟩
  · rw [selectTask_moved db _ (moveTaskBack_id u E.SectionID n E.Order) u E hE]
    simp [moveTaskBack, hu]
  · simp only [hother]
    exact denseOrders_filter_closeGap _ _ hd hc
  · simp only [hother, List.length_map]
    have hf : ((taskOrders db E.SectionID).filter fun x => decide (x ≠ E.Order))
        = (taskOrders db E.SectionID).erase E.Order := by
      rw [hnd.erase_eq_filter]
      apply List.filter_congr
      intro x _
      by_cases h : x = E.Order <;> simp [h]
    rw [hf, List.length_erase_of_mem hc]
    have : 0 < (taskOrders db E.SectionID).length := List.length_pos_of_mem hc
    omega
  · simp only [hsame]
    exact List.mem_map.mpr ⟨E.Order, hc, by simp [moveBack]⟩
  · simp only [hsame]
    intro x hx
    obtain ⟨y, hy, rfl⟩ := List.mem_map.mp hx
    have := hb y hy
    by_cases hyc : y = E.Order
    · left; simp [moveBack, hyc]
    · right
      have hcb := (hb _ hc)
      unfold moveBack
      rw [if_neg hyc]
      split_ifs <;> omega

/-- A move of a task of a dense section to a target within `1..N`: the orders
are dense again, the task has the target, and the other tasks of the section
keep their relative order. -/
theorem ReorderTask_in_range (db : DB) (userID : String) (u : UUID) (n : Int) (E : Task)
    (hids : (db.tasks.map fun t => t.ID).Nodup)
    (hown : validateTaskOwnership db (.valid u) userID = true)
    (hE : selectTask db (.valid u) = some E)
    (hd : DenseOrders (taskOrders db E.SectionID))
    (h1 : 1 ≤ n) (hn : n ≤ ((taskOrders db E.SectionID).length : Int)) (hint : IsGoInt n) :
    (ReorderTask db (some userID) (.valid u) (some ⟨n⟩)).1 = .success 200
    ∧ DenseOrders (taskOrders (ReorderTask db (some userID) (.valid u) (some ⟨n⟩)).2 E.SectionID)
    ∧ (taskOrders (ReorderTask db (some userID) (.valid u) (some ⟨n⟩)).2 E.SectionID).length
        = (taskOrders db E.SectionID).length
    ∧ selectTask (ReorderTask db (some userID) (.valid u) (some ⟨n⟩)).2 (.valid u)
        = some { E with Order := n }
    ∧ ∀ a b A B, a ≠ u → b ≠ u →
        selectTask db (.valid a) = some A → selectTask db (.valid b) = some B →
        A.SectionID = E.SectionID → B.SectionID = E.SectionID →
        ∃ A2 B2,
          selectTask (ReorderTask db (some userID) (.valid u) (some ⟨n⟩)).2 (.valid a) = some A2
          ∧ selectTask (ReorderTask db (some userID) (.valid u) (some ⟨n⟩)).2 (.valid b)
              = some B2
          ∧ (A2.Order < B2.Order ↔ A.Order < B.Order) := by
  obtain ⟨hmem, hu⟩ := selectTask_some db u E hE
  obtain ⟨hnd, hb⟩ := (denseOrders_iff _).mp hd
  have hc : E.Order ∈ taskOrders db E.SectionID :=
    List.mem_map.mpr ⟨E, List.mem_filter.mpr ⟨hmem, by simp⟩, rfl⟩
  have hpos : 0 < n := by omega
  have hcpos : 0 < E.Order := by have := (hb _ hc).1; omega
  rcases lt_trichotomy n E.Order with hlt | heq | hgt
  · rw [ReorderTask_front db userID u n E hown hE hpos hlt hint]
    have hsame := taskOrders_moveFront_same db u n E hids hmem hu hnd
    refine ⟨rfl, ?_, ?_, ?_, ?_⟩
    · simp only [hsame]
      exact denseOrders_map_moveFront _ n E.Order hd hc h1 hlt
    · simp only [hsame, List.length_map]
    · rw [selectTask_moved db _ (moveTaskFront_id u E.SectionID n E.Order) u E hE]
      simp [moveTaskFront, hu]
    · intro a b A B ha hb2 hA hB hsa hsb
      obtain ⟨hAm, hAid⟩ := selectTask_some db a A hA
      obtain ⟨hBm, hBid⟩ := selectTask_some db b B hB
      refine ⟨_, _, selectTask_moved db _ (moveTaskFront_id u E.SectionID n E.Order) a A hA,
        selectTask_moved db _ (moveTaskFront_id u E.SectionID n E.Order) b B hB, ?_⟩
      exact moveTaskFront_relative db u n E hmem hu hnd A B hAm hBm (hAid ▸ ha) (hBid ▸ hb2)
        hsa hsb
  · subst heq
    rw [ReorderTask_same db userID u E hown hE hcpos hint]
    refine ⟨rfl, hd, rfl, ?_, ?_⟩
    · rw [hE]
    · intro a b A B _ _ hA hB _ _
      exact ⟨A, B, hA, hB, Iff.rfl⟩
  · rw [ReorderTask_back db userID u n E hown hE hpos hgt hint]
    have hsame := taskOrders_moveBack_same db u n E hids hmem hu hnd
    refine ⟨rfl, ?_, ?_, ?_, ?_⟩
    · simp only [hsame]
      exact denseOrders_map_moveBack _ n E.Order hd hc hgt hn
    · simp only [hsame, List.length_map]
    · rw [selectTask_moved db _ (moveTaskBack_id u E.SectionID n E.Order) u E hE]
      simp [moveTaskBack, hu]
    · intro a b A B ha hb2 hA hB hsa hsb
      obtain ⟨hAm, hAid⟩ := selectTask_some db a A hA
      obtain ⟨hBm, hBid⟩ := selectTask_some db b B hB
      refine ⟨_, _, selectTask_moved db _ (moveTaskBack_id u E.SectionID n E.Order) a A hA,
        selectTask_moved db _ (moveTaskBack_id u E.SectionID n E.Order) b B hB, ?_⟩
      exact moveTaskBack_relative db u n E hmem hu hnd A B hAm hBm (hAid ▸ ha) (hBid ▸ hb2)
        hsa hsb

/-! ## Moves of sections: relative order, round trips, range -/

theorem moveSectionFront_order (u sid : UUID) (n c : Int) (t : Section) (hid : t.ID ≠ u)
    (hs : t.ChallengeID = sid) (hc : t.Order ≠ c) :
    (moveSectionFront u sid n c t).Order = moveFront n c t.Order := by
  unfold moveSectionFront moveFront
  rw [if_neg hid, if_neg hc]
  by_cases h : n ≤ t.Order ∧ t.Order < c
  · rw [if_pos ⟨hs, h⟩, if_pos h]
  · rw [if_neg (fun hh => h hh.2), if_neg h]

theorem moveSectionBack_order (u sid : UUID) (n c : Int) (t : Section) (hid : t.ID ≠ u)
    (hs : t.ChallengeID = sid) (hc : t.Order ≠ c) :
    (moveSectionBack u sid n c t).Order = moveBack n c t.Order := by
  unfold moveSectionBack moveBack
  rw [if_neg hid, if_neg hc]
  by_cases h : c < t.Order ∧ t.Order ≤ n
  · rw [if_pos ⟨hs, h⟩, if_pos h]
  · rw [if_neg (fun hh => h hh.2), if_neg h]

/-- A row map that keeps the identifiers commutes with the section query. -/
theorem selectSection_map (db : DB) (f : Section → Section) (hf : ∀ t, (f t).ID = t.ID)
    (sectionID : IDText) :
    selectSection { db with sections := db.sections.map f } sectionID = (selectSection db sectionID).map f := by
  unfold selectSection
  simp only
  induction db.sections with
  | nil => rfl
  | cons t rest ih =>
    simp only [List.map_cons, List.find?_cons, hf]
    by_cases h : uuidParse sectionID = some t.ID
    · simp [h]
    · simp [h, ih]

/-- A row map that keeps identifiers and parents keeps the ownership check. -/
theorem validateSectionOwnership_map (db : DB) (f : Section → Section)
    (hf : ∀ t, (f t).ID = t.ID) (hp : ∀ t, (f t).ChallengeID = t.ChallengeID)
    (sectionID : IDText) (userID : String) :
    validateSectionOwnership { db with sections := db.sections.map f } sectionID userID
      = validateSectionOwnership db sectionID userID := by
  unfold validateSectionOwnership
  cases uuidParse sectionID with
  | none => rfl
  | some sid =>
    simp only [List.flatMap_map, hf, hp]

theorem ReorderSection_same (db : DB) (userID : String) (u : UUID) (E : Section)
    (hown : validateSectionOwnership db (.valid u) userID = true)
    (hE : selectSection db (.valid u) = some E) (hc : 0 < E.Order) (hint : IsGoInt E.Order) :
    ReorderSection db (some userID) (.valid u) (some ⟨E.Order⟩) = (.success 200, db) := by
  unfold ReorderSection
  simp only [hown, hE, Bool.true_eq_false, if_false, not_le.mpr hc, lt_irrefl, gt_iff_lt, hint,
    not_true_eq_false]

/-- The two row maps of a move to the front and back again cancel on the rows of
the store. -/
theorem moveSectionBack_moveSectionFront (db : DB) (u : UUID) (n : Int) (E : Section)
    (hids : (db.sections.map fun t => t.ID).Nodup) (hE : E ∈ db.sections) (hu : E.ID = u)
    (hnd : (sectionOrders db E.ChallengeID).Nodup) (hlt : n < E.Order) (t : Section)
    (ht : t ∈ db.sections) :
    moveSectionBack u E.ChallengeID E.Order n (moveSectionFront u E.ChallengeID n E.Order t) = t := by
  by_cases hid : t.ID = u
  · have hte : t = E := section_eq_of_id db hids t E ht hE (hid.trans hu.symm)
    subst hte
    cases t
    simp_all [moveSectionFront, moveSectionBack]
  · by_cases hs : t.ChallengeID = E.ChallengeID
    · have hc : t.Order ≠ E.Order := fun h =>
        hid ((congrArg Section.ID (section_eq_of_order db E.ChallengeID hnd t E ht hE hs rfl h)).trans hu)
      by_cases hr : n ≤ t.Order ∧ t.Order < E.Order
      · have h1 : moveSectionFront u E.ChallengeID n E.Order t = { t with Order := t.Order + 1 } := by
          unfold moveSectionFront
          rw [if_neg hid, if_pos ⟨hs, hr⟩]
        rw [h1]
        unfold moveSectionBack
        simp only [hid, if_false]
        split_ifs with h
        · cases t
          simp
        · exact absurd ⟨hs, by omega, by omega⟩ h
      · have h1 : moveSectionFront u E.ChallengeID n E.Order t = t := by
          unfold moveSectionFront
          rw [if_neg hid, if_neg (fun hh => hr hh.2)]
        rw [h1]
        unfold moveSectionBack
        rw [if_neg hid, if_neg (by intro hh; omega)]
    · have h1 : moveSectionFront u E.ChallengeID n E.Order t = t := by
        unfold moveSectionFront
        rw [if_neg hid, if_neg (fun hh => hs hh.1)]
      rw [h1]
      unfold moveSectionBack
      rw [if_neg hid, if_neg (fun hh => hs hh.1)]

/-- The two row maps of a move to the back and front again cancel on the rows of
the store. -/
theorem moveSectionFront_moveSectionBack (db : DB) (u : UUID) (n : Int) (E : Section)
    (hids : (db.sections.map fun t => t.ID).Nodup) (hE : E ∈ db.sections) (hu : E.ID = u)
    (hnd : (sectionOrders db E.ChallengeID).Nodup) (hlt : E.Order < n) (t : Section)
    (ht : t ∈ db.sections) :
    moveSectionFront u E.ChallengeID E.Order n (moveSectionBack u E.ChallengeID n E.Order t) = t := by
  by_cases hid : t.ID = u
  · have hte : t = E := section_eq_of_id db hids t E ht hE (hid.trans hu.symm)
    subst hte
    cases t
    simp_all [moveSectionFront, moveSectionBack]
  · by_cases hs : t.ChallengeID = E.ChallengeID
    · have hc : t.Order ≠ E.Order := fun h =>
        hid ((congrArg Section.ID (section_eq_of_order db E.ChallengeID hnd t E ht hE hs rfl h)).trans hu)
      by_cases hr : E.Order < t.Order ∧ t.Order ≤ n
      · have h1 : moveSectionBack u E.ChallengeID n E.Order t = { t with Order := t.Order - 1 } := by
          unfold moveSectionBack
          rw [if_neg hid, if_pos ⟨hs, hr⟩]
        rw [h1]
        unfold moveSectionFront
        simp only [hid, if_false]
        split_ifs with h
        · cases t
          simp
        · exact absurd ⟨hs, by omega, by omega⟩ h
      · have h1 : moveSectionBack u E.ChallengeID n E.Order t = t := by
          unfold moveSectionBack
          rw [if_neg hid, if_neg (fun hh => hr hh.2)]
        rw [h1]
        unfold moveSectionFront
        rw [if_neg hid, if_neg (by intro hh; omega)]
    · have h1 : moveSectionBack u E.ChallengeID n E.Order t = t := by
        unfold moveSectionBack
        rw [if_neg hid, if_neg (fun hh => hs hh.1)]
      rw [h1]
      unfold moveSectionFront
      rw [if_neg hid, if_neg (fun hh => hs hh.1)]

/-- A move of section `u` to a positive order followed by a move back to its
positive former order restores the store. -/
theorem ReorderSection_round_trip (db : DB) (userID : String) (u : UUID) (n : Int) (E : Section)
    (hids : (db.sections.map fun t => t.ID).Nodup)
    (hnd : (sectionOrders db E.ChallengeID).Nodup)
    (hown : validateSectionOwnership db (.valid u) userID = true)
    (hE : selectSection db (.valid u) = some E) (hn : 0 < n) (hc : 0 < E.Order)
    (hint : IsGoInt n) (hintc : IsGoInt E.Order) :
    (ReorderSection db (some userID) (.valid u) (some ⟨n⟩)).1 = .success 200
    ∧ ReorderSection (ReorderSection db (some userID) (.valid u) (some ⟨n⟩)).2 (some userID)
        (.valid u) (some ⟨E.Order⟩) = (.success 200, db) := by
  obtain ⟨hmem, hu⟩ := selectSection_some db u E hE
  rcases lt_trichotomy n E.Order with hlt | heq | hgt
  · rw [ReorderSection_front db userID u n E hown hE hn hlt hint]
    refine ⟨rfl, ?_⟩
    have hown1 : validateSectionOwnership
        { db with sections := db.sections.map (moveSectionFront u E.ChallengeID n E.Order) } (.valid u)
        userID = true := by
      rw [validateSectionOwnership_map db _ (moveSectionFront_id u E.ChallengeID n E.Order)
        (moveSectionFront_parent u E.ChallengeID n E.Order)]
      exact hown
    have hE1 : selectSection
        { db with sections := db.sections.map (moveSectionFront u E.ChallengeID n E.Order) } (.valid u)
        = some { E with Order := n } := by
      rw [selectSection_map db _ (moveSectionFront_id u E.ChallengeID n E.Order), hE]
      simp [moveSectionFront, hu]
    have h2 := ReorderSection_back _ userID u E.Order _ hown1 hE1 hc hlt hintc
    simp only at h2
    have hmap : (db.sections.map (moveSectionFront u E.ChallengeID n E.Order)).map
        (moveSectionBack u E.ChallengeID E.Order n) = db.sections := by
      rw [List.map_map]
      conv_rhs => rw [← List.map_id db.sections]
      apply List.map_congr_left
      intro t ht
      exact moveSectionBack_moveSectionFront db u n E hids hmem hu hnd hlt t ht
    rw [h2, hmap]
  · subst heq
    rw [ReorderSection_same db userID u E hown hE hc hintc]
    exact ⟨rfl, ReorderSection_same db userID u E hown hE hc hintc⟩
  · rw [ReorderSection_back db userID u n E hown hE hn hgt hint]
    refine ⟨rfl, ?_⟩
    have hown1 : validateSectionOwnership
        { db with sections := db.sections.map (moveSectionBack u E.ChallengeID n E.Order) } (.valid u)
        userID = true := by
      rw [validateSectionOwnership_map db _ (moveSectionBack_id u E.ChallengeID n E.Order)
        (moveSectionBack_parent u E.ChallengeID n E.Order)]
      exact hown
    have hE1 : selectSection
        { db with sections := db.sections.map (moveSectionBack u E.ChallengeID n E.Order) } (.valid u)
        = some { E with Order := n } := by
      rw [selectSection_map db _ (moveSectionBack_id u E.ChallengeID n E.Order), hE]
      simp [moveSectionBack, hu]
    have h2 := ReorderSection_front _ userID u E.Order _ hown1 hE1 hc hgt hintc
    simp only at h2
    have hmap : (db.sections.map (moveSectionBack u E.ChallengeID n E.Order)).map
        (moveSectionFront u E.ChallengeID E.Order n) = db.sections := by
      rw [List.map_map]
      conv_rhs => rw [← List.map_id db.sections]
      apply List.map_congr_left
      intro t ht
      exact moveSectionFront_moveSectionBack db u n E hids hmem hu hnd hgt t ht
    rw [h2, hmap]

theorem otherSectionOrders_moveBack (db : DB) (u : UUID) (n : Int) (E : Section)
    (hids : (db.sections.map fun t => t.ID).Nodup) (hE : E ∈ db.sections) (hu : E.ID = u)
    (hnd : (sectionOrders db E.ChallengeID).Nodup)
    (hle : ∀ x ∈ sectionOrders db E.ChallengeID, x ≤ n) :
    otherSectionOrders { db with sections := db.sections.map (moveSectionBack u E.ChallengeID n E.Order) }
        E.ChallengeID u
      = ((sectionOrders db E.ChallengeID).filter fun x => x ≠ E.Order).map (closeGap E.Order) := by
  unfold otherSectionOrders sectionOrders
  simp only [List.filter_map, List.map_map, List.filter_filter]
  have hside : ∀ t ∈ db.sections, t.ChallengeID = E.ChallengeID → (t.ID ≠ u ↔ t.Order ≠ E.Order) := by
    intro t ht hs
    constructor
    · intro hid h
      exact hid ((congrArg Section.ID
        (section_eq_of_order db E.ChallengeID hnd t E ht hE hs rfl h)).trans hu)
    · intro hc hid
      exact hc (congrArg Section.Order (section_eq_of_id db hids t E ht hE (hid.trans hu.symm)))
  have hfilt : db.sections.filter
        ((fun t => decide (t.ChallengeID = E.ChallengeID ∧ t.ID ≠ u))
          ∘ moveSectionBack u E.ChallengeID n E.Order)
      = db.sections.filter fun a =>
          ((fun x => decide (x ≠ E.Order)) ∘ fun t => t.Order) a
            && decide (a.ChallengeID = E.ChallengeID) := by
    apply List.filter_congr
    intro t ht
    simp only [Function.comp, moveSectionBack_parent, moveSectionBack_id]
    by_cases hs : t.ChallengeID = E.ChallengeID
    · by_cases hid : t.ID = u
      · have := (hside t ht hs).not.mp (not_not.mpr hid)
        simp [hs, hid, not_not.mp this]
      · have := (hside t ht hs).mp hid
        simp [hs, hid, this]
    · simp [hs]
  rw [hfilt]
  apply List.map_congr_left
  intro t ht
  obtain ⟨htm, hcond⟩ := List.mem_filter.mp ht
  simp only [Function.comp, Bool.and_eq_true, decide_eq_true_eq] at hcond
  have hid : t.ID ≠ u := (hside t htm hcond.2).mpr hcond.1
  simp only [Function.comp]
  rw [moveSectionBack_order u E.ChallengeID n E.Order t hid hcond.2 hcond.1]
  exact moveBack_eq_closeGap n E.Order t.Order hcond.1
    (hle _ (List.mem_map.mpr ⟨t, List.mem_filter.mpr ⟨htm, by simpa using hcond.2⟩, rfl⟩))

/-- The section rows read after a row map that keeps the identifiers. -/
theorem selectSection_moved (db : DB) (f : Section → Section) (hf : ∀ t, (f t).ID = t.ID) (a : UUID)
    (A : Section) (hA : selectSection db (.valid a) = some A) :
    selectSection { db with sections := db.sections.map f } (.valid a) = some (f A) := by
  rw [selectSection_map db f hf, hA]
  rfl

/-- A move to the front keeps the relative order of the other sections of the
section. -/
theorem moveSectionFront_relative (db : DB) (u : UUID) (n : Int) (E : Section)
    (hE : E ∈ db.sections) (hu : E.ID = u) (hnd : (sectionOrders db E.ChallengeID).Nodup)
    (A B : Section) (hA : A ∈ db.sections) (hB : B ∈ db.sections) (ha : A.ID ≠ u) (hb : B.ID ≠ u)
    (hsa : A.ChallengeID = E.ChallengeID) (hsb : B.ChallengeID = E.ChallengeID) :
    (moveSectionFront u E.ChallengeID n E.Order A).Order
        < (moveSectionFront u E.ChallengeID n E.Order B).Order ↔ A.Order < B.Order := by
  have hca : A.Order ≠ E.Order := fun h =>
    ha ((congrArg Section.ID (section_eq_of_order db E.ChallengeID hnd A E hA hE hsa rfl h)).trans hu)
  have hcb : B.Order ≠ E.Order := fun h =>
    hb ((congrArg Section.ID (section_eq_of_order db E.ChallengeID hnd B E hB hE hsb rfl h)).trans hu)
  rw [moveSectionFront_order u E.ChallengeID n E.Order A ha hsa hca,
    moveSectionFront_order u E.ChallengeID n E.Order B hb hsb hcb]
  exact moveFront_lt_iff n E.Order A.Order B.Order hca hcb

/-- A move to the back keeps the relative order of the other sections of the
section. -/
theorem moveSectionBack_relative (db : DB) (u : UUID) (n : Int) (E : Section)
    (hE : E ∈ db.sections) (hu : E.ID = u) (hnd : (sectionOrders db E.ChallengeID).Nodup)
    (A B : Section) (hA : A ∈ db.sections) (hB : B ∈ db.sections) (ha : A.ID ≠ u) (hb : B.ID ≠ u)
    (hsa : A.ChallengeID = E.ChallengeID) (hsb : B.ChallengeID = E.ChallengeID) :
    (moveSectionBack u E.ChallengeID n E.Order A).Order
        < (moveSectionBack u E.ChallengeID n E.Order B).Order ↔ A.Order < B.Order := by
  have hca : A.Order ≠ E.Order := fun h =>
    ha ((congrArg Section.ID (section_eq_of_order db E.ChallengeID hnd A E hA hE hsa rfl h)).trans hu)
  have hcb : B.Order ≠ E.Order := fun h =>
    hb ((congrArg Section.ID (section_eq_of_order db E.ChallengeID hnd B E hB hE hsb rfl h)).trans hu)
  rw [moveSectionBack_order u E.ChallengeID n E.Order A ha hsa hca,
    moveSectionBack_order u E.ChallengeID n E.Order B hb hsb hcb]
  exact moveBack_lt_iff n E.Order A.Order B.Order hca hcb


/-! ## Moves of sections beyond the last order and within the range -/

/-- A move of a section of a dense section to a target beyond the number of sections:
the section gets the target, the other sections get the orders `1..N-1`, and no section
has an order between `N` and the target. -/
theorem ReorderSection_beyond_last (db : DB) (userID : String) (u : UUID) (n : Int) (E : Section)
    (hids : (db.sections.map fun t => t.ID).Nodup)
    (hown : validateSectionOwnership db (.valid u) userID = true)
    (hE : selectSection db (.valid u) = some E)
    (hd : DenseOrders (sectionOrders db E.ChallengeID))
    (hn : ((sectionOrders db E.ChallengeID).length : Int) < n) (hint : IsGoInt n) :
    (ReorderSection db (some userID) (.valid u) (some ⟨n⟩)).1 = .success 200
    ∧ selectSection (ReorderSection db (some userID) (.valid u) (some ⟨n⟩)).2 (.valid u)
        = some { E with Order := n }
    ∧ DenseOrders
        (otherSectionOrders (ReorderSection db (some userID) (.valid u) (some ⟨n⟩)).2 E.ChallengeID u)
    ∧ (otherSectionOrders (ReorderSection db (some userID) (.valid u) (some ⟨n⟩)).2
          E.ChallengeID u).length + 1 = (sectionOrders db E.ChallengeID).length
    ∧ n ∈ sectionOrders (ReorderSection db (some userID) (.valid u) (some ⟨n⟩)).2 E.ChallengeID
    ∧ ∀ x ∈ sectionOrders (ReorderSection db (some userID) (.valid u) (some ⟨n⟩)).2 E.ChallengeID,
        x = n ∨ x < ((sectionOrders db E.ChallengeID).length : Int) := by
  obtain ⟨hmem, hu⟩ := selectSection_some db u E hE
  obtain ⟨hnd, hb⟩ := (denseOrders_iff _).mp hd
  have hc : E.Order ∈ sectionOrders db E.ChallengeID :=
    List.mem_map.mpr ⟨E, List.mem_filter.mpr ⟨hmem, by simp⟩, rfl⟩
  have hgt : E.Order < n := lt_of_le_of_lt (hb _ hc).2 hn
  have hpos : 0 < n := lt_of_lt_of_le (by omega) (le_of_lt hgt |>.trans' (hb _ hc).1)
  have hle : ∀ x ∈ sectionOrders db E.ChallengeID, x ≤ n := fun x hx =>
    le_of_lt (lt_of_le_of_lt (hb x hx).2 hn)
  rw [ReorderSection_back db userID u n E hown hE hpos hgt hint]
  have hother := otherSectionOrders_moveBack db u n E hids hmem hu hnd hle
  have hsame := sectionOrders_moveBack_same db u n E hids hmem hu hnd
  refine ⟨rfl, ?_, ?_, ?_, ?_, ?_⟩
  · rw [selectSection_moved db _ (moveSectionBack_id u E.ChallengeID n E.Order) u E hE]
    simp [moveSectionBack, hu]
  · simp only [hother]
    exact denseOrders_filter_closeGap _ _ hd hc
  · simp only [hother, List.length_map]
    have hf : ((sectionOrders db E.ChallengeID).filter fun x => decide (x ≠ E.Order))
        = (sectionOrders db E.ChallengeID).erase E.Order := by
      rw [hnd.erase_eq_filter]
      apply List.filter_congr
      intro x _
      by_cases h : x = E.Order <;> simp [h]
    rw [hf, List.length_erase_of_mem hc]
    have : 0 < (sectionOrders db E.ChallengeID).length := List.length_pos_of_mem hc
    omega
  · simp only [hsame]
    exact List.mem_map.mpr ⟨E.Order, hc, by simp [moveBack]⟩
  · simp only [hsame]
    intro x hx
    obtain ⟨y, hy, rfl⟩ := List.mem_map.mp hx
    have := hb y hy
    by_cases hyc : y = E.Order
    · left; simp [moveBack, hyc]
    · right
      have hcb := (hb _ hc)
      unfold moveBack
      rw [if_neg hyc]
      split_ifs <;> omega

/-- A move of a section of a dense section to a target within `1..N`: the orders
are dense again, the section has the target, and the other sections of the section
keep their relative order. -/
theorem ReorderSection_in_range (db : DB) (userID : String) (u : UUID) (n : Int) (E : Section)
    (hids : (db.sections.map fun t => t.ID).Nodup)
    (hown : validateSectionOwnership db (.valid u) userID = true)
    (hE : selectSection db (.valid u) = some E)
    (hd : DenseOrders (sectionOrders db E.ChallengeID))
    (h1 : 1 ≤ n) (hn : n ≤ ((sectionOrders db E.ChallengeID).length : Int)) (hint : IsGoInt n) :
    (ReorderSection db (some userID) (.valid u) (some ⟨n⟩)).1 = .success 200
    ∧ DenseOrders (sectionOrders (ReorderSection db (some userID) (.valid u) (some ⟨n⟩)).2 E.ChallengeID)
    ∧ (sectionOrders (ReorderSection db (some userID) (.valid u) (some ⟨n⟩)).2 E.ChallengeID).length
        = (sectionOrders db E.ChallengeID).length
    ∧ selectSection (ReorderSection db (some userID) (.valid u) (some ⟨n⟩)).2 (.valid u)
        = some { E with Order := n }
    ∧ ∀ a b A B, a ≠ u → b ≠ u →
        selectSection db (.valid a) = some A → selectSection db (.valid b) = some B →
        A.ChallengeID = E.ChallengeID → B.ChallengeID = E.ChallengeID →
        ∃ A2 B2,
          selectSection (ReorderSection db (some userID) (.valid u) (some ⟨n⟩)).2 (.valid a) = some A2
          ∧ selectSection (ReorderSection db (some userID) (.valid u) (some ⟨n⟩)).2 (.valid b)
              = some B2
          ∧ (A2.Order < B2.Order ↔ A.Order < B.Order) := by
  obtain ⟨hmem, hu⟩ := selectSection_some db u E hE
  obtain ⟨hnd, hb⟩ := (denseOrders_iff _).mp hd
  have hc : E.Order ∈ sectionOrders db E.ChallengeID :=
    List.mem_map.mpr ⟨E, List.mem_filter.mpr ⟨hmem, by simp⟩, rfl⟩
  have hpos : 0 < n := by omega
  have hcpos : 0 < E.Order := by have := (hb _ hc).1; omega
  rcases lt_trichotomy n E.Order with hlt | heq | hgt
  · rw [ReorderSection_front db userID u n E hown hE hpos hlt hint]
    have hsame := sectionOrders_moveFront_same db u n E hids hmem hu hnd
    refine ⟨rfl, ?_, ?_, ?_, ?_⟩
    · simp only [hsame]
      exact denseOrders_map_moveFront _ n E.Order hd hc h1 hlt
    · simp only [hsame, List.length_map]
    · rw [selectSection_moved db _ (moveSectionFront_id u E.ChallengeID n E.Order) u E hE]
      simp [moveSectionFront, hu]
    · intro a b A B ha hb2 hA hB hsa hsb
      obtain ⟨hAm, hAid⟩ := selectSection_some db a A hA
      obtain ⟨hBm, hBid⟩ := selectSection_some db b B hB
      refine ⟨_, _, selectSection_moved db _ (moveSectionFront_id u E.ChallengeID n E.Order) a A hA,
        selectSection_moved db _ (moveSectionFront_id u E.ChallengeID n E.Order) b B hB, ?_⟩
      exact moveSectionFront_relative db u n E hmem hu hnd A B hAm hBm (hAid ▸ ha) (hBid ▸ hb2)
        hsa hsb
  · subst heq
    rw [ReorderSection_same db userID u E hown hE hcpos hint]
    refine ⟨rfl, hd, rfl, ?_, ?_⟩
    · rw [hE]
    · intro a b A B _ _ hA hB _ _
      exact ⟨A, B, hA, hB, Iff.rfl⟩
  · rw [ReorderSection_back db userID u n E hown hE hpos hgt hint]
    have hsame := sectionOrders_moveBack_same db u n E hids hmem hu hnd
    refine ⟨rfl, ?_, ?_, ?_, ?_⟩
    · simp only [hsame]
      exact denseOrders_map_moveBack _ n E.Order hd hc hgt hn
    · simp only [hsame, List.length_map]
    · rw [selectSection_moved db _ (moveSectionBack_id u E.ChallengeID n E.Order) u E hE]
      simp [moveSectionBack, hu]
    · intro a b A B ha hb2 hA hB hsa hsb
      obtain ⟨hAm, hAid⟩ := selectSection_some db a A hA
      obtain ⟨hBm, hBid⟩ := selectSection_some db b B hB
      refine ⟨_, _, selectSection_moved db _ (moveSectionBack_id u E.ChallengeID n E.Order) a A hA,
        selectSection_moved db _ (moveSectionBack_id u E.ChallengeID n E.Order) b B hB, ?_⟩
      exact moveSectionBack_relative db u n E hmem hu hnd A B hAm hBm (hAid ▸ ha) (hBid ▸ hb2)
        hsa hsb

/-! ## Bounds on the streak figures -/

theorem streakStep_current_cases (st : StreakState) (e : ProgressEntry)
    (nx : Option ProgressEntry) :
    (streakStep st e nx).currentStreak = st.currentStreak
    ∨ (e.Completed = true ∧ (streakStep st e nx).currentStreak = st.streak + 1) := by
  unfold streakStep
  cases hc : e.Completed <;> cases nx with
  | none => simp
  | some n2 => by_cases hd : e.DayNumber + 1 < n2.DayNumber <;> simp [hd]

/-- Loop invariant of the streak loop for the three bounds. -/
theorem calculateStreaks_bounds (l : List ProgressEntry) (st : StreakState) (k : Nat)
    (h1 : st.streak ≤ st.longestStreak) (h2 : st.currentStreak ≤ st.longestStreak)
    (h3 : st.longestStreak ≤ k) :
    (calculateStreaks l st).streak ≤ (calculateStreaks l st).longestStreak
    ∧ (calculateStreaks l st).currentStreak ≤ (calculateStreaks l st).longestStreak
    ∧ (calculateStreaks l st).longestStreak
        ≤ k + (l.filter fun e => e.Completed).length := by
  induction l generalizing st k with
  | nil => exact ⟨h1, h2, by simpa using h3⟩
  | cons e rest ih =>
    simp only [calculateStreaks]
    have hs := streakStep_streak st e rest.head?
    have hl := streakStep_longest st e rest.head?
    have hcur := streakStep_current_cases st e rest.head?
    cases hc : e.Completed with
    | true =>
      simp only [hc, if_true] at hs hl
      have h1n : (streakStep st e rest.head?).streak
          ≤ (streakStep st e rest.head?).longestStreak := by
        rw [hs, hl]; exact le_max_right _ _
      have h2n : (streakStep st e rest.head?).currentStreak
          ≤ (streakStep st e rest.head?).longestStreak := by
        rcases hcur with h | ⟨_, h⟩
        · rw [h, hl]; exact le_trans h2 (le_max_left _ _)
        · rw [h, hl]; exact le_max_right _ _
      have h3n : (streakStep st e rest.head?).longestStreak ≤ k + 1 := by
        rw [hl]; exact max_le (by omega) (by omega)
      obtain ⟨i1, i2, i3⟩ := ih (streakStep st e rest.head?) (k + 1) h1n h2n h3n
      refine ⟨i1, i2, ?_⟩
      simp only [List.filter_cons, hc, if_true, List.length_cons]
      omega
    | false =>
      simp only [hc, Bool.false_eq_true, if_false] at hs hl
      have h1n : (streakStep st e rest.head?).streak
          ≤ (streakStep st e rest.head?).longestStreak := by
        rw [hs]; exact Nat.zero_le _
      have h2n : (streakStep st e rest.head?).currentStreak
          ≤ (streakStep st e rest.head?).longestStreak := by
        rcases hcur with h | ⟨hh, _⟩
        · rw [h, hl]; exact h2
        · rw [hc] at hh; exact absurd hh (by decide)
      have h3n : (streakStep st e rest.head?).longestStreak ≤ k := by
        rw [hl]; exact h3
      obtain ⟨i1, i2, i3⟩ := ih (streakStep st e rest.head?) k h1n h2n h3n
      refine ⟨i1, i2, ?_⟩
      simpa only [List.filter_cons, hc, Bool.false_eq_true, if_false] using i3

/-- On a non-empty sequence of completed records the three counters end at the
same value. -/
theorem calculateStreaks_all_completed (l : List ProgressEntry) (st : StreakState)
    (hall : ∀ e ∈ l, e.Completed = true) (hs : st.streak = st.longestStreak) (hne : l ≠ []) :
    (calculateStreaks l st).streak = st.streak + l.length
    ∧ (calculateStreaks l st).longestStreak = st.streak + l.length
    ∧ (calculateStreaks l st).currentStreak = st.streak + l.length := by
  induction l generalizing st with
  | nil => exact absurd rfl hne
  | cons e rest ih =>
    have hc : e.Completed = true := hall e (List.mem_cons_self _ _)
    have h1 := streakStep_streak st e rest.head?
    have h2 := streakStep_longest st e rest.head?
    simp only [hc, if_true] at h1 h2
    have hs2 : (streakStep st e rest.head?).streak
        = (streakStep st e rest.head?).longestStreak := by
      rw [h1, h2, ← hs]; exact (max_eq_right (Nat.le_succ _)).symm
    simp only [calculateStreaks]
    cases rest with
    | nil =>
      have h3 : (streakStep st e none).currentStreak = st.streak + 1 := by
        simp [streakStep, hc]
      simp only [calculateStreaks, List.length_singleton, List.head?_nil] at h1 h2 ⊢
      exact ⟨h1, by rw [h2, ← hs]; exact max_eq_right (Nat.le_succ _), h3⟩
    | cons e2 tl =>
      obtain ⟨i1, i2, i3⟩ := ih (streakStep st e (e2 :: tl).head?)
        (fun x hx => hall x (List.mem_cons_of_mem _ hx)) hs2 (List.cons_ne_nil _ _)
      rw [h1] at i1 i2 i3
      simp only [List.length_cons] at i1 i2 i3 ⊢
      exact ⟨by omega, by omega, by omega⟩

/-- The count of the completed rows of the streak query is the count of the
completed-days query. -/
theorem streakRows_completed (db : DB) (cid : UUID) :
    ((streakRows db cid).filter fun e => e.Completed).length
      = (db.daily_entries.filter fun e => e.ChallengeID = cid ∧ e.Completed = true).length := by
  unfold streakRows
  have hperm := List.perm_insertionSort (fun a b : DailyEntry => a.DayNumber ≤ b.DayNumber)
    (db.daily_entries.filter fun e => e.ChallengeID = cid)
  have h2 := ((hperm.map fun e => (⟨e.DayNumber, e.Completed⟩ : ProgressEntry)).filter
    fun e => e.Completed).length_eq
  rw [h2, List.filter_map, List.length_map, List.filter_filter]
  congr 1
  apply List.filter_congr
  intro e _
  by_cases ha : e.ChallengeID = cid <;> cases hb : e.Completed <;> simp [ha, hb]

/-- The shape of a successful `GetChallengeProgress`. -/
theorem GetChallengeProgress_success (db : DB) (caller : Option String) (challengeID : IDText)
    (p : Progress) (h : GetChallengeProgress db caller challengeID = (.success 200, some p)) :
    ∃ cid challenge, challengeID = .valid cid
      ∧ p = progressOf challenge
          (db.daily_entries.filter fun e => e.ChallengeID = cid ∧ e.Completed = true).length
          (streakRows db cid) := by
  unfold GetChallengeProgress at h
  cases caller with
  | none => simp at h
  | some clerkID =>
    cases hu : db.users.find? fun u => u.ClerkID = clerkID with
    | none => simp [hu] at h
    | some user =>
      cases challengeID with
      | empty => simp [hu] at h
      | malformed => simp [hu] at h
      | valid cid =>
        cases hc : db.challenges.find? fun c => c.ID = cid ∧ c.UserID = user.ID with
        | none =>
          simp only [hu, hc] at h
          cases h
        | some challenge =>
          simp only [hu, hc, Prod.mk.injEq, true_and, Option.some.injEq] at h
          exact ⟨cid, challenge, rfl, h.symm⟩

/-! ## Lemmas on the day ledger by day and in sequences -/

/-- A query for the first row with a property commutes with a row map that
keeps the property. -/
theorem find_map_of_preserved {α : Type} (f : α → α) (p : α → Bool)
    (hp : ∀ a, p (f a) = p a) (l : List α) :
    (l.map f).find? p = (l.find? p).map f := by
  induction l with
  | nil => rfl
  | cons a rest ih =>
    simp only [List.map_cons, List.find?_cons, hp]
    cases p a
    · simpa using ih
    · rfl

/-- The day-record query after the update of a day record. -/
theorem find_updateDailyEntryRow (rows : List DailyEntry) (entryID : UUID)
    (entryData : EntryData) (cid : UUID) (day : Int) :
    (updateDailyEntryRow rows entryID entryData).find?
        (fun e => e.ChallengeID = cid ∧ e.DayNumber = day)
      = (rows.find? fun e => e.ChallengeID = cid ∧ e.DayNumber = day).map fun d =>
          if d.ID = entryID then
            { d with Completed := entryData.Completed, Notes := entryData.Notes,
                     ProgressPhotoURL := entryData.ProgressPhotoURL,
                     EnergyLevel := entryData.EnergyLevel, MoodLevel := entryData.MoodLevel }
          else d := by
  unfold updateDailyEntryRow
  apply find_map_of_preserved
  intro d
  by_cases hid : d.ID = entryID <;> simp [hid]

/-- The record selected for a key carries the key. -/
theorem selectDailyEntry_key (db : DB) (cid : UUID) (day : Int) (e : DailyEntry)
    (h : selectDailyEntry db cid day = some e) :
    e ∈ db.daily_entries ∧ e.ChallengeID = cid ∧ e.DayNumber = day := by
  unfold selectDailyEntry at h
  refine ⟨List.mem_of_find?_eq_some h, ?_⟩
  have := List.find?_some h
  simpa using this

/-- The record selected after `UpdateDailyEntry` or the update branch of
`CreateOrUpdateTodayEntry` wrote the record `e`. -/
theorem selectDailyEntry_written (db : DB) (cid : UUID) (day : Int) (e : DailyEntry)
    (entryData : EntryData) (challenges : List Challenge) (t : List TaskEntry)
    (h : selectDailyEntry db cid day = some e) :
    selectDailyEntry
        { db with challenges := challenges
                  daily_entries := updateDailyEntryRow db.daily_entries e.ID entryData
                  task_entries := t } cid day
      = some (writtenRecord e.ID cid day entryData) := by
  obtain ⟨_, hc, hd⟩ := selectDailyEntry_key db cid day e h
  unfold selectDailyEntry at h ⊢
  simp only [find_updateDailyEntryRow, h, Option.map_some', if_true, writtenRecord, hc, hd]

/-- The tail of `CreateOrUpdateTodayEntry` fails and leaves the store unchanged,
or succeeds. -/
theorem finishTodayEntry_cases (db : DB) (cid : UUID) (entryData : EntryData)
    (newUUID : Nat → UUID) (existed : Bool) (entryID : UUID) (daily : List DailyEntry) :
    ((finishTodayEntry db cid entryData newUUID existed entryID daily).1.isSuccess = false
      ∧ (finishTodayEntry db cid entryData newUUID existed entryID daily).2 = db)
    ∨ (finishTodayEntry db cid entryData newUUID existed entryID daily).1.isSuccess = true := by
  unfold finishTodayEntry
  split
  · next r heq =>
    left
    exact ⟨saveTaskEntries_error _ _ _ _ _ r heq, rfl⟩
  · right; rfl

/-- A call of `CreateOrUpdateTodayEntry` fails and leaves the store unchanged, or
succeeds on an existing challenge. -/
theorem CreateOrUpdateTodayEntry_cases (db : DB) (challengeID : IDText)
    (ctxUserID : Option UUID) (body : Option EntryData) (newUUID : Nat → UUID) :
    ((CreateOrUpdateTodayEntry db challengeID ctxUserID body newUUID).1.isSuccess = false
      ∧ (CreateOrUpdateTodayEntry db challengeID ctxUserID body newUUID).2 = db)
    ∨ ∃ cid challenge, challengeID = .valid cid
        ∧ (db.challenges.find? fun c => c.ID = cid) = some challenge
        ∧ (CreateOrUpdateTodayEntry db challengeID ctxUserID body newUUID).1.isSuccess
            = true := by
  cases challengeID with
  | empty => left; exact ⟨rfl, rfl⟩
  | malformed => left; exact ⟨rfl, rfl⟩
  | valid cid =>
    cases ctxUserID with
    | none => left; exact ⟨rfl, rfl⟩
    | some userID =>
      cases hc : db.challenges.find? fun c => c.ID = cid with
      | none => left; simp [CreateOrUpdateTodayEntry, uuidParse, hc, Reply.isSuccess]
      | some challenge =>
        by_cases hu : challenge.UserID ≠ userID
        · left; simp [CreateOrUpdateTodayEntry, uuidParse, hc, hu, Reply.isSuccess]
        · by_cases ha : challenge.Status ≠ "active"
          · left; simp [CreateOrUpdateTodayEntry, uuidParse, hc, hu, ha, Reply.isSuccess]
          · cases body with
            | none =>
              left
              simp only [CreateOrUpdateTodayEntry, uuidParse, hc, hu, ha, if_false,
                Reply.isSuccess, and_self]
            | some entryData =>
              have hred : CreateOrUpdateTodayEntry db (.valid cid) (some userID)
                  (some entryData) newUUID
                  = match selectDailyEntry db cid challenge.CurrentDay with
                    | some e =>
                      finishTodayEntry db cid entryData newUUID true e.ID
                        (updateDailyEntryRow db.daily_entries e.ID entryData)
                    | none =>
                      finishTodayEntry db cid entryData newUUID false (newUUID 0)
                        (insertDailyEntryRow db.daily_entries (newUUID 0) cid
                          challenge.CurrentDay entryData) := by
                simp only [CreateOrUpdateTodayEntry, uuidParse, hc, hu, ha, if_false]
              rw [hred]
              cases selectDailyEntry db cid challenge.CurrentDay with
              | some e =>
                rcases finishTodayEntry_cases db cid entryData newUUID true e.ID
                  (updateDailyEntryRow db.daily_entries e.ID entryData) with h | h
                · exact Or.inl h
                · exact Or.inr ⟨cid, challenge, rfl, hc, h⟩
              | none =>
                rcases finishTodayEntry_cases db cid entryData newUUID false (newUUID 0)
                  (insertDailyEntryRow db.daily_entries (newUUID 0) cid
                    challenge.CurrentDay entryData) with h | h
                · exact Or.inl h
                · exact Or.inr ⟨cid, challenge, rfl, hc, h⟩

/-- Advancing the day of another challenge keeps the row read for this one. -/
theorem find_incrementCurrentDay_ne (rows : List Challenge) (cid other : UUID)
    (hne : other ≠ cid) :
    (incrementCurrentDay rows other).find? (fun c => c.ID = cid)
      = rows.find? fun c => c.ID = cid := by
  unfold incrementCurrentDay
  induction rows with
  | nil => rfl
  | cons r rest ih =>
    simp only [List.map_cons, List.find?_cons]
    by_cases h1 : r.ID = other
    · have h2 : ¬ r.ID = cid := fun h => hne (h1.symm.trans h)
      rw [if_pos h1]
      simp only [h2, decide_False]
      exact ih
    · rw [if_neg h1]
      by_cases h2 : r.ID = cid
      · simp only [h2, decide_True]
      · simp only [h2, decide_False]
        exact ih

/-- A call of `CreateOrUpdateTodayEntry` on a store in which the challenge has a
single record for its current day keeps that state, and a successful call on the
challenge writes its payload to that record. -/
theorem today_keeps_single (db : DB) (cid : UUID) (d : Int) (id0 : UUID)
    (h : SingleDayRecord db cid d id0) (challengeID : IDText) (ctxUserID : Option UUID)
    (body : Option EntryData) (newUUID : Nat → UUID) :
    SingleDayRecord (CreateOrUpdateTodayEntry db challengeID ctxUserID body newUUID).2 cid d id0
    ∧ (challengeID = .valid cid →
        (CreateOrUpdateTodayEntry db challengeID ctxUserID body newUUID).1.isSuccess = true →
        ∃ p, body = some p
          ∧ selectDailyEntry (CreateOrUpdateTodayEntry db challengeID ctxUserID body newUUID).2
              cid d = some (writtenRecord id0 cid d p)) := by
  obtain ⟨hday, hcount, e, hsel, heid⟩ := h
  rcases CreateOrUpdateTodayEntry_cases db challengeID ctxUserID body newUUID with
    ⟨hf, hun⟩ | ⟨cid2, ch2, hid, hc2, hs⟩
  · rw [hun]
    refine ⟨⟨hday, hcount, e, hsel, heid⟩, fun _ hs => ?_⟩
    rw [hf] at hs
    cases hs
  · subst hid
    obtain ⟨p, t, hb, _, _, _, hdb⟩ :=
      CreateOrUpdateTodayEntry_success db cid2 ctxUserID body newUUID ch2 hc2 hs
    rw [hdb]
    by_cases heq : cid2 = cid
    · subst heq
      have hcd : ch2.CurrentDay = d := by
        simpa [currentDayOf, hc2] using hday
      have hrec : HasDayRecord db cid2 d :=
        (selectDailyEntry_isSome db cid2 _).mp (by rw [hsel]; rfl)
      have hw := selectDailyEntry_written db cid2 d e p db.challenges t hsel
      simp only [hcd, hrec, not_true_eq_false, and_false, if_false, hsel]
      refine ⟨⟨hday, ?_, ⟨_, hw, heid⟩⟩, fun _ _ => ⟨p, hb, ?_⟩⟩
      · unfold dayKeys at hcount ⊢
        simp only [dayKeys_updateDailyEntryRow]
        exact hcount
      · rw [← heid]
        exact hw
    · refine ⟨⟨?_, ?_, ?_⟩, fun hid => absurd (IDText.valid.inj hid) heq⟩
      · unfold currentDayOf at hday ⊢
        simp only
        split_ifs
        · rw [find_incrementCurrentDay_ne db.challenges cid cid2 heq]
          exact hday
        · exact hday
      · unfold dayKeys at hcount ⊢
        simp only
        cases hsel2 : selectDailyEntry db cid2 ch2.CurrentDay with
        | some e2 =>
          simp only [dayKeys_updateDailyEntryRow]
          exact hcount
        | none =>
          simp only [insertDailyEntryRow, List.map_append, List.map_cons, List.map_nil,
            List.count_append, hcount]
          have hne : ((cid2, ch2.CurrentDay) == (cid, d)) = false := by
            simp [heq]
          simp [List.count_cons, hne]
      · cases hsel2 : selectDailyEntry db cid2 ch2.CurrentDay with
        | some e2 =>
          have hfound : selectDailyEntry
              { db with
                challenges :=
                  if p.Completed = true ∧ ¬HasDayRecord db cid2 ch2.CurrentDay then
                    incrementCurrentDay db.challenges cid2
                  else db.challenges
                daily_entries := updateDailyEntryRow db.daily_entries e2.ID p
                task_entries := t } cid d
              = some (if e.ID = e2.ID then
                  { e with Completed := p.Completed, Notes := p.Notes,
                           ProgressPhotoURL := p.ProgressPhotoURL,
                           EnergyLevel := p.EnergyLevel, MoodLevel := p.MoodLevel }
                else e) := by
            unfold selectDailyEntry at hsel ⊢
            simp only [find_updateDailyEntryRow, hsel, Option.map_some']
          refine ⟨_, hfound, ?_⟩
          by_cases hid2 : e.ID = e2.ID
          · rw [if_pos hid2]
            exact heid
          · rw [if_neg hid2]
            exact heid
        | none =>
          refine ⟨e, ?_, heid⟩
          unfold selectDailyEntry at hsel ⊢
          simp only [insertDailyEntryRow, List.find?_append, hsel]
          rfl

/-- Any sequence of `CreateOrUpdateTodayEntry` calls keeps the single record of
the current day. -/
theorem runTodayCalls_keeps_single (calls : List TodayCall) (db : DB) (cid : UUID) (d : Int)
    (id0 : UUID) (h : SingleDayRecord db cid d id0) :
    SingleDayRecord (runTodayCalls db calls) cid d id0 := by
  induction calls generalizing db with
  | nil => exact h
  | cons call rest ih =>
    exact ih _ (today_keeps_single db cid d id0 h call.challengeID call.ctxUserID call.body
      call.newUUID).1

/-- A first submission with `completed = false` on a day without record creates
the single record of the day and leaves the day as it is. -/
theorem first_incomplete_single (db : DB) (cid : UUID) (challenge : Challenge)
    (p0 : EntryData) (newUUID0 : Nat → UUID)
    (hc : (db.challenges.find? fun c => c.ID = cid) = some challenge)
    (ha : challenge.Status = "active") (hv : ValidPayload p0) (hinc : p0.Completed = false)
    (hno : ¬ HasDayRecord db cid challenge.CurrentDay) :
    (CreateOrUpdateTodayEntry db (.valid cid) (some challenge.UserID) (some p0) newUUID0).1
      = .success 200
    ∧ SingleDayRecord
        (CreateOrUpdateTodayEntry db (.valid cid) (some challenge.UserID) (some p0) newUUID0).2
        cid challenge.CurrentDay (newUUID0 0) := by
  have hs := CreateOrUpdateTodayEntry_isSuccess db cid p0 newUUID0 challenge hc ha hv
  obtain ⟨p, t, hb, _, _, hr, hdb⟩ :=
    CreateOrUpdateTodayEntry_success db cid (some challenge.UserID) (some p0) newUUID0
      challenge hc hs
  cases hb
  have hsel := (selectDailyEntry_none db cid challenge.CurrentDay).mpr hno
  refine ⟨hr, ?_⟩
  rw [hdb]
  simp only [hinc, Bool.false_eq_true, false_and, if_false, hsel]
  refine ⟨?_, ?_, ⟨writtenRecord (newUUID0 0) cid challenge.CurrentDay p0, ?_, rfl⟩⟩
  · simp only [currentDayOf, hc, Option.map_some']
  · unfold dayKeys
    simp only [insertDailyEntryRow, List.map_append, List.map_cons, List.map_nil,
      List.count_append]
    have h0 : List.count (cid, challenge.CurrentDay)
        (db.daily_entries.map fun e => (e.ChallengeID, e.DayNumber)) = 0 := by
      apply List.count_eq_zero_of_not_mem
      intro hm
      obtain ⟨e, he, hk⟩ := List.mem_map.mp hm
      simp only [Prod.mk.injEq] at hk
      exact hno ⟨e, he, hk.1, hk.2⟩
    rw [h0]
    simp
  · unfold selectDailyEntry at hsel ⊢
    simp only [insertDailyEntryRow, List.find?_append, hsel]
    simp [writtenRecord]

/-! ## Lemmas on `current_day` -/

/-- The rows after `UpdateChallenge` are rows of the table before it or carry the
`current_day` of the body. -/
theorem UpdateChallenge_rows (db : DB) (caller : Option String) (challengeID : IDText)
    (body : Option ChallengeBody) :
    ∀ c ∈ (UpdateChallenge db caller challengeID body).2.challenges,
      c ∈ db.challenges ∨ ∃ b, body = some b ∧ c.CurrentDay = b.CurrentDay := by
  unfold UpdateChallenge
  repeat' split
  all_goals intro c hc
  all_goals first | exact Or.inl hc | skip
  rename_i b _
  obtain ⟨c0, hc0, rfl⟩ := List.mem_map.mp hc
  split_ifs
  · exact Or.inr ⟨b, rfl, rfl⟩
  · exact Or.inl hc0

/-- The rows after `CreateChallenge` are rows of the table before it or a new
active row at day 1. -/
theorem CreateChallenge_rows (db : DB) (caller : Option String) (body : Option ChallengeBody)
    (newID : UUID) :
    ∀ c ∈ (CreateChallenge db caller body newID).2.challenges,
      c ∈ db.challenges ∨ (c.ID = newID ∧ c.CurrentDay = 1 ∧ c.Status = "active") := by
  unfold CreateChallenge
  repeat' split
  all_goals intro c hc
  all_goals first | exact Or.inl hc | skip
  rcases List.mem_append.mp hc with h | h
  · exact Or.inl h
  · rw [List.mem_singleton] at h
    subst h
    exact Or.inr ⟨rfl, rfl, rfl⟩

/-- The rows after `ResetChallenge` are rows of the table before it or are at
day 1. -/
theorem ResetChallenge_rows (db : DB) (caller : Option String) (challengeID : IDText) :
    ∀ c ∈ (ResetChallenge db caller challengeID).2.challenges,
      c ∈ db.challenges ∨ c.CurrentDay = 1 := by
  unfold ResetChallenge
  repeat' split
  all_goals intro c hc
  all_goals first | exact Or.inl hc | skip
  obtain ⟨c0, hc0, rfl⟩ := List.mem_map.mp hc
  split_ifs
  · exact Or.inr rfl
  · exact Or.inl hc0

/-- The challenge table after `CreateOrUpdateTodayEntry` is the table before it,
possibly with the day of one challenge advanced. -/
theorem CreateOrUpdateTodayEntry_challenges (db : DB) (challengeID : IDText)
    (ctxUserID : Option UUID) (body : Option EntryData) (newUUID : Nat → UUID) :
    (CreateOrUpdateTodayEntry db challengeID ctxUserID body newUUID).2.challenges
      = db.challenges
    ∨ ∃ cid, (CreateOrUpdateTodayEntry db challengeID ctxUserID body newUUID).2.challenges
      = incrementCurrentDay db.challenges cid := by
  rcases CreateOrUpdateTodayEntry_cases db challengeID ctxUserID body newUUID with
    ⟨_, hun⟩ | ⟨cid, ch, hid, hc, hs⟩
  · left; rw [hun]
  · subst hid
    obtain ⟨p, t, _, _, _, _, hdb⟩ :=
      CreateOrUpdateTodayEntry_success db cid ctxUserID body newUUID ch hc hs
    rw [hdb]
    simp only
    split_ifs
    · exact Or.inr ⟨cid, rfl⟩
    · exact Or.inl rfl

/-- The challenge table after `UpdateDailyEntry` is the table before it. -/
theorem UpdateDailyEntry_challenges (db : DB) (challengeID : IDText) (day : Option Int)
    (ctxUserID : Option UUID) (body : Option EntryData) (newUUID : Nat → UUID) :
    (UpdateDailyEntry db challengeID day ctxUserID body newUUID).2.challenges
      = db.challenges := by
  rcases UpdateDailyEntry_store db challengeID day ctxUserID body newUUID with
    h | ⟨_, _, _, _, _, _, _, _, _, _, h⟩
  · rw [h]
  · rw [h]

/-- Advancing a day lowers no `current_day`. -/
theorem currentDayOf_increment (rows : List Challenge) (other cid : UUID) (d : Int)
    (c0 : Challenge) (h : (rows.find? fun c => c.ID = cid) = some c0) (hd : c0.CurrentDay = d) :
    ∃ c1, ((incrementCurrentDay rows other).find? fun c => c.ID = cid) = some c1
      ∧ d ≤ c1.CurrentDay := by
  by_cases hne : other = cid
  · subst hne
    rw [find_incrementCurrentDay, h]
    exact ⟨_, rfl, by simp only; omega⟩
  · rw [find_incrementCurrentDay_ne rows cid other hne, h]
    exact ⟨c0, rfl, by omega⟩

/-- A ledger call that keeps `current_day >= 1` preserves that every challenge
is at day 1 or later. -/
theorem runLedgerCall_day_inv (db : DB) (call : LedgerCall)
    (hinv : ∀ c ∈ db.challenges, 1 ≤ c.CurrentDay) (hk : call.keepsDay = true) :
    ∀ c ∈ (runLedgerCall db call).2.challenges, 1 ≤ c.CurrentDay := by
  intro c hc
  cases call with
  | createChallenge caller body newID =>
    rcases CreateChallenge_rows db caller body newID c hc with h | ⟨_, h, _⟩
    · exact hinv c h
    · rw [h]
  | updateChallenge caller challengeID body =>
    rcases UpdateChallenge_rows db caller challengeID body c hc with h | ⟨b, hb, h⟩
    · exact hinv c h
    · subst hb
      rw [h]
      simpa [LedgerCall.keepsDay] using hk
  | resetChallenge caller challengeID =>
    rcases ResetChallenge_rows db caller challengeID c hc with h | h
    · exact hinv c h
    · rw [h]
  | today challengeID ctxUserID body newUUID =>
    simp only [runLedgerCall] at hc
    rcases CreateOrUpdateTodayEntry_challenges db challengeID ctxUserID body newUUID with
      h | ⟨cid, h⟩
    · rw [h] at hc
      exact hinv c hc
    · rw [h] at hc
      obtain ⟨c0, hc0, rfl⟩ := List.mem_map.mp hc
      have := hinv c0 hc0
      split_ifs
      · simp only; omega
      · exact this
  | byDay challengeID day ctxUserID body newUUID =>
    simp only [runLedgerCall] at hc
    rw [UpdateDailyEntry_challenges] at hc
    exact hinv c hc

/-- In every store reached by ledger calls that keep `current_day >= 1`, every
challenge is at day 1 or later. -/
theorem ledgerReachable_day_inv (db0 db : DB)
    (h0 : ∀ c ∈ db0.challenges, 1 ≤ c.CurrentDay) (h : LedgerReachable db0 db) :
    ∀ c ∈ db.challenges, 1 ≤ c.CurrentDay := by
  induction h with
  | start => exact h0
  | step db1 call _ hk _ ih => exact runLedgerCall_day_inv db1 call ih hk

/-- A ledger call other than `ResetChallenge` and `UpdateChallenge` lowers no
`current_day`. -/
theorem runLedgerCall_monotone (db : DB) (call : LedgerCall) (hn : call.neverLowers = true)
    (cid : UUID) (d : Int) (hd : currentDayOf db cid = some d) :
    ∃ d2, currentDayOf (runLedgerCall db call).2 cid = some d2 ∧ d ≤ d2 := by
  unfold currentDayOf at hd ⊢
  cases hfind : db.challenges.find? fun c => c.ID = cid with
  | none => rw [hfind] at hd; cases hd
  | some c0 =>
    rw [hfind] at hd
    have hc0 : c0.CurrentDay = d := by simpa using hd
    cases call with
    | createChallenge caller body newID =>
      simp only [runLedgerCall]
      unfold CreateChallenge
      repeat' split
      all_goals first
        | exact ⟨d, by rw [hfind, Option.map_some', hc0], le_refl _⟩
        | skip
      refine ⟨d, ?_, le_refl _⟩
      simp only [List.find?_append, hfind]
      rw [← hc0]
      rfl
    | updateChallenge caller challengeID body => simp [LedgerCall.neverLowers] at hn
    | resetChallenge caller challengeID => simp [LedgerCall.neverLowers] at hn
    | today challengeID ctxUserID body newUUID =>
      simp only [runLedgerCall]
      rcases CreateOrUpdateTodayEntry_challenges db challengeID ctxUserID body newUUID with
        h | ⟨other, h⟩
      · rw [h, hfind]
        exact ⟨d, by rw [Option.map_some', hc0], le_refl _⟩
      · rw [h]
        obtain ⟨c1, h1, h2⟩ := currentDayOf_increment db.challenges other cid d c0 hfind hc0
        rw [h1]
        exact ⟨c1.CurrentDay, rfl, h2⟩
    | byDay challengeID day ctxUserID body newUUID =>
      simp only [runLedgerCall]
      rw [UpdateDailyEntry_challenges, hfind]
      exact ⟨d, by rw [Option.map_some', hc0], le_refl _⟩

/-! ## Claims on the ordered sibling sets -/

/-- C1 (counterexample).  From the empty section B of the example store, a
successful `CreateTask` followed by a successful `ReorderTask` of the new task
to order 3 leaves the single task with order 3, so the orders of the `N = 1`
tasks are not `{1}`; and a successful `CreateTask` with the explicit order 7
leaves the single task with order 7. -/
theorem C1_density_counterexample :
    taskOrders exampleDB 22 = []
    ∧ (CreateTask exampleDB (some "alice") (.valid 22) (some exampleTaskRequest) 100).1
        = .success 201
    ∧ (ReorderTask exampleAfterCreate (some "alice") (.valid 100) (some ⟨3⟩)).1 = .success 200
    ∧ taskOrders (ReorderTask exampleAfterCreate (some "alice") (.valid 100) (some ⟨3⟩)).2 22
        = [3]
    ∧ ¬ DenseOrders
        (taskOrders (ReorderTask exampleAfterCreate (some "alice") (.valid 100) (some ⟨3⟩)).2 22)
    ∧ (CreateTask exampleDB (some "alice") (.valid 22)
        (some { exampleTaskRequest with Order := 7 }) 100).1 = .success 201
    ∧ taskOrders (CreateTask exampleDB (some "alice") (.valid 22)
        (some { exampleTaskRequest with Order := 7 }) 100).2 22 = [7] := by
  decide

/-- C1 (amended).  Density invariant for in-range calls: from a store with
distinct task identifiers in which the task orders of a section are exactly
`1..N` (in particular a section with no tasks), after every finite sequence of
successful `CreateTask` calls without an explicit order, `DeleteTask` calls and
`ReorderTask` calls whose target is at most the number of tasks of the section,
the task orders of the section are again exactly `1..N`; and a `ReorderSection`
whose target is at most the number of sections of the challenge maps section
orders that are exactly `1..N` to section orders that are exactly `1..N`. -/
theorem C1_density_in_range (db0 db : DB) (sid : UUID)
    (hids : (db0.tasks.map fun t => t.ID).Nodup)
    (hstart : DenseOrders (taskOrders db0 sid))
    (hreach : TasksReachable db0 db)
    (dbS : DB) (caller : Option String) (sectionID : IDText)
    (body : Option ReorderSectionRequest) (cid : UUID)
    (hidsS : (dbS.sections.map fun s => s.ID).Nodup)
    (hstartS : DenseOrders (sectionOrders dbS cid))
    (hrange : sectionMoveInRange dbS sectionID body = true) :
    DenseOrders (taskOrders db sid)
    ∧ DenseOrders (sectionOrders (ReorderSection dbS caller sectionID body).2 cid) :=
  ⟨(tasksReachable_inv db0 db sid hids hstart hreach).2,
   (ReorderSection_inv dbS caller sectionID body cid hidsS hstartS hrange).2⟩

theorem exampleCalls_reachable :
    TasksReachable exampleDB (runTaskCalls (some "alice") exampleDB exampleCalls) := by
  have step : ∀ (calls : List TaskCall) (db : DB), TasksReachable exampleDB db →
      (∀ (pre post : List TaskCall) (c : TaskCall), calls = pre ++ c :: post →
        c.inRange (runTaskCalls (some "alice") db pre) = true
        ∧ (runTaskCall (runTaskCalls (some "alice") db pre) (some "alice") c).1.isSuccess
            = true) →
      TasksReachable exampleDB (runTaskCalls (some "alice") db calls) := by
    intro calls
    induction calls with
    | nil => intro db h _; exact h
    | cons c rest ih =>
      intro db h hall
      obtain ⟨h1, h2⟩ := hall [] rest c rfl
      refine ih _ (TasksReachable.step db (some "alice") c h h1 h2) ?_
      intro pre post c2 he
      exact hall (c :: pre) post c2 (by rw [he]; rfl)
  apply step _ _ TasksReachable.start
  intro pre post c he
  have hlen : pre.length < 4 := by
    have := congrArg List.length he
    simp [exampleCalls] at this
    omega
  match pre, hlen with
  | [], _ => cases he; decide
  | [_], _ => cases he; decide
  | [_, _], _ => cases he; decide
  | [_, _, _], _ => cases he; decide

/-- C1 (witness).  The amended invariant on the example store: after two
creations in the empty section B, a move to the front and a deletion, the task
orders of B are `[1]`; and moving section D to order 2 keeps the section orders
of the challenge dense. -/
theorem C1_density_in_range_witness :
    DenseOrders (taskOrders (runTaskCalls (some "alice") exampleDB exampleCalls) 22)
    ∧ DenseOrders (sectionOrders
        (ReorderSection exampleDB (some "alice") (.valid 24) (some ⟨2⟩)).2 10) :=
  C1_density_in_range exampleDB _ 22 (by decide) (by decide) exampleCalls_reachable
    exampleDB (some "alice") (.valid 24) (some ⟨2⟩) 10 (by decide) (by decide) (by decide)

/-- C2.  Move toward the front: for every task `E` owned by the caller, with
current order `c` (a value of the Go `int` it is read into), and every target
`n` with `0 < n < c`, `ReorderTask` succeeds and the table after the call is the
table before it in which the task has order `n`, exactly the siblings under the
same parent with order in `[n, c)` have their order increased by 1, and every
other row is unchanged; the same, on its own store, for every section `S` and
`ReorderSection`; on the sections `[A:1, B:2, C:3, D:4]`, moving `D` to 2 yields
`[A:1, D:2, B:3, C:4]`. -/
theorem C2_move_toward_front :
    (∀ (db : DB) (userID : String) (u : UUID) (E : Task) (n : Int),
      validateTaskOwnership db (.valid u) userID = true →
      selectTask db (.valid u) = some E → IsGoInt E.Order →
      0 < n → n < E.Order →
      ReorderTask db (some userID) (.valid u) (some ⟨n⟩)
        = (.success 200,
            { db with tasks := db.tasks.map (moveTaskFront u E.SectionID n E.Order) }))
    ∧ (∀ (db : DB) (userID : String) (v : UUID) (S : Section) (m : Int),
      validateSectionOwnership db (.valid v) userID = true →
      selectSection db (.valid v) = some S → IsGoInt S.Order →
      0 < m → m < S.Order →
      ReorderSection db (some userID) (.valid v) (some ⟨m⟩)
        = (.success 200,
            { db with sections :=
                db.sections.map (moveSectionFront v S.ChallengeID m S.Order) }))
    ∧ listSections exampleDB 10 = [("A", 1), ("B", 2), ("C", 3), ("D", 4)]
    ∧ listSections (ReorderSection exampleDB (some "alice") (.valid 24) (some ⟨2⟩)).2 10
      = [("A", 1), ("D", 2), ("B", 3), ("C", 4)] := by
  refine ⟨?_, ?_, by decide, by decide⟩
  · intro db userID u E n hown hE hc hn hlt
    exact ReorderTask_front db userID u n E hown hE hn hlt
      ⟨by unfold goIntMin; omega, le_of_lt (lt_of_lt_of_le hlt hc.2)⟩
  · intro db userID v S m hown hS hc hm hlt
    exact ReorderSection_front db userID v m S hown hS hm hlt
      ⟨by unfold goIntMin; omega, le_of_lt (lt_of_lt_of_le hlt hc.2)⟩

/-- C2 (witness).  In the example store, task `c` (order 3) moves to order 1 and
section `D` (order 4) moves to order 2. -/
theorem C2_move_toward_front_witness :
    ReorderTask exampleDB (some "alice") (.valid 33) (some ⟨1⟩)
      = (.success 200,
          { exampleDB with tasks := exampleDB.tasks.map (moveTaskFront 33 21 1 3) })
    ∧ ReorderSection exampleDB (some "alice") (.valid 24) (some ⟨2⟩)
      = (.success 200,
          { exampleDB with sections := exampleDB.sections.map (moveSectionFront 24 10 2 4) }) :=
  ⟨C2_move_toward_front.1 exampleDB "alice"
      33 ⟨33, 21, "c", "", "boolean", true, false, false, 0, 3⟩ 1 (by decide) (by decide)
      (by decide) (by decide) (by decide),
   C2_move_toward_front.2.1 exampleDB "alice"
      24 ⟨24, 10, "D", "", 4⟩ 2 (by decide) (by decide) (by decide) (by decide) (by decide)⟩

/-- C3 (counterexample).  Section `Z` of alice has the order -1, and the target 0
is greater: `ReorderSection` refuses it with 400 and moves nothing.  Task `a`
has the order 1, and the target `2^63` is greater: the `int` field of the body
does not hold it and `ReorderTask` answers 400 and moves nothing. -/
theorem C3_move_toward_back_counterexample :
    validateSectionOwnership negativeOrderDB (.valid 25) "alice" = true
    ∧ selectSection negativeOrderDB (.valid 25) = some ⟨25, 10, "Z", "", -1⟩
    ∧ ReorderSection negativeOrderDB (some "alice") (.valid 25) (some ⟨0⟩)
      = (.failure 400 "Order must be a positive integer", negativeOrderDB)
    ∧ validateTaskOwnership exampleDB (.valid 31) "alice" = true
    ∧ selectTask exampleDB (.valid 31)
      = some ⟨31, 21, "a", "", "boolean", true, false, false, 0, 1⟩
    ∧ ReorderTask exampleDB (some "alice") (.valid 31) (some ⟨9223372036854775808⟩)
      = (.failure 400 "Invalid request body", exampleDB) := by
  refine ⟨by decide, by decide, by decide, by decide, by decide, by decide⟩

/-- C3 (amended).  Move toward the back: for every task `E` owned by the caller,
with current order `c`, and every positive target `n > c` that is at most
`2^63 - 1`, the largest value of the `int` field of the body, `ReorderTask`
succeeds and the table after the call is the table before it in which the task
has order `n`, exactly the siblings under the same parent with order in `(c, n]`
have their order decreased by 1, and every other row is unchanged; the same, on
its own store, for every section `S` and `ReorderSection`; on the sections
`[A:1, B:2, C:3, D:4]`, moving `A` to 3 yields `[B:1, C:2, A:3, D:4]`. -/
theorem C3_move_toward_back :
    (∀ (db : DB) (userID : String) (u : UUID) (E : Task) (n : Int),
      validateTaskOwnership db (.valid u) userID = true →
      selectTask db (.valid u) = some E →
      0 < n → n ≤ goIntMax → E.Order < n →
      ReorderTask db (some userID) (.valid u) (some ⟨n⟩)
        = (.success 200,
            { db with tasks := db.tasks.map (moveTaskBack u E.SectionID n E.Order) }))
    ∧ (∀ (db : DB) (userID : String) (v : UUID) (S : Section) (m : Int),
      validateSectionOwnership db (.valid v) userID = true →
      selectSection db (.valid v) = some S →
      0 < m → m ≤ goIntMax → S.Order < m →
      ReorderSection db (some userID) (.valid v) (some ⟨m⟩)
        = (.success 200,
            { db with sections :=
                db.sections.map (moveSectionBack v S.ChallengeID m S.Order) }))
    ∧ listSections exampleDB 10 = [("A", 1), ("B", 2), ("C", 3), ("D", 4)]
    ∧ listSections (ReorderSection exampleDB (some "alice") (.valid 21) (some ⟨3⟩)).2 10
      = [("B", 1), ("C", 2), ("A", 3), ("D", 4)] := by
  refine ⟨?_, ?_, by decide, by decide⟩
  · intro db userID u E n hown hE hn hmax hgt
    exact ReorderTask_back db userID u n E hown hE hn hgt ⟨by unfold goIntMin; omega, hmax⟩
  · intro db userID v S m hown hS hm hmax hgt
    exact ReorderSection_back db userID v m S hown hS hm hgt ⟨by unfold goIntMin; omega, hmax⟩

/-- C3 (witness).  In the example store, task `a` (order 1) moves to order 3 and
section `A` (order 1) moves to order 3. -/
theorem C3_move_toward_back_witness :
    ReorderTask exampleDB (some "alice") (.valid 31) (some ⟨3⟩)
      = (.success 200,
          { exampleDB with tasks := exampleDB.tasks.map (moveTaskBack 31 21 3 1) })
    ∧ ReorderSection exampleDB (some "alice") (.valid 21) (some ⟨3⟩)
      = (.success 200,
          { exampleDB with sections := exampleDB.sections.map (moveSectionBack 21 10 3 1) }) :=
  ⟨C3_move_toward_back.1 exampleDB "alice"
      31 ⟨31, 21, "a", "", "boolean", true, false, false, 0, 1⟩ 3 (by decide) (by decide)
      (by decide) (by decide) (by decide),
   C3_move_toward_back.2.1 exampleDB "alice"
      21 ⟨21, 10, "A", "", 1⟩ 3 (by decide) (by decide) (by decide) (by decide) (by decide)⟩

/-- C4.  Remove on tasks: in a store with distinct task identifiers, for a task
`E` owned by the caller whose section has task orders exactly `1..N`,
`DeleteTask` succeeds; the table after the call is the table before it without
the row `E`, in which exactly the tasks of that section with order greater than
`E`'s have their order decreased by 1; the section then has one task fewer, its
orders are exactly `1..N-1`, and the remaining tasks of the section keep their
relative order. -/
theorem C4_remove_task (db : DB) (userID : String) (u : UUID) (E : Task)
    (hown : validateTaskOwnership db (.valid u) userID = true)
    (hE : selectTask db (.valid u) = some E)
    (hids : (db.tasks.map fun t => t.ID).Nodup)
    (hdense : DenseOrders (taskOrders db E.SectionID)) :
    DeleteTask db (some userID) (.valid u)
      = (.success 200,
          { db with tasks := (db.tasks.erase E).map (closeTaskGap E.SectionID E.Order) })
    ∧ (taskOrders (DeleteTask db (some userID) (.valid u)).2 E.SectionID).length + 1
        = (taskOrders db E.SectionID).length
    ∧ DenseOrders (taskOrders (DeleteTask db (some userID) (.valid u)).2 E.SectionID)
    ∧ ∀ a ∈ db.tasks.erase E, ∀ b ∈ db.tasks.erase E,
        a.SectionID = E.SectionID → b.SectionID = E.SectionID →
        (a.Order < b.Order ↔
          (closeTaskGap E.SectionID E.Order a).Order
            < (closeTaskGap E.SectionID E.Order b).Order) := by
  obtain ⟨hmem, hu⟩ := selectTask_some db u E hE
  have hnd := ((denseOrders_iff _).mp hdense).1
  have hc : E.Order ∈ taskOrders db E.SectionID :=
    List.mem_map.mpr ⟨E, List.mem_filter.mpr ⟨hmem, by simp⟩, rfl⟩
  have heq := DeleteTask_eq db userID u E hown hE
  have hord := taskOrders_delete_same db u E hids hmem hu hnd
  refine ⟨?_, ?_, ?_, ?_⟩
  · rw [heq, tasks_filter_ne_eq_erase db u E hids hmem hu]
  · rw [heq]
    simp only [hord, List.length_map]
    have hf : ((taskOrders db E.SectionID).filter fun x => decide (x ≠ E.Order))
        = (taskOrders db E.SectionID).erase E.Order := by
      rw [hnd.erase_eq_filter]
      apply List.filter_congr
      intro x _
      by_cases h : x = E.Order <;> simp [h]
    rw [hf, List.length_erase_of_mem hc]
    have : 0 < (taskOrders db E.SectionID).length := List.length_pos_of_mem hc
    omega
  · rw [heq]
    simp only [hord]
    exact denseOrders_filter_closeGap _ _ hdense hc
  · intro a ha b hb hsa hsb
    have hta := (List.Nodup.of_map _ hids).mem_erase_iff.mp ha
    have htb := (List.Nodup.of_map _ hids).mem_erase_iff.mp hb
    have hoa : a.Order ≠ E.Order := fun e =>
      hta.1 (task_eq_of_order db _ hnd a E hta.2 hmem hsa rfl e)
    have hob : b.Order ≠ E.Order := fun e =>
      htb.1 (task_eq_of_order db _ hnd b E htb.2 hmem hsb rfl e)
    have := closeGap_lt_iff E.Order a.Order b.Order hoa hob
    simp only [closeTaskGap, hsa, hsb, true_and]
    unfold closeGap at this
    split_ifs at this ⊢ <;> simp_all

/-- C4 (witness).  Deleting task `a` (order 1) of section A in the example store
leaves the tasks `b` and `c` with orders 1 and 2. -/
theorem C4_remove_task_witness :
    (DeleteTask exampleDB (some "alice") (.valid 31)
      = (.success 200,
          { exampleDB with tasks := ((exampleDB.tasks.erase
              ⟨31, 21, "a", "", "boolean", true, false, false, 0, 1⟩).map
                (closeTaskGap 21 1)) }))
    ∧ listTasks (DeleteTask exampleDB (some "alice") (.valid 31)).2 21 = [("b", 1), ("c", 2)] :=
  ⟨(C4_remove_task exampleDB "alice" 31 ⟨31, 21, "a", "", "boolean", true, false, false, 0, 1⟩
    (by decide) (by decide) (by decide) (by decide)).1, by decide⟩

/-- C5 (code at the failing input).  `DeleteSection` on section A (order 1) of
the example store succeeds, deletes the tasks of A and the row A, and leaves the
remaining sections B, C, D with their orders 2, 3, 4: the orders of the three
remaining sections are not `1..3`, whereas `DeleteTask` on the task of order 1
leaves the orders `1, 2`. -/
theorem C5_deleteSection_no_compaction :
    (DeleteSection exampleDB (some "alice") (.valid 21)).1 = .success 200
    ∧ (DeleteSection exampleDB (some "alice") (.valid 21)).2.tasks = []
    ∧ listSections (DeleteSection exampleDB (some "alice") (.valid 21)).2 10
        = [("B", 2), ("C", 3), ("D", 4)]
    ∧ ¬ DenseOrders (sectionOrders (DeleteSection exampleDB (some "alice") (.valid 21)).2 10)
    ∧ listTasks (DeleteTask exampleDB (some "alice") (.valid 31)).2 21 = [("b", 1), ("c", 2)] := by
  decide

/-! ## Claims on the streak aggregator -/

/-- C8.  Longest streak: for every sequence of records, the `longest_streak`
reported by `GetChallengeProgress` is the running maximum of the counter that is
incremented on a completed record and reset to 0 on any other, and it is the
greatest `k` such that the sequence has a block of `k` adjacent completed
records; it is 0 for the empty sequence. -/
theorem C8_longest_streak (challenge : Challenge) (completedDays : Nat)
    (entries : List ProgressEntry) :
    (progressOf challenge completedDays entries).LongestStreak = runningMaximum entries
    ∧ IsGreatest {k | HasCompletedBlock entries k}
        (progressOf challenge completedDays entries).LongestStreak
    ∧ (progressOf challenge completedDays []).LongestStreak = 0 :=
  ⟨calculateStreaks_longest_eq_runningMaximum entries,
   calculateStreaks_longest_isGreatest entries, rfl⟩

/-- C9.  Current streak rule: the `current_streak` reported by
`GetChallengeProgress` is the value of the streak counter at the last position
that is completed and is either the last record or followed by a record whose
day number exceeds its own by more than 1; it is 0 when there is no such
position; and when the last record is completed it is the length of the trailing
block of completed records. -/
theorem C9_current_streak (challenge : Challenge) (completedDays : Nat)
    (entries : List ProgressEntry) :
    (∀ i, isBoundary entries i = true →
      (∀ j, j < entries.length → i < j → isBoundary entries j = false) →
      (progressOf challenge completedDays entries).CurrentStreak = streakAt entries i)
    ∧ ((∀ i, i < entries.length → isBoundary entries i = false) →
      (progressOf challenge completedDays entries).CurrentStreak = 0)
    ∧ (∀ e, entries.getLast? = some e → e.Completed = true →
      (progressOf challenge completedDays entries).CurrentStreak
        = (entries.reverse.takeWhile fun r => r.Completed).length) := by
  obtain ⟨h1, h2⟩ := calculateStreaks_current_inv entries ⟨0, 0, 0⟩
  have hout : ∀ i, (∀ j, j < entries.length → i < j → isBoundary entries j = false) →
      ∀ j, i < j → isBoundary entries j = false := by
    intro i h j hj
    by_cases hl : j < entries.length
    · exact h j hl hj
    · exact isBoundary_of_length_le entries j (by omega)
  refine ⟨fun i hi hlast => h1 i hi (hout i hlast), ?_, ?_⟩
  · intro hall
    refine h2 fun i => ?_
    by_cases hl : i < entries.length
    · exact hall i hl
    · exact isBoundary_of_length_le entries i (by omega)
  · intro e he hc
    obtain ⟨init, rfl⟩ : ∃ init, entries = init ++ [e] := by
      rcases List.eq_nil_or_concat entries with h | ⟨init, b, h⟩
      · subst h; simp at he
      · subst h
        rw [List.concat_eq_append] at he ⊢
        have hb : b = e := by simpa using he
        exact ⟨init, by rw [hb]⟩
    have := h1 init.length (isBoundary_last init e hc)
      (fun j hj => isBoundary_of_length_le _ j (by simp; omega))
    rw [← counterFrom_zero_eq_trailing]
    have htake : (init ++ [e]).take (init.length + 1) = init ++ [e] :=
      List.take_of_length_le (by simp)
    rw [htake] at this
    exact this

/-- C9 (witness).  On `[(1,true),(2,true),(3,false),(4,true)]` the last boundary
position is 3 and the current streak is the counter value 1 there; on
`[(1,false)]` there is no boundary position and the current streak is 0; on
`[(1,true),(2,true)]` the current streak is the trailing block length 2. -/
theorem C9_current_streak_witness :
    (progressOf ⟨10, 1, "Hard 75", "", 5, "active"⟩ 3
        [⟨1, true⟩, ⟨2, true⟩, ⟨3, false⟩, ⟨4, true⟩]).CurrentStreak = 1
    ∧ (progressOf ⟨10, 1, "Hard 75", "", 1, "active"⟩ 0 [⟨1, false⟩]).CurrentStreak = 0
    ∧ (progressOf ⟨10, 1, "Hard 75", "", 3, "active"⟩ 2
        [⟨1, true⟩, ⟨2, true⟩]).CurrentStreak = 2 :=
  ⟨(C9_current_streak ⟨10, 1, "Hard 75", "", 5, "active"⟩ 3
      [⟨1, true⟩, ⟨2, true⟩, ⟨3, false⟩, ⟨4, true⟩]).1 3 (by decide) (by decide),
   (C9_current_streak ⟨10, 1, "Hard 75", "", 1, "active"⟩ 0 [⟨1, false⟩]).2.1 (by decide),
   (C9_current_streak ⟨10, 1, "Hard 75", "", 3, "active"⟩ 2
      [⟨1, true⟩, ⟨2, true⟩]).2.2 ⟨2, true⟩ (by decide) (by decide)⟩

/-- C10.  Streak examples: with the entries `(1,true),(2,true),(3,false),(4,true)`
stored, `GetChallengeProgress` reports `longest_streak = 2`, `completed_days = 3`
and `current_streak = 1`; with `(1,true),(2,true)` it reports
`current_streak = 2`. -/
theorem C10_streak_examples :
    GetChallengeProgress (progressDB 5 [(4, true), (1, true), (3, false), (2, true)])
        (some "alice") (.valid 10)
      = (.success 200, some { TotalDays := 75, CurrentDay := 5, CompletedDays := 3,
                              CurrentStreak := 1, LongestStreak := 2, Status := "active" })
    ∧ streakRows (progressDB 5 [(4, true), (1, true), (3, false), (2, true)]) 10
      = [⟨1, true⟩, ⟨2, true⟩, ⟨3, false⟩, ⟨4, true⟩]
    ∧ GetChallengeProgress (progressDB 3 [(1, true), (2, true)]) (some "alice") (.valid 10)
      = (.success 200, some { TotalDays := 75, CurrentDay := 3, CompletedDays := 2,
                              CurrentStreak := 2, LongestStreak := 2, Status := "active" }) := by
  decide

/-! ## Claims on the day ledger -/

/-- C6.  Day advancement: for a challenge with `current_day = d`, after a
successful `CreateOrUpdateTodayEntry` the body was a payload and `current_day`
is `d + 1` if and only if the payload has `completed = true` and no day record
for `(challenge, d)` existed before the call; in every other case it is still
`d`. -/
theorem C6_day_advancement (db : DB) (cid : UUID) (ctxUserID : Option UUID)
    (body : Option EntryData) (newUUID : Nat → UUID) (challenge : Challenge)
    (hc : (db.challenges.find? fun c => c.ID = cid) = some challenge)
    (hs : (CreateOrUpdateTodayEntry db (.valid cid) ctxUserID body newUUID).1.isSuccess = true) :
    ∃ entryData, body = some entryData
      ∧ (currentDayOf (CreateOrUpdateTodayEntry db (.valid cid) ctxUserID body newUUID).2 cid
            = some (challenge.CurrentDay + 1)
          ↔ entryData.Completed = true ∧ ¬ HasDayRecord db cid challenge.CurrentDay)
      ∧ (¬ (entryData.Completed = true ∧ ¬ HasDayRecord db cid challenge.CurrentDay) →
          currentDayOf (CreateOrUpdateTodayEntry db (.valid cid) ctxUserID body newUUID).2 cid
            = some challenge.CurrentDay) := by
  obtain ⟨entryData, t, hb, _, _, _, hdb⟩ :=
    CreateOrUpdateTodayEntry_success db cid ctxUserID body newUUID challenge hc hs
  refine ⟨entryData, hb, ?_, ?_⟩
  · rw [hdb]
    by_cases hcond : entryData.Completed = true ∧ ¬ HasDayRecord db cid challenge.CurrentDay
    · simp only [currentDayOf, hcond, and_self, not_false_eq_true, if_true,
        find_incrementCurrentDay, hc, Option.map_some']
    · simp only [currentDayOf, hcond, if_false, hc, Option.map_some', Option.some.injEq,
        iff_false]
      omega
  · intro hcond
    rw [hdb]
    simp only [currentDayOf, hcond, if_false, hc, Option.map_some']

/-- C6 (witness).  On a challenge at day 1 without records, a completed
submission is accepted and advances the day to 2. -/
theorem C6_day_advancement_witness :
    ∃ entryData, some (examplePayload true) = some entryData
      ∧ (currentDayOf (CreateOrUpdateTodayEntry (progressDB 1 []) (.valid 10) (some 1)
            (some (examplePayload true)) fun k => 200 + k).2 10
            = some ((1 : Int) + 1)
          ↔ entryData.Completed = true ∧ ¬ HasDayRecord (progressDB 1 []) 10 1)
      ∧ (¬ (entryData.Completed = true ∧ ¬ HasDayRecord (progressDB 1 []) 10 1) →
          currentDayOf (CreateOrUpdateTodayEntry (progressDB 1 []) (.valid 10) (some 1)
            (some (examplePayload true)) fun k => 200 + k).2 10
            = some 1) :=
  C6_day_advancement (progressDB 1 []) 10 (some 1) (some (examplePayload true))
    (fun k => 200 + k) ⟨10, 1, "Hard 75", "", 1, "active"⟩ (by decide) (by decide)

/-- C7 (counterexample).  On a challenge at day 1 without records, two
successive successful calls with `completed = true` leave two day records, for
the days 1 and 2, and `current_day = 3`. -/
theorem C7_idempotent_upsert_counterexample :
    currentDayOf (progressDB 1 []) 10 = some 1
    ∧ ¬ HasDayRecord (progressDB 1 []) 10 1
    ∧ (upsertTodayTwice (progressDB 1 []) 10 1 (examplePayload true) (examplePayload true)
        (fun k => 200 + k) (fun k => 300 + k)).1.1 = .success 200
    ∧ (upsertTodayTwice (progressDB 1 []) 10 1 (examplePayload true) (examplePayload true)
        (fun k => 200 + k) (fun k => 300 + k)).2.1 = .success 200
    ∧ (dayRecords (upsertTodayTwice (progressDB 1 []) 10 1 (examplePayload true)
        (examplePayload true) (fun k => 200 + k) (fun k => 300 + k)).2.2 10).map
          (fun e => e.DayNumber) = [1, 2]
    ∧ currentDayOf (upsertTodayTwice (progressDB 1 []) 10 1 (examplePayload true)
        (examplePayload true) (fun k => 200 + k) (fun k => 300 + k)).2.2 10 = some 3 := by
  decide

/-- C7 (amended).  Two successive completed submissions: for an active challenge
with `current_day = d` and no record for day `d` or day `d + 1`, two successive
calls of `CreateOrUpdateTodayEntry` by the owner with valid payloads that have
`completed = true` both succeed; the first creates the record of day `d` and
advances `current_day` to `d + 1`, the second creates the record of day `d + 1`
and advances `current_day` to `d + 2`, so the challenge has two more day
records. -/
theorem C7_two_completed_submissions (db : DB) (cid : UUID) (challenge : Challenge)
    (p1 p2 : EntryData) (newUUID1 newUUID2 : Nat → UUID)
    (hc : (db.challenges.find? fun c => c.ID = cid) = some challenge)
    (ha : challenge.Status = "active")
    (hv1 : ValidPayload p1) (hv2 : ValidPayload p2)
    (hd1 : p1.Completed = true) (hd2 : p2.Completed = true)
    (hno : ¬ HasDayRecord db cid challenge.CurrentDay)
    (hnext : ¬ HasDayRecord db cid (challenge.CurrentDay + 1)) :
    (upsertTodayTwice db cid challenge.UserID p1 p2 newUUID1 newUUID2).1.1 = .success 200
    ∧ (upsertTodayTwice db cid challenge.UserID p1 p2 newUUID1 newUUID2).2.1 = .success 200
    ∧ currentDayOf (upsertTodayTwice db cid challenge.UserID p1 p2 newUUID1 newUUID2).1.2 cid
        = some (challenge.CurrentDay + 1)
    ∧ currentDayOf (upsertTodayTwice db cid challenge.UserID p1 p2 newUUID1 newUUID2).2.2 cid
        = some (challenge.CurrentDay + 2)
    ∧ (upsertTodayTwice db cid challenge.UserID p1 p2 newUUID1 newUUID2).2.2.daily_entries
        = insertDailyEntryRow
            (insertDailyEntryRow db.daily_entries (newUUID1 0) cid challenge.CurrentDay p1)
            (newUUID2 0) cid (challenge.CurrentDay + 1) p2
    ∧ (dayRecords (upsertTodayTwice db cid challenge.UserID p1 p2 newUUID1 newUUID2).2.2
        cid).length = (dayRecords db cid).length + 2 := by
  obtain ⟨t1, h1⟩ :=
    CreateOrUpdateTodayEntry_first_completion db cid p1 newUUID1 challenge hc ha hv1 hd1 hno
  have hc2 : ((incrementCurrentDay db.challenges cid).find? fun c => c.ID = cid)
      = some { challenge with CurrentDay := challenge.CurrentDay + 1 } := by
    rw [find_incrementCurrentDay, hc]; rfl
  have hno2 : ¬ HasDayRecord
      { db with
        challenges := incrementCurrentDay db.challenges cid
        daily_entries := insertDailyEntryRow db.daily_entries (newUUID1 0) cid
          challenge.CurrentDay p1
        task_entries := t1 } cid (challenge.CurrentDay + 1) := by
    rintro ⟨e, he, hec, hed⟩
    simp only [insertDailyEntryRow, List.mem_append, List.mem_singleton] at he
    rcases he with he | he
    · exact hnext ⟨e, he, hec, hed⟩
    · rw [he] at hed
      simp only at hed
      omega
  obtain ⟨t2, h2⟩ :=
    CreateOrUpdateTodayEntry_first_completion _ cid p2 newUUID2
      { challenge with CurrentDay := challenge.CurrentDay + 1 } hc2 ha hv2 hd2 hno2
  simp only [upsertTodayTwice, h1] at h2 ⊢
  simp only [h2]
  refine ⟨trivial, trivial, ?_, ?_, trivial, ?_⟩
  · simp only [currentDayOf, hc2, Option.map_some']
  · simp only [currentDayOf, find_incrementCurrentDay, hc, Option.map_some', Option.some.injEq]
    omega
  · simp [dayRecords, insertDailyEntryRow, List.filter_append]

/-- C7 (witness).  The two completed submissions on the example challenge at
day 1: both are accepted and `current_day` ends at 3. -/
theorem C7_two_completed_submissions_witness :
    (upsertTodayTwice (progressDB 1 []) 10 1 (examplePayload true) (examplePayload true)
        (fun k => 200 + k) (fun k => 300 + k)).2.1 = .success 200
    ∧ currentDayOf (upsertTodayTwice (progressDB 1 []) 10 1 (examplePayload true)
        (examplePayload true) (fun k => 200 + k) (fun k => 300 + k)).2.2 10
        = some ((1 : Int) + 2) :=
  have h := C7_two_completed_submissions (progressDB 1 []) 10 ⟨10, 1, "Hard 75", "", 1, "active"⟩
    (examplePayload true) (examplePayload true) (fun k => 200 + k) (fun k => 300 + k)
    (by decide) (by decide) (by intro td htd; simp [examplePayload] at htd)
    (by intro td htd; simp [examplePayload] at htd) (by decide) (by decide) (by decide)
    (by decide)
  ⟨h.2.1, h.2.2.2.1⟩

/-! ## Claims on the cascades -/

/-- C11.  Atomic cascade: whenever `DeleteChallenge` does not reply with
success, whichever statement failed, the store after the call is the store
before it; when no statement fails and the caller owns no challenge row with the
given identifier, the reply is the not-found error; and in the store with five
day records, a failure of the deletion of the task records of the third one
leaves the store unchanged although the transaction had already deleted the
task records of the first two. -/
theorem C11_atomic_cascade (db : DB) (caller : Option String) (challengeID : IDText)
    (fails : Nat → Bool) :
    ((DeleteChallenge db caller challengeID fails).1.isSuccess = false →
      (DeleteChallenge db caller challengeID fails).2 = db)
    ∧ (∀ clerkID user cid, caller = some clerkID → selectUser db clerkID = some user →
        challengeID = .valid cid → (∀ i, fails i = false) →
        (¬ ∃ c ∈ db.challenges, c.ID = cid ∧ c.UserID = user.ID) →
        DeleteChallenge db caller challengeID fails
          = (.failure 404 "Challenge not found", db))
    ∧ DeleteChallenge fiveDaysDB (some "alice") (.valid 10) (failsAt 7)
        = (.failure 500 "Failed to delete task entries", fiveDaysDB)
    ∧ (DeleteChallengeTx fiveDaysDB 1 10 (failsAt 7)).working.task_entries
        = [⟨53, 43, 31, true, "true", ""⟩, ⟨54, 44, 31, true, "true", ""⟩,
           ⟨55, 45, 31, true, "true", ""⟩] := by
  refine ⟨DeleteChallenge_unchanged_of_not_success db caller challengeID fails, ?_,
    by decide, by decide⟩
  intro clerkID user cid hc hu hid hf hno
  subst hc hid
  have hr := DeleteChallengeTx_notFound db user.ID cid fails hf hno
  have hcm := DeleteChallengeTx_not_owner db user.ID cid fails hno
  simp [DeleteChallenge, hf, hu, TxOutcome.settle, hr, hcm]

/-- C11 (witness).  Bob's attempt to delete alice's challenge 10 is answered with
the not-found error and leaves the store as it was. -/
theorem C11_atomic_cascade_witness :
    (DeleteChallenge sharedDB (some "bob") (.valid 10) noFailure).2 = sharedDB
    ∧ DeleteChallenge sharedDB (some "bob") (.valid 10) noFailure
        = (.failure 404 "Challenge not found", sharedDB) :=
  ⟨(C11_atomic_cascade sharedDB (some "bob") (.valid 10) noFailure).1 (by decide),
   (C11_atomic_cascade sharedDB (some "bob") (.valid 10) noFailure).2.1 "bob" ⟨2, "bob"⟩ 10
     rfl (by decide) rfl (fun _ => rfl) (by decide)⟩

/-- C12.  `DeleteChallenge` postcondition: in a store with distinct challenge
identifiers, after a successful `DeleteChallenge` on challenge `C` the store is
the store before the call without the challenge row `C`, the sections of `C`,
the tasks of those sections, the day records of `C`, the task records of those
day records and the measurements of `C`; every other row is kept unchanged. -/
theorem C12_delete_postcondition (db : DB) (caller : Option String) (challengeID : IDText)
    (fails : Nat → Bool)
    (hs : (DeleteChallenge db caller challengeID fails).1.isSuccess = true)
    (hids : (db.challenges.map fun c => c.ID).Nodup) :
    ∃ cid, challengeID = .valid cid
      ∧ DeleteChallenge db caller challengeID fails = (.success 200, withoutChallenge db cid)
      ∧ (∀ c ∈ (withoutChallenge db cid).challenges, c.ID ≠ cid)
      ∧ (∀ s ∈ (withoutChallenge db cid).sections, ¬ sectionOf cid s)
      ∧ (∀ t ∈ (withoutChallenge db cid).tasks, ¬ taskOf db cid t)
      ∧ (∀ e ∈ (withoutChallenge db cid).daily_entries, e.ChallengeID ≠ cid)
      ∧ (∀ te ∈ (withoutChallenge db cid).task_entries, ¬ taskEntryOf db cid te)
      ∧ (∀ m ∈ (withoutChallenge db cid).measurements, m.ChallengeID ≠ cid)
      ∧ (∀ c ∈ db.challenges, c.ID ≠ cid → c ∈ (withoutChallenge db cid).challenges)
      ∧ (∀ s ∈ db.sections, ¬ sectionOf cid s → s ∈ (withoutChallenge db cid).sections)
      ∧ (∀ t ∈ db.tasks, ¬ taskOf db cid t → t ∈ (withoutChallenge db cid).tasks)
      ∧ (∀ e ∈ db.daily_entries, e.ChallengeID ≠ cid →
          e ∈ (withoutChallenge db cid).daily_entries)
      ∧ (∀ te ∈ db.task_entries, ¬ taskEntryOf db cid te →
          te ∈ (withoutChallenge db cid).task_entries)
      ∧ (∀ m ∈ db.measurements, m.ChallengeID ≠ cid →
          m ∈ (withoutChallenge db cid).measurements)
      ∧ (withoutChallenge db cid).users = db.users := by
  obtain ⟨clerkID, user, cid, _, _, hid, hc, heq⟩ :=
    DeleteChallenge_success db caller challengeID fails hs
  obtain ⟨hr, ⟨c0, hc0, hc0id, hc0u⟩, hw⟩ := DeleteChallengeTx_working db user.ID cid fails hc
  refine ⟨cid, hid, ?_, ?_⟩
  · rw [heq, hr, hw]
    congr 1
    simp only [withoutChallenge]
    congr 1
    apply List.filter_congr
    intro c hcm
    by_cases h1 : c.ID = cid
    · have : c = c0 := List.inj_on_of_nodup_map hids hcm hc0 (h1.trans hc0id.symm)
      subst this
      simp [h1, hc0u]
    · simp [h1]
  · simp only [withoutChallenge, sectionOf, List.mem_filter, decide_eq_true_eq, ne_eq,
      decide_not, Bool.not_eq_true', decide_eq_false_iff_not]
    refine ⟨?_, ?_, ?_, ?_, ?_, ?_, ?_, ?_, ?_, ?_, ?_, ?_, trivial⟩ <;> intros <;> simp_all

/-- C12 (witness).  Alice deletes her challenge 10 in the store shared with bob:
what remains is bob's challenge with its rows. -/
theorem C12_delete_postcondition_witness :
    ∃ cid, IDText.valid 10 = .valid cid
      ∧ DeleteChallenge sharedDB (some "alice") (.valid 10) noFailure
          = (.success 200, withoutChallenge sharedDB cid) :=
  let ⟨cid, h1, h2, _⟩ := C12_delete_postcondition sharedDB (some "alice") (.valid 10) noFailure
    (by decide) (by decide)
  ⟨cid, h1, h2⟩

/-- C13.  Reset scope: in a store with distinct challenge identifiers, a
`ResetChallenge` by the owner of challenge `C` succeeds and the store after it
is the store before it in which `C` has `current_day = 1` and `status = active`
and from which the day records of `C` and the task records under them are
removed; the users, sections, tasks and measurements and every row of another
challenge are unchanged. -/
theorem C13_reset_scope (db : DB) (clerkID : String) (user : User) (cid : UUID)
    (hu : selectUser db clerkID = some user)
    (hown : ∃ c ∈ db.challenges, c.ID = cid ∧ c.UserID = user.ID)
    (hids : (db.challenges.map fun c => c.ID).Nodup) :
    ResetChallenge db (some clerkID) (.valid cid) = (.success 200, afterReset db cid)
    ∧ (∃ c ∈ (afterReset db cid).challenges, c.ID = cid)
    ∧ (∀ c ∈ (afterReset db cid).challenges, c.ID = cid →
        c.CurrentDay = 1 ∧ c.Status = "active")
    ∧ (∀ c ∈ db.challenges, c.ID ≠ cid → c ∈ (afterReset db cid).challenges)
    ∧ (∀ e ∈ (afterReset db cid).daily_entries, e.ChallengeID ≠ cid)
    ∧ (∀ te ∈ (afterReset db cid).task_entries, ¬ taskEntryOf db cid te)
    ∧ (∀ e ∈ db.daily_entries, e.ChallengeID ≠ cid → e ∈ (afterReset db cid).daily_entries)
    ∧ (∀ te ∈ db.task_entries, ¬ taskEntryOf db cid te →
        te ∈ (afterReset db cid).task_entries)
    ∧ (afterReset db cid).sections = db.sections
    ∧ (afterReset db cid).tasks = db.tasks
    ∧ (afterReset db cid).measurements = db.measurements
    ∧ (afterReset db cid).users = db.users := by
  obtain ⟨c0, hc0, hc0id, hc0u⟩ := hown
  refine ⟨?_, ?_, ?_, ?_, ?_, ?_, ?_, ?_, rfl, rfl, rfl, rfl⟩
  · simp only [ResetChallenge, hu, afterReset]
    congr 2
    · apply List.map_congr_left
      intro c hc
      by_cases h1 : c.ID = cid
      · have : c = c0 := List.inj_on_of_nodup_map hids hc hc0 (h1.trans hc0id.symm)
        subst this
        simp [h1, hc0u]
      · simp [h1]
    · apply List.filter_congr
      intro te _
      simp [taskEntryOf]
  · exact ⟨_, List.mem_map.mpr ⟨c0, hc0, rfl⟩, by simp [hc0id]⟩
  · intro c hc hcid
    simp only [afterReset, List.mem_map] at hc
    obtain ⟨c1, _, rfl⟩ := hc
    by_cases h1 : c1.ID = cid
    · simp [h1]
    · simp [h1] at hcid
  · intro c hc hne
    exact List.mem_map.mpr ⟨c, hc, by simp [hne]⟩
  · intro e he
    simpa [afterReset] using (List.mem_filter.mp he).2
  · intro te hte
    simpa [afterReset] using (List.mem_filter.mp hte).2
  · intro e he hne
    exact List.mem_filter.mpr ⟨he, by simpa using hne⟩
  · intro te hte hno
    exact List.mem_filter.mpr ⟨hte, by simpa using hno⟩

/-- C13 (witness).  Alice resets her challenge 10 in the store shared with bob. -/
theorem C13_reset_scope_witness :
    ResetChallenge sharedDB (some "alice") (.valid 10) = (.success 200, afterReset sharedDB 10)
    ∧ dayRecords (afterReset sharedDB 10) 10 = []
    ∧ currentDayOf (afterReset sharedDB 10) 10 = some 1 :=
  ⟨(C13_reset_scope sharedDB "alice" ⟨1, "alice"⟩ 10 (by decide) (by decide) (by decide)).1,
   by decide, by decide⟩

/-- C14 (code at the failing input).  Bob, who does not own alice's challenge 10,
calls `ResetChallenge` on it: the reply is success, the challenge row is
untouched, and the day records and task records of alice's challenge are
deleted; the sibling `DeleteChallenge` answers the same caller with the
not-found error and leaves the store unchanged. -/
theorem C14_reset_by_non_owner :
    validateChallengeOwnership sharedDB (.valid 10) "bob" = false
    ∧ (ResetChallenge sharedDB (some "bob") (.valid 10)).1 = .success 200
    ∧ (ResetChallenge sharedDB (some "bob") (.valid 10)).2.challenges = sharedDB.challenges
    ∧ (dayRecords sharedDB 10).length = 2
    ∧ dayRecords (ResetChallenge sharedDB (some "bob") (.valid 10)).2 10 = []
    ∧ (ResetChallenge sharedDB (some "bob") (.valid 10)).2.task_entries
        = [⟨53, 43, 32, true, "true", ""⟩]
    ∧ DeleteChallenge sharedDB (some "bob") (.valid 10) noFailure
        = (.failure 404 "Challenge not found", sharedDB) := by
  decide

/-- The guard of the other mutating handlers: a caller who owns no challenge row
with the given identifier gets no success from `DeleteChallenge` and the
not-found error from `UpdateChallenge`, and a caller for whom the ownership
check of the section or task fails gets the not-found error from
`DeleteSection`, `ReorderSection`, `DeleteTask` and `ReorderTask`; the store is
unchanged in every case. -/
theorem guarded_handlers (db : DB) (clerkID : String) (user : User) (cid : UUID)
    (fails : Nat → Bool) (challengeBody : Option ChallengeBody)
    (sectionID taskID : IDText) (sectionBody : Option ReorderSectionRequest)
    (taskBody : Option ReorderTaskRequest)
    (hu : selectUser db clerkID = some user)
    (hno : ¬ ∃ c ∈ db.challenges, c.ID = cid ∧ c.UserID = user.ID)
    (hsec : validateSectionOwnership db sectionID clerkID = false)
    (htask : validateTaskOwnership db taskID clerkID = false) :
    (DeleteChallenge db (some clerkID) (.valid cid) fails).1.isSuccess = false
    ∧ (DeleteChallenge db (some clerkID) (.valid cid) fails).2 = db
    ∧ UpdateChallenge db (some clerkID) (.valid cid) challengeBody
        = (.failure 404 "Challenge not found", db)
    ∧ DeleteSection db (some clerkID) sectionID = (.failure 404 "Section not found", db)
    ∧ ReorderSection db (some clerkID) sectionID sectionBody
        = (.failure 404 "Section not found", db)
    ∧ DeleteTask db (some clerkID) taskID = (.failure 404 "Task not found", db)
    ∧ ReorderTask db (some clerkID) taskID taskBody = (.failure 404 "Task not found", db) := by
  have hd : (DeleteChallenge db (some clerkID) (.valid cid) fails).1.isSuccess = false := by
    cases h : (DeleteChallenge db (some clerkID) (.valid cid) fails).1.isSuccess with
    | false => rfl
    | true =>
      obtain ⟨c1, u1, cid1, hc1, hu1, hid1, hcm, _⟩ := DeleteChallenge_success db _ _ fails h
      cases hc1; cases hid1
      rw [hu] at hu1; cases hu1
      rw [DeleteChallengeTx_not_owner db user.ID cid fails hno] at hcm
      exact absurd hcm (by simp)
  have hany : (db.challenges.any fun c => decide (c.ID = cid ∧ c.UserID = user.ID)) = false := by
    rw [List.any_eq_false]
    intro c hc hcond
    exact hno ⟨c, hc, by simpa using hcond⟩
  refine ⟨hd, DeleteChallenge_unchanged_of_not_success db _ _ fails hd, ?_, ?_, ?_, ?_, ?_⟩
  · simp only [UpdateChallenge, hu]
    rw [if_pos hany]
  · simp [DeleteSection, hsec]
  · simp [ReorderSection, hsec]
  · simp [DeleteTask, htask]
  · simp [ReorderTask, htask]

/-! ## Claims on access and on the entry handlers -/

/-- C15 (counterexample).  Bob (user 2) owns neither alice's challenge 10 nor a
challenge 99, which does not exist, and neither alice's measurement 61 nor a
measurement 99: the four handlers answer 403 for the existing target and 404
for the missing one. -/
theorem C15_existence_leak_counterexample :
    (CreateOrUpdateTodayEntry sharedDB (.valid 10) (some 2) (some (examplePayload true))
        fun k => 200 + k).1 = .failure 403 "You don't have access to this challenge"
    ∧ (CreateOrUpdateTodayEntry sharedDB (.valid 99) (some 2) (some (examplePayload true))
        fun k => 200 + k).1 = .failure 404 "Challenge not found"
    ∧ (AddMeasurement sharedDB (.valid 10) (some 2) (some ⟨1⟩) 63).1
        = .failure 403 "You don't have access to this challenge"
    ∧ (AddMeasurement sharedDB (.valid 99) (some 2) (some ⟨1⟩) 63).1
        = .failure 404 "Challenge not found"
    ∧ (UpdateMeasurement sharedDB (.valid 61) (some 2) (some ⟨1⟩)).1
        = .failure 403 "You don't have access to this measurement"
    ∧ (UpdateMeasurement sharedDB (.valid 99) (some 2) (some ⟨1⟩)).1
        = .failure 404 "Measurement not found"
    ∧ (DeleteMeasurement sharedDB (.valid 61) (some 2)).1
        = .failure 403 "You don't have access to this measurement"
    ∧ (DeleteMeasurement sharedDB (.valid 99) (some 2)).1
        = .failure 404 "Measurement not found" := by
  decide

/-- C15 (amended).  Replies to a caller who is not the owner, each handler and
each case on its own store: `CreateOrUpdateTodayEntry` and `AddMeasurement`
answer 404 "Challenge not found" when the addressed challenge does not exist and
403 "You don't have access to this challenge" when it exists with another
owner; `UpdateMeasurement` and `DeleteMeasurement` answer 404 "Measurement not
found" when the addressed measurement does not exist and 403 "You don't have
access to this measurement" when it exists while its challenge is missing or
has another owner; the store is unchanged in every case. -/
theorem C15_replies_to_non_owner :
    (∀ (db : DB) (userID missing : UUID) (body : Option EntryData) (newUUID : Nat → UUID),
      (db.challenges.find? fun c => c.ID = missing) = none →
      CreateOrUpdateTodayEntry db (.valid missing) (some userID) body newUUID
        = (.failure 404 "Challenge not found", db))
    ∧ (∀ (db : DB) (userID foreign : UUID) (owned : Challenge) (body : Option EntryData)
        (newUUID : Nat → UUID),
      (db.challenges.find? fun c => c.ID = foreign) = some owned →
      owned.UserID ≠ userID →
      CreateOrUpdateTodayEntry db (.valid foreign) (some userID) body newUUID
        = (.failure 403 "You don't have access to this challenge", db))
    ∧ (∀ (db : DB) (userID missing : UUID) (body : Option MeasurementBody) (newID : UUID),
      (db.challenges.find? fun c => c.ID = missing) = none →
      AddMeasurement db (.valid missing) (some userID) body newID
        = (.failure 404 "Challenge not found", db))
    ∧ (∀ (db : DB) (userID foreign : UUID) (owned : Challenge) (body : Option MeasurementBody)
        (newID : UUID),
      (db.challenges.find? fun c => c.ID = foreign) = some owned →
      owned.UserID ≠ userID →
      AddMeasurement db (.valid foreign) (some userID) body newID
        = (.failure 403 "You don't have access to this challenge", db))
    ∧ (∀ (db : DB) (userID gone : UUID) (body : Option MeasurementBody),
      (db.measurements.find? fun m => m.ID = gone) = none →
      UpdateMeasurement db (.valid gone) (some userID) body
        = (.failure 404 "Measurement not found", db))
    ∧ (∀ (db : DB) (userID held : UUID) (row : Measurement) (body : Option MeasurementBody),
      (db.measurements.find? fun m => m.ID = held) = some row →
      (∀ c, (db.challenges.find? fun c => c.ID = row.ChallengeID) = some c →
        c.UserID ≠ userID) →
      UpdateMeasurement db (.valid held) (some userID) body
        = (.failure 403 "You don't have access to this measurement", db))
    ∧ (∀ (db : DB) (userID gone : UUID),
      (db.measurements.find? fun m => m.ID = gone) = none →
      DeleteMeasurement db (.valid gone) (some userID)
        = (.failure 404 "Measurement not found", db))
    ∧ (∀ (db : DB) (userID held : UUID) (row : Measurement),
      (db.measurements.find? fun m => m.ID = held) = some row →
      (∀ c, (db.challenges.find? fun c => c.ID = row.ChallengeID) = some c →
        c.UserID ≠ userID) →
      DeleteMeasurement db (.valid held) (some userID)
        = (.failure 403 "You don't have access to this measurement", db)) := by
  refine ⟨?_, ?_, ?_, ?_, ?_, ?_, ?_, ?_⟩
  · intro db userID missing body newUUID hmissing
    simp [CreateOrUpdateTodayEntry, uuidParse, hmissing]
  · intro db userID foreign owned body newUUID hforeign hother
    simp [CreateOrUpdateTodayEntry, uuidParse, hforeign, hother]
  · intro db userID missing body newID hmissing
    simp [AddMeasurement, uuidParse, hmissing]
  · intro db userID foreign owned body newID hforeign hother
    simp [AddMeasurement, uuidParse, hforeign, hother]
  · intro db userID gone body hgone
    simp [UpdateMeasurement, uuidParse, hgone]
  · intro db userID held row body hheld hrow
    simp only [UpdateMeasurement, uuidParse, hheld]
    cases hc : db.challenges.find? fun c => c.ID = row.ChallengeID with
    | none => rfl
    | some c => simp [hrow c hc]
  · intro db userID gone hgone
    simp [DeleteMeasurement, uuidParse, hgone]
  · intro db userID held row hheld hrow
    simp only [DeleteMeasurement, uuidParse, hheld]
    cases hc : db.challenges.find? fun c => c.ID = row.ChallengeID with
    | none => rfl
    | some c => simp [hrow c hc]

/-- C15 (witness).  Bob addressing the missing challenge 99 and alice's
challenge 10, the missing measurement 99 and alice's measurement 61, with each
of the four handlers. -/
theorem C15_replies_to_non_owner_witness :
    CreateOrUpdateTodayEntry sharedDB (.valid 99) (some 2) (some (examplePayload true))
        (fun k => 200 + k) = (.failure 404 "Challenge not found", sharedDB)
    ∧ CreateOrUpdateTodayEntry sharedDB (.valid 10) (some 2) (some (examplePayload true))
        (fun k => 200 + k)
      = (.failure 403 "You don't have access to this challenge", sharedDB)
    ∧ AddMeasurement sharedDB (.valid 99) (some 2) (some ⟨1⟩) 63
      = (.failure 404 "Challenge not found", sharedDB)
    ∧ AddMeasurement sharedDB (.valid 10) (some 2) (some ⟨1⟩) 63
      = (.failure 403 "You don't have access to this challenge", sharedDB)
    ∧ UpdateMeasurement sharedDB (.valid 99) (some 2) (some ⟨1⟩)
      = (.failure 404 "Measurement not found", sharedDB)
    ∧ UpdateMeasurement sharedDB (.valid 61) (some 2) (some ⟨1⟩)
      = (.failure 403 "You don't have access to this measurement", sharedDB)
    ∧ DeleteMeasurement sharedDB (.valid 99) (some 2)
      = (.failure 404 "Measurement not found", sharedDB)
    ∧ DeleteMeasurement sharedDB (.valid 61) (some 2)
      = (.failure 403 "You don't have access to this measurement", sharedDB) :=
  ⟨C15_replies_to_non_owner.1 sharedDB 2 99 _ _ (by decide),
   C15_replies_to_non_owner.2.1 sharedDB 2 10 ⟨10, 1, "Hard 75", "", 3, "active"⟩ _ _
     (by decide) (by decide),
   C15_replies_to_non_owner.2.2.1 sharedDB 2 99 _ _ (by decide),
   C15_replies_to_non_owner.2.2.2.1 sharedDB 2 10 ⟨10, 1, "Hard 75", "", 3, "active"⟩ _ _
     (by decide) (by decide),
   C15_replies_to_non_owner.2.2.2.2.1 sharedDB 2 99 _ (by decide),
   C15_replies_to_non_owner.2.2.2.2.2.1 sharedDB 2 61 ⟨61, 10, 1⟩ _ (by decide)
     (by intro c hc; cases hc; decide),
   C15_replies_to_non_owner.2.2.2.2.2.2.1 sharedDB 2 99 (by decide),
   C15_replies_to_non_owner.2.2.2.2.2.2.2 sharedDB 2 61 ⟨61, 10, 1⟩ (by decide)
     (by intro c hc; cases hc; decide)⟩

/-- C16 (code at the failing input).  Alice's challenge 10 is completed and has a
record for day 1.  `CreateOrUpdateTodayEntry` by alice is refused with 400 "Can
only add entries to active challenges" and leaves the store as it is, whereas
`UpdateDailyEntry` by alice for day 1 answers 200 and rewrites the day record
(now not completed) and the task record 51 of the completed challenge. -/
theorem C16_update_ignores_status :
    (completedDB.challenges.find? fun c => c.ID = 10)
      = some ⟨10, 1, "Hard 75", "", 3, "completed"⟩
    ∧ selectDailyEntry completedDB 10 1 = some ⟨41, 10, 1, true, "", "", 3, 3⟩
    ∧ CreateOrUpdateTodayEntry completedDB (.valid 10) (some 1) (some repeatedTaskPayload)
        (fun k => 200 + k)
      = (.failure 400 "Can only add entries to active challenges", completedDB)
    ∧ UpdateDailyEntry completedDB (.valid 10) (some 1) (some 1) (some repeatedTaskPayload)
        (fun k => 200 + k)
      = (.success 200,
          { completedDB with
            daily_entries := [⟨41, 10, 1, false, "", "", 3, 3⟩, ⟨42, 10, 2, true, "", "", 3, 3⟩,
                              ⟨43, 11, 1, true, "", "", 3, 3⟩]
            task_entries := [⟨51, 41, 31, true, "2", ""⟩, ⟨52, 42, 31, true, "true", ""⟩,
                             ⟨53, 43, 32, true, "true", ""⟩] }) := by
  decide

/-- C17 (code at the failing input).  A payload whose second task entry has no
`task_id` makes both entry handlers panic: no 400 reply is written; the store is
unchanged.  A `task_id` that is a text but no UUID is answered with 400. -/
theorem C17_missing_task_id_panics :
    CreateOrUpdateTodayEntry sharedDB (.valid 10) (some 1) (some missingTaskIDPayload)
        (fun k => 200 + k) = (.crash, sharedDB)
    ∧ UpdateDailyEntry sharedDB (.valid 10) (some 1) (some 1) (some missingTaskIDPayload)
        (fun k => 200 + k) = (.crash, sharedDB)
    ∧ CreateOrUpdateTodayEntry sharedDB (.valid 10) (some 1) (some malformedTaskIDPayload)
        (fun k => 200 + k)
      = (.failure 400 "Invalid task ID in task entries", sharedDB)
    ∧ UpdateDailyEntry sharedDB (.valid 10) (some 1) (some 1) (some malformedTaskIDPayload)
        (fun k => 200 + k)
      = (.failure 400 "Invalid task ID in task entries", sharedDB) := by
  decide

/-- A bad `task_id` aborts the whole upsert: when the owner's call on an active
challenge carries a task entry whose `task_id` is missing or is no UUID, the
handlers panic or answer 400 "Invalid task ID in task entries", and the store is
unchanged. -/
theorem bad_task_id_aborts (db : DB) (cid : UUID) (challenge : Challenge)
    (entryData : EntryData) (day : Int) (e : DailyEntry) (newUUID : Nat → UUID)
    (hc : (db.challenges.find? fun c => c.ID = cid) = some challenge)
    (ha : challenge.Status = "active")
    (hbad : ¬ ValidPayload entryData)
    (hsel : selectDailyEntry db cid day = some e) :
    (CreateOrUpdateTodayEntry db (.valid cid) (some challenge.UserID) (some entryData) newUUID
        = (.crash, db)
      ∨ CreateOrUpdateTodayEntry db (.valid cid) (some challenge.UserID) (some entryData) newUUID
        = (.failure 400 "Invalid task ID in task entries", db))
    ∧ (UpdateDailyEntry db (.valid cid) (some day) (some challenge.UserID) (some entryData)
          newUUID = (.crash, db)
      ∨ UpdateDailyEntry db (.valid cid) (some day) (some challenge.UserID) (some entryData)
          newUUID = (.failure 400 "Invalid task ID in task entries", db)) := by
  have hex : ∃ td ∈ entryData.TaskEntries, ¬ ∃ u, td.task_id = some (.valid u) := by
    unfold ValidPayload at hbad
    push_neg at hbad
    obtain ⟨td, htd, h⟩ := hbad
    exact ⟨td, htd, fun ⟨u, hu⟩ => h u hu⟩
  constructor
  · cases hs : selectDailyEntry db cid challenge.CurrentDay with
    | some e1 =>
      rcases saveTaskEntries_invalid e1.ID newUUID entryData.TaskEntries 0 db.task_entries hex
        with h | h
      · left; simp [CreateOrUpdateTodayEntry, uuidParse, hc, ha, hs, finishTodayEntry, h]
      · right; simp [CreateOrUpdateTodayEntry, uuidParse, hc, ha, hs, finishTodayEntry, h]
    | none =>
      rcases saveTaskEntries_invalid (newUUID 0) newUUID entryData.TaskEntries 1
        db.task_entries hex with h | h
      · left; simp [CreateOrUpdateTodayEntry, uuidParse, hc, ha, hs, finishTodayEntry, h]
      · right; simp [CreateOrUpdateTodayEntry, uuidParse, hc, ha, hs, finishTodayEntry, h]
  · rcases saveTaskEntries_invalid e.ID newUUID entryData.TaskEntries 0 db.task_entries hex
      with h | h
    · left; simp [UpdateDailyEntry, uuidParse, hc, hsel, h]
    · right; simp [UpdateDailyEntry, uuidParse, hc, hsel, h]

/-- C18.  Natural-key uniqueness: if the store holds at most one day record per
`(challenge_id, day_number)` and at most one task record per
`(daily_entry_id, task_id)`, then it still does after every call of
`CreateOrUpdateTodayEntry` and of `UpdateDailyEntry` (a call that does not
succeed changes nothing), whatever the `task_entries` list repeats. -/
theorem C18_natural_keys (db : DB) (challengeID : IDText) (day : Option Int)
    (ctxUserID : Option UUID) (body : Option EntryData) (newUUID : Nat → UUID)
    (hday : (dayKeys db).Nodup) (htask : (taskKeys db.task_entries).Nodup) :
    (dayKeys (CreateOrUpdateTodayEntry db challengeID ctxUserID body newUUID).2).Nodup
    ∧ (taskKeys
        (CreateOrUpdateTodayEntry db challengeID ctxUserID body newUUID).2.task_entries).Nodup
    ∧ (dayKeys (UpdateDailyEntry db challengeID day ctxUserID body newUUID).2).Nodup
    ∧ (taskKeys
        (UpdateDailyEntry db challengeID day ctxUserID body newUUID).2.task_entries).Nodup := by
  refine ⟨?_, ?_, ?_, ?_⟩
  · rcases CreateOrUpdateTodayEntry_store db challengeID ctxUserID body newUUID with
      h | ⟨cid, ch, p, entryID, k, t, _, _, _, _, _, ⟨e, _, _, hd⟩ | ⟨hnone, hd⟩⟩
    · rw [h]; exact hday
    · unfold dayKeys at hday ⊢
      rw [hd, dayKeys_updateDailyEntryRow]; exact hday
    · unfold dayKeys at hday ⊢
      rw [hd]
      unfold insertDailyEntryRow
      rw [List.map_append, List.nodup_append]
      refine ⟨hday, List.nodup_singleton _, ?_⟩
      intro key hk1 hk2
      simp only [List.map_cons, List.map_nil, List.mem_singleton] at hk2
      obtain ⟨e, he, hkey⟩ := List.mem_map.mp hk1
      rw [hk2] at hkey
      simp only [Prod.mk.injEq] at hkey
      unfold selectDailyEntry at hnone
      have hp := List.find?_eq_none.mp hnone e he
      simp [hkey.1, hkey.2] at hp
  · rcases CreateOrUpdateTodayEntry_store db challengeID ctxUserID body newUUID with
      h | ⟨cid, ch, p, entryID, k, t, _, _, _, hsave, ht, _⟩
    · rw [h]; exact htask
    · rw [ht]
      exact saveTaskEntries_keys_nodup entryID newUUID p.TaskEntries k db.task_entries t hsave
        htask
  · rcases UpdateDailyEntry_store db challengeID day ctxUserID body newUUID with
      h | ⟨_, _, e, p, t, _, _, _, _, _, h⟩
    · rw [h]; exact hday
    · rw [h]
      unfold dayKeys at hday ⊢
      simp only [dayKeys_updateDailyEntryRow]
      exact hday
  · rcases UpdateDailyEntry_store db challengeID day ctxUserID body newUUID with
      h | ⟨_, _, e, p, t, _, _, _, _, hsave, h⟩
    · rw [h]; exact htask
    · rw [h]
      exact saveTaskEntries_keys_nodup e.ID newUUID p.TaskEntries 0 db.task_entries t hsave htask

/-- C18 (witness).  Alice submits today's entry (day 3, no record yet) with a
payload that names the task 31 twice: the call succeeds, one day record and one
task record are added, and the keys stay distinct. -/
theorem C18_natural_keys_witness :
    (dayKeys (CreateOrUpdateTodayEntry sharedDB (.valid 10) (some 1)
        (some repeatedTaskPayload) fun k => 200 + k).2).Nodup
    ∧ (CreateOrUpdateTodayEntry sharedDB (.valid 10) (some 1) (some repeatedTaskPayload)
        fun k => 200 + k).1 = .success 200
    ∧ taskKeys (CreateOrUpdateTodayEntry sharedDB (.valid 10) (some 1)
        (some repeatedTaskPayload) fun k => 200 + k).2.task_entries
      = [(41, 31), (42, 31), (43, 32), (200, 31)] :=
  ⟨(C18_natural_keys sharedDB (.valid 10) (some 3) (some 1) (some repeatedTaskPayload)
      (fun k => 200 + k) (by decide) (by decide)).1, by decide, by decide⟩

/-! ## Claims on insertion -/

/-- C19 (counterexample).  Section B of alice holds one task, whose order is
`2^63 - 1`.  `CreateTaskInt64` without an explicit order answers 201 and hands
the order `-2^63` to the INSERT, the wrapped sum of Go, where 1 plus the maximum
is `2^63`; and a body whose order `-2^63 - 1` is no value of Go's `int` is
refused with 400 and nothing is stored. -/
theorem C19_insert_at_end_counterexample :
    validateSectionOwnership largestOrderDB (.valid 22) "alice" = true
    ∧ taskOrders largestOrderDB 22 = [9223372036854775807]
    ∧ maxTaskOrder largestOrderDB 22 + 1 = 9223372036854775808
    ∧ CreateTaskInt64 largestOrderDB (some "alice") (.valid 22) (some exampleTaskRequest) 101
      = (.success 201,
          { largestOrderDB with tasks := largestOrderDB.tasks ++
              [⟨101, 22, "read", "", "boolean", true, false, false, 0,
                -9223372036854775808⟩] })
    ∧ CreateTaskInt64 exampleDB (some "alice") (.valid 22)
        (some { exampleTaskRequest with Order := -9223372036854775809 }) 101
      = (.failure 400 "Invalid request body", exampleDB) := by
  refine ⟨by decide, by decide, by decide, by decide, by decide⟩

/-- C19 (amended).  Insert at end for tasks: for the owner of a section for which
1 plus the maximum order among its tasks (the maximum being 0 when the section
has none) is a value of Go's `int`, `CreateTaskInt64` with a name and a type, with
body numbers that are values of Go's `int` and with `order <= 0` succeeds and
appends one task whose order is 1 plus that maximum (so the order 1 when the
section has no tasks); the existing rows are kept as they are, and task orders
that are exactly `1..N` become exactly `1..N+1`. -/
theorem C19_insert_at_end_tasks (db : DB) (userID : String) (sid : UUID)
    (req : CreateTaskRequest) (newID : UUID)
    (hown : validateSectionOwnership db (.valid sid) userID = true)
    (hname : req.Name ≠ "") (htype : req.TaskType ≠ "") (hord : req.Order ≤ 0)
    (hlimit : IsGoInt req.StrikesLimit) (horder : IsGoInt req.Order)
    (hnext : IsGoInt (maxTaskOrder db sid + 1)) :
    ∃ task, CreateTaskInt64 db (some userID) (.valid sid) (some req) newID
        = (.success 201, { db with tasks := db.tasks ++ [task] })
      ∧ task.ID = newID ∧ task.SectionID = sid
      ∧ task.Order = maxTaskOrder db sid + 1
      ∧ (taskOrders db sid = [] → task.Order = 1)
      ∧ (taskOrders db sid ≠ [] →
          maxTaskOrder db sid ∈ taskOrders db sid
          ∧ ∀ x ∈ taskOrders db sid, x ≤ maxTaskOrder db sid)
      ∧ taskOrders (CreateTaskInt64 db (some userID) (.valid sid) (some req) newID).2 sid
        = taskOrders db sid ++ [task.Order]
      ∧ (DenseOrders (taskOrders db sid) →
          DenseOrders
            (taskOrders (CreateTaskInt64 db (some userID) (.valid sid) (some req) newID).2 sid)
          ∧ (taskOrders (CreateTaskInt64 db (some userID) (.valid sid) (some req) newID).2
              sid).length = (taskOrders db sid).length + 1) := by
  have heq : CreateTaskInt64 db (some userID) (.valid sid) (some req) newID
      = (.success 201, { db with tasks := db.tasks ++
          [{ ID := newID, SectionID := sid, Name := req.Name, Description := req.Description,
             TaskType := req.TaskType, Required := req.Required,
             RestartOnFail := req.RestartOnFail, StrikesEnabled := req.StrikesEnabled,
             StrikesLimit :=
               if req.StrikesEnabled ∧ req.StrikesLimit ≤ 0 then 3 else req.StrikesLimit,
             Order := maxTaskOrder db sid + 1 }] }) := by
    rw [CreateTaskInt64_owner db userID sid req newID hown hname htype hlimit horder,
      if_pos hord, goAdd_eq _ _ hnext]
  have hmax : maxTaskOrder db sid = match taskOrders db sid with
      | [] => 0
      | o :: os => os.foldl max o := rfl
  refine ⟨_, heq, rfl, rfl, rfl, ?_, ?_, ?_, ?_⟩
  · intro hnil
    rw [hnil] at hmax
    simp [hmax]
  · intro hne
    cases hl : taskOrders db sid with
    | nil => exact absurd hl hne
    | cons o os =>
      rw [hl] at hmax
      rw [hmax]
      exact foldl_max_spec os o
  · rw [heq, taskOrders_append]
    simp
  · intro hd
    rw [heq, taskOrders_append]
    simp only [if_true, List.length_append, List.length_singleton, and_true]
    rw [maxTaskOrder_dense db sid hd]
    exact denseOrders_append_next _ hd

/-- C19 (witness).  A task created without an order in section A of the example
store, which holds the orders 1, 2, 3, gets the order 4. -/
theorem C19_insert_at_end_tasks_witness :
    ∃ task, CreateTaskInt64 exampleDB (some "alice") (.valid 21) (some exampleTaskRequest) 100
        = (.success 201, { exampleDB with tasks := exampleDB.tasks ++ [task] })
      ∧ task.Order = 4 :=
  let ⟨task, h1, _, _, h4, _⟩ := C19_insert_at_end_tasks exampleDB "alice" 21
    exampleTaskRequest 100 (by decide) (by decide) (by decide) (by decide) (by decide)
    (by decide) (by decide)
  ⟨task, h1, by rw [h4]; decide⟩

/-- C20 (code at the failing input).  `CreateSection` by the owner with a name
and without an order, on a challenge without sections and on the example
challenge whose sections have the orders 1..4: the order text handed to the
`INSERT` is `string(maxOrder + 1)`, the one-character text with that code point,
which is no integer, so the call answers 500 and stores nothing; with 48
sections the text is `"1"` and a section of order 1 is stored.  An explicit
order text is stored as given. -/
theorem C20_createSection_implicit_order :
    CreateSection (progressDB 1 []) (some "alice") (.valid 10) (some ⟨"A", "", ""⟩) 21
      = (.failure 500 "Failed to create section", progressDB 1 [])
    ∧ CreateSection (progressDB 1 []) (some "alice") (.valid 10) (some ⟨"A", "", "0"⟩) 21
      = (.failure 500 "Failed to create section", progressDB 1 [])
    ∧ maxSectionOrder exampleDB 10 = 4
    ∧ CreateSection exampleDB (some "alice") (.valid 10) (some ⟨"E", "", ""⟩) 25
      = (.failure 500 "Failed to create section", exampleDB)
    ∧ integerOfText (runeString (48 + 1)) = some 1
    ∧ sectionOrders (CreateSection exampleDB (some "alice") (.valid 10)
        (some ⟨"E", "", "5"⟩) 25).2 10 = [1, 2, 3, 4, 5] := by
  decide

/-! ## Claims on rejected moves and on the strikes default -/

/-- C21.  Move rejects non-positive targets: for every task owned by the caller
and every requested order `n <= 0`, `ReorderTask` answers 400 (with "Order must
be a positive integer", or with "Invalid request body" when `n` is below the
values of Go's `int`) and returns the store it received, so no order value of
any entity has changed; the same, on its own store, for every owned section and
`ReorderSection`. -/
theorem C21_move_rejects_nonpositive :
    (∀ (db : DB) (userID : String) (taskID : IDText) (n : Int),
      validateTaskOwnership db taskID userID = true → n ≤ 0 →
      ReorderTask db (some userID) taskID (some ⟨n⟩)
        = (.failure 400
            (if IsGoInt n then "Order must be a positive integer" else "Invalid request body"),
            db))
    ∧ (∀ (db : DB) (userID : String) (sectionID : IDText) (n : Int),
      validateSectionOwnership db sectionID userID = true → n ≤ 0 →
      ReorderSection db (some userID) sectionID (some ⟨n⟩)
        = (.failure 400
            (if IsGoInt n then "Order must be a positive integer" else "Invalid request body"),
            db)) := by
  constructor
  · intro db userID taskID n hown hn
    by_cases hint : IsGoInt n <;> simp [ReorderTask, hown, hn, hint]
  · intro db userID sectionID n hown hn
    by_cases hint : IsGoInt n <;> simp [ReorderSection, hown, hn, hint]

/-- C21 (witness).  Alice asks for the order 0 on her task `b` and for the order
-2 on her section `B`. -/
theorem C21_move_rejects_nonpositive_witness :
    ReorderTask exampleDB (some "alice") (.valid 32) (some ⟨0⟩)
      = (.failure 400 "Order must be a positive integer", exampleDB)
    ∧ ReorderSection exampleDB (some "alice") (.valid 22) (some ⟨-2⟩)
      = (.failure 400 "Order must be a positive integer", exampleDB) :=
  ⟨C21_move_rejects_nonpositive.1 exampleDB "alice" (.valid 32) 0 (by decide) (by decide),
   C21_move_rejects_nonpositive.2 exampleDB "alice" (.valid 22) (-2) (by decide) (by decide)⟩

/-- C26.  Strikes default: for every request that passes the validation of
`CreateTaskInt64` (the caller owns the section, the body decodes, its name and
type are not empty) the handler answers 201 and the store gains exactly one
task, which carries the submitted `strikes_enabled` and a `strikes_limit` that
is 3 when `strikes_enabled` is true and the submitted limit is `<= 0`, and the
submitted limit when `strikes_enabled` is true with a positive limit or is
false; and, on its own store, for every request that passes the validation of
`UpdateTask` (the caller owns the task, the body decodes, its name and type are
not empty) the handler answers 200, the task exists, its row carries the
submitted fields with a `strikes_limit` under the same rule, and every other
row is kept. -/
theorem C26_strikes_default :
    (∀ (db : DB) (userID : String) (sid : UUID) (create : CreateTaskRequest) (newID : UUID),
      validateSectionOwnership db (.valid sid) userID = true →
      create.Name ≠ "" → create.TaskType ≠ "" →
      IsGoInt create.StrikesLimit → IsGoInt create.Order →
      ∃ stored order,
        CreateTaskInt64 db (some userID) (.valid sid) (some create) newID
          = (.success 201, { db with tasks := db.tasks ++
              [{ ID := newID, SectionID := sid, Name := create.Name,
                 Description := create.Description, TaskType := create.TaskType,
                 Required := create.Required, RestartOnFail := create.RestartOnFail,
                 StrikesEnabled := create.StrikesEnabled, StrikesLimit := stored,
                 Order := order }] })
        ∧ (create.StrikesEnabled = true → create.StrikesLimit ≤ 0 → stored = 3)
        ∧ (create.StrikesEnabled = true → 0 < create.StrikesLimit →
            stored = create.StrikesLimit)
        ∧ (create.StrikesEnabled = false → stored = create.StrikesLimit))
    ∧ (∀ (db : DB) (userID : String) (u : UUID) (update : UpdateTaskRequest),
      validateTaskOwnership db (.valid u) userID = true →
      update.Name ≠ "" → update.TaskType ≠ "" → IsGoInt update.StrikesLimit →
      ∃ stored,
        UpdateTask db (some userID) (.valid u) (some update)
          = (.success 200, { db with tasks := db.tasks.map fun t =>
              if t.ID = u then
                { t with Name := update.Name, Description := update.Description,
                         TaskType := update.TaskType, Required := update.Required,
                         RestartOnFail := update.RestartOnFail,
                         StrikesEnabled := update.StrikesEnabled, StrikesLimit := stored }
              else t })
        ∧ (∃ t ∈ db.tasks, t.ID = u)
        ∧ (update.StrikesEnabled = true → update.StrikesLimit ≤ 0 → stored = 3)
        ∧ (update.StrikesEnabled = true → 0 < update.StrikesLimit →
            stored = update.StrikesLimit)
        ∧ (update.StrikesEnabled = false → stored = update.StrikesLimit)) := by
  constructor
  · intro db userID sid create newID hown hname htype hlimit horder
    refine ⟨_, _, CreateTaskInt64_owner db userID sid create newID hown hname htype hlimit horder,
      ?_, ?_, ?_⟩
    · intro he hl; simp [he, hl]
    · intro he hl; simp [he, not_le.mpr hl]
    · intro he; simp [he]
  · intro db userID u update hown hname htype hlimit
    obtain ⟨u2, hu2, hex⟩ := validateTaskOwnership_exists db _ userID hown
    cases hu2
    refine ⟨_, UpdateTask_owner db userID u update hown hname htype hlimit, hex, ?_, ?_, ?_⟩
    · intro he hl; simp [he, hl]
    · intro he hl; simp [he, not_le.mpr hl]
    · intro he; simp [he]

/-- The example task `b` updated with strikes enabled and no limit, and a task
created with strikes enabled and the limit 5. -/
theorem strikes_examples :
    ((UpdateTask exampleDB (some "alice") (.valid 32)
        (some ⟨"b", "", "boolean", true, false, true, 0⟩)).2.tasks.map
          fun t => (t.ID, t.StrikesEnabled, t.StrikesLimit))
      = [(31, false, 0), (32, true, 3), (33, false, 0)]
    ∧ ((CreateTaskInt64 exampleDB (some "alice") (.valid 22)
        (some ⟨"x", "", "boolean", true, false, true, 5, 0⟩) 100).2.tasks.map
          fun t => (t.ID, t.StrikesEnabled, t.StrikesLimit))
      = [(31, false, 0), (32, false, 0), (33, false, 0), (100, true, 5)] := by
  decide

/-- C26 (witness).  In the example store a task is created with strikes enabled
and no limit, and task `b` is updated with strikes enabled and no limit: both
calls succeed and the stored limit is 3. -/
theorem C26_strikes_default_witness :
    (∃ order, CreateTaskInt64 exampleDB (some "alice") (.valid 22)
          (some ⟨"x", "", "boolean", true, false, true, 0, 0⟩) 100
        = (.success 201, { exampleDB with tasks := exampleDB.tasks ++
            [⟨100, 22, "x", "", "boolean", true, false, true, 3, order⟩] }))
    ∧ UpdateTask exampleDB (some "alice") (.valid 32)
          (some ⟨"b", "", "boolean", true, false, true, 0⟩)
        = (.success 200, { exampleDB with tasks := exampleDB.tasks.map fun t =>
            if t.ID = 32 then
              { t with Name := "b", Description := "", TaskType := "boolean", Required := true,
                       RestartOnFail := false, StrikesEnabled := true, StrikesLimit := 3 }
            else t }) :=
  ⟨let ⟨stored, order, h1, h2, _⟩ := C26_strikes_default.1 exampleDB "alice" 22
      ⟨"x", "", "boolean", true, false, true, 0, 0⟩ 100 (by decide) (by decide) (by decide)
      (by decide) (by decide)
   ⟨order, by rw [h1, h2 rfl (by decide)]⟩,
   let ⟨stored, h1, _, h2, _⟩ := C26_strikes_default.2 exampleDB "alice" 32
      ⟨"b", "", "boolean", true, false, true, 0⟩ (by decide) (by decide) (by decide) (by decide)
   by rw [h1, h2 rfl (by decide)]⟩
/-! ## Claims on moves beyond the range, within the range, and there and back -/

/-- C22 (counterexample).  The tasks of section A have the orders 1, 2, 3 and the
sections of challenge 10 the orders 1, 2, 3, 4.  The target `2^63` is beyond
both, the `int` field of the body does not hold it, and `ReorderTask` and
`ReorderSection` answer 400 and move nothing. -/
theorem C22_move_beyond_last_counterexample :
    DenseOrders (taskOrders exampleDB 21) ∧ (taskOrders exampleDB 21).length = 3
    ∧ validateTaskOwnership exampleDB (.valid 31) "alice" = true
    ∧ ReorderTask exampleDB (some "alice") (.valid 31) (some ⟨9223372036854775808⟩)
      = (.failure 400 "Invalid request body", exampleDB)
    ∧ DenseOrders (sectionOrders exampleDB 10) ∧ (sectionOrders exampleDB 10).length = 4
    ∧ validateSectionOwnership exampleDB (.valid 22) "alice" = true
    ∧ ReorderSection exampleDB (some "alice") (.valid 22) (some ⟨9223372036854775808⟩)
      = (.failure 400 "Invalid request body", exampleDB) := by
  refine ⟨by decide, by decide, by decide, by decide, by decide, by decide, by decide,
    by decide⟩

/-- C22 (amended).  Move performs no clamping: in a store with distinct task
identifiers, for every task `E` owned by the caller whose sibling orders are
exactly `1..N` and every target `n > N` that is at most `2^63 - 1`, the largest
value of the `int` field of the body, `ReorderTask` succeeds, the task ends with
order exactly `n`, which is an order of the parent, the other siblings end with
orders exactly `1..N-1`, and every order of the parent is `n` or below `N`, so
that the values `N..n-1` are unused; the same, on its own store, for every
section `S` and `ReorderSection`. -/
theorem C22_move_beyond_last :
    (∀ (db : DB) (userID : String) (u : UUID) (E : Task) (n : Int),
      (db.tasks.map fun t => t.ID).Nodup →
      validateTaskOwnership db (.valid u) userID = true →
      selectTask db (.valid u) = some E →
      DenseOrders (taskOrders db E.SectionID) →
      ((taskOrders db E.SectionID).length : Int) < n → n ≤ goIntMax →
      (ReorderTask db (some userID) (.valid u) (some ⟨n⟩)).1 = .success 200
      ∧ selectTask (ReorderTask db (some userID) (.valid u) (some ⟨n⟩)).2 (.valid u)
          = some { E with Order := n }
      ∧ DenseOrders
          (otherTaskOrders (ReorderTask db (some userID) (.valid u) (some ⟨n⟩)).2 E.SectionID u)
      ∧ (otherTaskOrders (ReorderTask db (some userID) (.valid u) (some ⟨n⟩)).2
            E.SectionID u).length + 1 = (taskOrders db E.SectionID).length
      ∧ n ∈ taskOrders (ReorderTask db (some userID) (.valid u) (some ⟨n⟩)).2 E.SectionID
      ∧ ∀ x ∈ taskOrders (ReorderTask db (some userID) (.valid u) (some ⟨n⟩)).2 E.SectionID,
          x = n ∨ x < ((taskOrders db E.SectionID).length : Int))
    ∧ (∀ (db : DB) (userID : String) (v : UUID) (S : Section) (m : Int),
      (db.sections.map fun s => s.ID).Nodup →
      validateSectionOwnership db (.valid v) userID = true →
      selectSection db (.valid v) = some S →
      DenseOrders (sectionOrders db S.ChallengeID) →
      ((sectionOrders db S.ChallengeID).length : Int) < m → m ≤ goIntMax →
      (ReorderSection db (some userID) (.valid v) (some ⟨m⟩)).1 = .success 200
      ∧ selectSection (ReorderSection db (some userID) (.valid v) (some ⟨m⟩)).2 (.valid v)
          = some { S with Order := m }
      ∧ DenseOrders
          (otherSectionOrders (ReorderSection db (some userID) (.valid v) (some ⟨m⟩)).2
            S.ChallengeID v)
      ∧ (otherSectionOrders (ReorderSection db (some userID) (.valid v) (some ⟨m⟩)).2
            S.ChallengeID v).length + 1 = (sectionOrders db S.ChallengeID).length
      ∧ m ∈ sectionOrders (ReorderSection db (some userID) (.valid v) (some ⟨m⟩)).2
          S.ChallengeID
      ∧ ∀ x ∈ sectionOrders (ReorderSection db (some userID) (.valid v) (some ⟨m⟩)).2
            S.ChallengeID,
          x = m ∨ x < ((sectionOrders db S.ChallengeID).length : Int)) := by
  constructor
  · intro db userID u E n hids hown hE hd hn hmax
    exact ReorderTask_beyond_last db userID u n E hids hown hE hd hn
      ⟨by unfold goIntMin; omega, hmax⟩
  · intro db userID v S m hids hown hS hd hm hmax
    exact ReorderSection_beyond_last db userID v m S hids hown hS hd hm
      ⟨by unfold goIntMin; omega, hmax⟩

/-- C22 (witness).  In the example store task `a` (order 1 of 3) is moved to 7
and section `B` (order 2 of 4) to 9: the listings become `b:1, c:2, a:7` and
`A:1, C:2, D:3, B:9`. -/
theorem C22_move_beyond_last_witness :
    (ReorderTask exampleDB (some "alice") (.valid 31) (some ⟨7⟩)).1 = .success 200
    ∧ (ReorderSection exampleDB (some "alice") (.valid 22) (some ⟨9⟩)).1 = .success 200
    ∧ listTasks (ReorderTask exampleDB (some "alice") (.valid 31) (some ⟨7⟩)).2 21
        = [("b", 1), ("c", 2), ("a", 7)]
    ∧ listSections (ReorderSection exampleDB (some "alice") (.valid 22) (some ⟨9⟩)).2 10
        = [("A", 1), ("C", 2), ("D", 3), ("B", 9)] :=
  ⟨(C22_move_beyond_last.1 exampleDB "alice"
      31 ⟨31, 21, "a", "", "boolean", true, false, false, 0, 1⟩ 7 (by decide) (by decide)
      (by decide) (by decide) (by decide) (by decide)).1,
   (C22_move_beyond_last.2 exampleDB "alice"
      22 ⟨22, 10, "B", "", 2⟩ 9 (by decide) (by decide) (by decide) (by decide) (by decide)
      (by decide)).1,
   by decide, by decide⟩

/-- C27.  In-range Move is a permutation: in a store with distinct task
identifiers, for every task `E` owned by the caller whose sibling orders are
exactly `1..N` (`N` a value of Go's `int`) and every target `n` with
`1 <= n <= N` (the current order of the task included), `ReorderTask` succeeds,
the sibling orders are again exactly `1..N`, the task has order `n`, and any two
other siblings compare after the call as they did before; the same, on its own
store, for every section `S` and `ReorderSection`. -/
theorem C27_in_range_move :
    (∀ (db : DB) (userID : String) (u : UUID) (E : Task) (n : Int),
      (db.tasks.map fun t => t.ID).Nodup →
      validateTaskOwnership db (.valid u) userID = true →
      selectTask db (.valid u) = some E →
      DenseOrders (taskOrders db E.SectionID) →
      ((taskOrders db E.SectionID).length : Int) ≤ goIntMax →
      1 ≤ n → n ≤ ((taskOrders db E.SectionID).length : Int) →
      (ReorderTask db (some userID) (.valid u) (some ⟨n⟩)).1 = .success 200
      ∧ DenseOrders
          (taskOrders (ReorderTask db (some userID) (.valid u) (some ⟨n⟩)).2 E.SectionID)
      ∧ (taskOrders (ReorderTask db (some userID) (.valid u) (some ⟨n⟩)).2 E.SectionID).length
          = (taskOrders db E.SectionID).length
      ∧ selectTask (ReorderTask db (some userID) (.valid u) (some ⟨n⟩)).2 (.valid u)
          = some { E with Order := n }
      ∧ ∀ a b A B, a ≠ u → b ≠ u →
          selectTask db (.valid a) = some A → selectTask db (.valid b) = some B →
          A.SectionID = E.SectionID → B.SectionID = E.SectionID →
          ∃ A2 B2,
            selectTask (ReorderTask db (some userID) (.valid u) (some ⟨n⟩)).2 (.valid a)
              = some A2
            ∧ selectTask (ReorderTask db (some userID) (.valid u) (some ⟨n⟩)).2 (.valid b)
                = some B2
            ∧ (A2.Order < B2.Order ↔ A.Order < B.Order))
    ∧ (∀ (db : DB) (userID : String) (v : UUID) (S : Section) (m : Int),
      (db.sections.map fun s => s.ID).Nodup →
      validateSectionOwnership db (.valid v) userID = true →
      selectSection db (.valid v) = some S →
      DenseOrders (sectionOrders db S.ChallengeID) →
      ((sectionOrders db S.ChallengeID).length : Int) ≤ goIntMax →
      1 ≤ m → m ≤ ((sectionOrders db S.ChallengeID).length : Int) →
      (ReorderSection db (some userID) (.valid v) (some ⟨m⟩)).1 = .success 200
      ∧ DenseOrders
          (sectionOrders (ReorderSection db (some userID) (.valid v) (some ⟨m⟩)).2
            S.ChallengeID)
      ∧ (sectionOrders (ReorderSection db (some userID) (.valid v) (some ⟨m⟩)).2
            S.ChallengeID).length = (sectionOrders db S.ChallengeID).length
      ∧ selectSection (ReorderSection db (some userID) (.valid v) (some ⟨m⟩)).2 (.valid v)
          = some { S with Order := m }
      ∧ ∀ a b A B, a ≠ v → b ≠ v →
          selectSection db (.valid a) = some A → selectSection db (.valid b) = some B →
          A.ChallengeID = S.ChallengeID → B.ChallengeID = S.ChallengeID →
          ∃ A2 B2,
            selectSection (ReorderSection db (some userID) (.valid v) (some ⟨m⟩)).2 (.valid a)
              = some A2
            ∧ selectSection (ReorderSection db (some userID) (.valid v) (some ⟨m⟩)).2
                (.valid b) = some B2
            ∧ (A2.Order < B2.Order ↔ A.Order < B.Order)) := by
  constructor
  · intro db userID u E n hids hown hE hd hN h1 hn
    exact ReorderTask_in_range db userID u n E hids hown hE hd h1 hn
      ⟨by unfold goIntMin; omega, le_trans hn hN⟩
  · intro db userID v S m hids hown hS hd hN h1 hm
    exact ReorderSection_in_range db userID v m S hids hown hS hd h1 hm
      ⟨by unfold goIntMin; omega, le_trans hm hN⟩

/-- C27 (witness).  In the example store task `c` (order 3 of 3) is moved to 1
and section `B` (order 2 of 4) to its own order 2: the listings become
`c:1, a:2, b:3` and stay `A:1, B:2, C:3, D:4`. -/
theorem C27_in_range_move_witness :
    (ReorderTask exampleDB (some "alice") (.valid 33) (some ⟨1⟩)).1 = .success 200
    ∧ DenseOrders (taskOrders (ReorderTask exampleDB (some "alice") (.valid 33) (some ⟨1⟩)).2 21)
    ∧ (ReorderSection exampleDB (some "alice") (.valid 22) (some ⟨2⟩)).1 = .success 200
    ∧ DenseOrders
        (sectionOrders (ReorderSection exampleDB (some "alice") (.valid 22) (some ⟨2⟩)).2 10)
    ∧ listTasks (ReorderTask exampleDB (some "alice") (.valid 33) (some ⟨1⟩)).2 21
        = [("c", 1), ("a", 2), ("b", 3)]
    ∧ listSections (ReorderSection exampleDB (some "alice") (.valid 22) (some ⟨2⟩)).2 10
        = [("A", 1), ("B", 2), ("C", 3), ("D", 4)] :=
  have hT := C27_in_range_move.1 exampleDB "alice"
    33 ⟨33, 21, "c", "", "boolean", true, false, false, 0, 3⟩ 1 (by decide) (by decide)
    (by decide) (by decide) (by decide) (by decide) (by decide)
  have hS := C27_in_range_move.2 exampleDB "alice"
    22 ⟨22, 10, "B", "", 2⟩ 2 (by decide) (by decide) (by decide) (by decide) (by decide)
    (by decide) (by decide)
  ⟨hT.1, hT.2.1, hS.1, hS.2.1, by decide, by decide⟩

/-- C28 (counterexample).  Section `Z` was created with the explicit order -1, so
the section orders 1, 2, 3, 4, -1 of the challenge are pairwise distinct.  Moving
`Z` to 2 succeeds and leaves the orders 0, 1, 3, 4, 2; the move of `Z` back to
its former order -1 is refused with 400, so the original orders are not
restored.  And the positive target `2^63`, which the `int` field of the body
does not hold, is refused with 400 for task `a`, whose sibling orders 1, 2, 3
are pairwise distinct. -/
theorem C28_round_trip_counterexample :
    sectionOrders negativeOrderDB 10 = [1, 2, 3, 4, -1]
    ∧ (sectionOrders negativeOrderDB 10).Nodup
    ∧ selectSection negativeOrderDB (.valid 25) = some ⟨25, 10, "Z", "", -1⟩
    ∧ (ReorderSection negativeOrderDB (some "alice") (.valid 25) (some ⟨2⟩)).1 = .success 200
    ∧ sectionOrders (ReorderSection negativeOrderDB (some "alice") (.valid 25) (some ⟨2⟩)).2 10
        = [0, 1, 3, 4, 2]
    ∧ ReorderSection (ReorderSection negativeOrderDB (some "alice") (.valid 25) (some ⟨2⟩)).2
          (some "alice") (.valid 25) (some ⟨-1⟩)
        = (.failure 400 "Order must be a positive integer",
            (ReorderSection negativeOrderDB (some "alice") (.valid 25) (some ⟨2⟩)).2)
    ∧ (taskOrders exampleDB 21).Nodup
    ∧ ReorderTask exampleDB (some "alice") (.valid 31) (some ⟨9223372036854775808⟩)
        = (.failure 400 "Invalid request body", exampleDB) := by
  refine ⟨by decide, by decide, by decide, by decide, by decide, by decide, by decide,
    by decide⟩

/-- C28 (amended).  Move round trip: in a store with distinct task identifiers,
for every task `E` owned by the caller whose sibling orders are pairwise
distinct and whose order `c` is positive (and a value of the Go `int` it is read
into), and for every target `n > 0` that is at most `2^63 - 1`, the largest
value of the `int` field of the body (beyond the current maximum or not), the
move to `n` succeeds and the move back to `c` that follows it succeeds and
returns the store as it was before the two calls; the same, on its own store,
for every section `S` and `ReorderSection`. -/
theorem C28_move_round_trip :
    (∀ (db : DB) (userID : String) (u : UUID) (E : Task) (n : Int),
      (db.tasks.map fun t => t.ID).Nodup →
      (taskOrders db E.SectionID).Nodup →
      validateTaskOwnership db (.valid u) userID = true →
      selectTask db (.valid u) = some E →
      0 < E.Order → IsGoInt E.Order → 0 < n → n ≤ goIntMax →
      (ReorderTask db (some userID) (.valid u) (some ⟨n⟩)).1 = .success 200
      ∧ ReorderTask (ReorderTask db (some userID) (.valid u) (some ⟨n⟩)).2 (some userID)
          (.valid u) (some ⟨E.Order⟩) = (.success 200, db))
    ∧ (∀ (db : DB) (userID : String) (v : UUID) (S : Section) (m : Int),
      (db.sections.map fun s => s.ID).Nodup →
      (sectionOrders db S.ChallengeID).Nodup →
      validateSectionOwnership db (.valid v) userID = true →
      selectSection db (.valid v) = some S →
      0 < S.Order → IsGoInt S.Order → 0 < m → m ≤ goIntMax →
      (ReorderSection db (some userID) (.valid v) (some ⟨m⟩)).1 = .success 200
      ∧ ReorderSection (ReorderSection db (some userID) (.valid v) (some ⟨m⟩)).2 (some userID)
          (.valid v) (some ⟨S.Order⟩) = (.success 200, db)) := by
  constructor
  · intro db userID u E n hids hnd hown hE hc hintc hn hmax
    exact ReorderTask_round_trip db userID u n E hids hnd hown hE hn hc
      ⟨by unfold goIntMin; omega, hmax⟩ hintc
  · intro db userID v S m hids hnd hown hS hc hintc hm hmax
    exact ReorderSection_round_trip db userID v m S hids hnd hown hS hm hc
      ⟨by unfold goIntMin; omega, hmax⟩ hintc

/-- C28 (witness).  In the example store task `a` (order 1 of 3) is moved to 7
and back to 1, section `D` (order 4) to 2 and back to 4. -/
theorem C28_move_round_trip_witness :
    ReorderTask (ReorderTask exampleDB (some "alice") (.valid 31) (some ⟨7⟩)).2 (some "alice")
        (.valid 31) (some ⟨1⟩) = (.success 200, exampleDB)
    ∧ ReorderSection (ReorderSection exampleDB (some "alice") (.valid 24) (some ⟨2⟩)).2
        (some "alice") (.valid 24) (some ⟨4⟩) = (.success 200, exampleDB)
    ∧ listTasks (ReorderTask exampleDB (some "alice") (.valid 31) (some ⟨7⟩)).2 21
        = [("b", 1), ("c", 2), ("a", 7)] :=
  ⟨(C28_move_round_trip.1 exampleDB "alice"
      31 ⟨31, 21, "a", "", "boolean", true, false, false, 0, 1⟩ 7 (by decide) (by decide)
      (by decide) (by decide) (by decide) (by decide) (by decide) (by decide)).2,
   (C28_move_round_trip.2 exampleDB "alice"
      24 ⟨24, 10, "D", "", 4⟩ 2 (by decide) (by decide) (by decide) (by decide) (by decide)
      (by decide) (by decide) (by decide)).2,
   by decide⟩
/-! ## Claims on day gaps and on the bounds of the streak figures -/

/-- C25 (counterexample).  With the records `(1,true)` and `(3,true)` stored (no
record for day 2), `GetChallengeProgress` reports `longest_streak = 2` and
`current_streak = 2`, not 1 and 1. -/
theorem C25_day_gap_counterexample :
    streakRows (progressDB 4 [(1, true), (3, true)]) 10 = [⟨1, true⟩, ⟨3, true⟩]
    ∧ GetChallengeProgress (progressDB 4 [(1, true), (3, true)]) (some "alice") (.valid 10)
      = (.success 200, some { TotalDays := 75, CurrentDay := 4, CompletedDays := 2,
                              CurrentStreak := 2, LongestStreak := 2, Status := "active" }) := by
  decide

/-- C25 (amended).  A streak counts adjacent completed records whatever their day
numbers: a completed record raises the streak counter of the records before it
by 1 whatever its day number, a record that is not completed resets it to 0, so
`longest_streak` is the greatest length of a block of adjacent completed records
and is the same for two sequences with the same `completed` flags; for
`[(1,true),(3,true)]` the reported figures are `longest_streak = 2` and
`current_streak = 2`. -/
theorem C25_streak_ignores_day_numbers (challenge : Challenge) (completedDays : Nat)
    (entries entries2 : List ProgressEntry) :
    (∀ e, e.Completed = true →
      (calculateStreaks (entries ++ [e]) ⟨0, 0, 0⟩).streak
        = (calculateStreaks entries ⟨0, 0, 0⟩).streak + 1)
    ∧ (∀ e, e.Completed = false → (calculateStreaks (entries ++ [e]) ⟨0, 0, 0⟩).streak = 0)
    ∧ IsGreatest {k | HasCompletedBlock entries k}
        (progressOf challenge completedDays entries).LongestStreak
    ∧ ((entries.map fun e => e.Completed) = (entries2.map fun e => e.Completed) →
        (progressOf challenge completedDays entries).LongestStreak
          = (progressOf challenge completedDays entries2).LongestStreak)
    ∧ (progressOf challenge completedDays [⟨1, true⟩, ⟨3, true⟩]).LongestStreak = 2
    ∧ (progressOf challenge completedDays [⟨1, true⟩, ⟨3, true⟩]).CurrentStreak = 2 := by
  refine ⟨?_, ?_, calculateStreaks_longest_isGreatest entries, ?_, rfl, rfl⟩
  · intro e he
    rw [calculateStreaks_streak, calculateStreaks_streak, counterFrom_snoc, if_pos he]
  · intro e he
    rw [calculateStreaks_streak, counterFrom_snoc, he]
    rfl
  · intro hflags
    have h1 := calculateStreaks_longest_isGreatest entries
    have h2 := calculateStreaks_longest_isGreatest entries2
    have hset : {k | HasCompletedBlock entries k} = {k | HasCompletedBlock entries2 k} := by
      ext k
      simp only [Set.mem_setOf_eq, HasCompletedBlock, hflags]
    rw [hset] at h1
    exact h1.unique h2

/-- C25 (witness).  The sequences `[(1,true),(3,true)]` and `[(1,true),(2,true)]`
have the same longest streak, and the completed record of day 3 raises the
counter after `[(1,true)]` from 1 to 2. -/
theorem C25_streak_ignores_day_numbers_witness :
    (progressOf ⟨10, 1, "Hard 75", "", 4, "active"⟩ 2 [⟨1, true⟩, ⟨3, true⟩]).LongestStreak
      = (progressOf ⟨10, 1, "Hard 75", "", 4, "active"⟩ 2 [⟨1, true⟩, ⟨2, true⟩]).LongestStreak
    ∧ (calculateStreaks ([⟨1, true⟩] ++ [⟨3, true⟩]) ⟨0, 0, 0⟩).streak
      = (calculateStreaks [⟨1, true⟩] ⟨0, 0, 0⟩).streak + 1
    ∧ (calculateStreaks ([⟨1, true⟩] ++ [⟨3, false⟩]) ⟨0, 0, 0⟩).streak = 0 :=
  ⟨(C25_streak_ignores_day_numbers ⟨10, 1, "Hard 75", "", 4, "active"⟩ 2
      [⟨1, true⟩, ⟨3, true⟩] [⟨1, true⟩, ⟨2, true⟩]).2.2.2.1 (by decide),
   (C25_streak_ignores_day_numbers ⟨10, 1, "Hard 75", "", 4, "active"⟩ 2
      [⟨1, true⟩] []).1 ⟨3, true⟩ rfl,
   (C25_streak_ignores_day_numbers ⟨10, 1, "Hard 75", "", 4, "active"⟩ 2
      [⟨1, true⟩] []).2.1 ⟨3, false⟩ rfl⟩

/-- C29.  Streak bounds: the figures of a successful `GetChallengeProgress`
satisfy `0 <= current_streak <= longest_streak <= completed_days <= number of
records` of the challenge, and when every record of the challenge is completed
the three figures equal the number of records; the same holds for the figures
computed from any sequence of records and the count of its completed records. -/
theorem C29_streak_bounds (db : DB) (caller : Option String) (challengeID : IDText)
    (p : Progress) (challenge : Challenge) (entries : List ProgressEntry) :
    (GetChallengeProgress db caller challengeID = (.success 200, some p) →
      ∃ cid, challengeID = .valid cid
        ∧ 0 ≤ p.CurrentStreak ∧ p.CurrentStreak ≤ p.LongestStreak
        ∧ p.LongestStreak ≤ p.CompletedDays
        ∧ p.CompletedDays ≤ (streakRows db cid).length
        ∧ ((∀ e ∈ streakRows db cid, e.Completed = true) →
            p.CurrentStreak = (streakRows db cid).length
            ∧ p.LongestStreak = (streakRows db cid).length
            ∧ p.CompletedDays = (streakRows db cid).length))
    ∧ ((progressOf challenge (entries.filter fun e => e.Completed).length entries).CurrentStreak
          ≤ (progressOf challenge (entries.filter fun e => e.Completed).length
              entries).LongestStreak
      ∧ (progressOf challenge (entries.filter fun e => e.Completed).length entries).LongestStreak
          ≤ (entries.filter fun e => e.Completed).length
      ∧ (entries.filter fun e => e.Completed).length ≤ entries.length
      ∧ ((∀ e ∈ entries, e.Completed = true) →
          (progressOf challenge (entries.filter fun e => e.Completed).length
              entries).CurrentStreak = entries.length
          ∧ (progressOf challenge (entries.filter fun e => e.Completed).length
              entries).LongestStreak = entries.length
          ∧ (entries.filter fun e => e.Completed).length = entries.length)) := by
  have hseq : ∀ l : List ProgressEntry,
      (calculateStreaks l ⟨0, 0, 0⟩).currentStreak ≤ (calculateStreaks l ⟨0, 0, 0⟩).longestStreak
      ∧ (calculateStreaks l ⟨0, 0, 0⟩).longestStreak ≤ (l.filter fun e => e.Completed).length
      ∧ (l.filter fun e => e.Completed).length ≤ l.length
      ∧ ((∀ e ∈ l, e.Completed = true) →
          (calculateStreaks l ⟨0, 0, 0⟩).currentStreak = l.length
          ∧ (calculateStreaks l ⟨0, 0, 0⟩).longestStreak = l.length
          ∧ (l.filter fun e => e.Completed).length = l.length) := by
    intro l
    obtain ⟨_, b2, b3⟩ := calculateStreaks_bounds l ⟨0, 0, 0⟩ 0 (le_refl _) (le_refl _)
      (le_refl _)
    refine ⟨b2, by simpa using b3, List.length_filter_le _ _, ?_⟩
    intro hall
    have hfilter : (l.filter fun e => e.Completed) = l :=
      List.filter_eq_self.mpr fun e he => hall e he
    by_cases hne : l = []
    · subst hne
      exact ⟨rfl, rfl, rfl⟩
    · obtain ⟨_, a2, a3⟩ := calculateStreaks_all_completed l ⟨0, 0, 0⟩ hall rfl hne
      exact ⟨by simpa using a3, by simpa using a2, by rw [hfilter]⟩
  constructor
  · intro h
    obtain ⟨cid, ch, hid, hp⟩ := GetChallengeProgress_success db caller challengeID p h
    obtain ⟨s1, s2, s3, s4⟩ := hseq (streakRows db cid)
    rw [streakRows_completed db cid] at s2 s3 s4
    refine ⟨cid, hid, Nat.zero_le _, ?_, ?_, ?_, ?_⟩
    · rw [hp]; exact s1
    · rw [hp]; exact s2
    · rw [hp]; exact s3
    · intro hall
      rw [hp]
      exact s4 hall
  · exact hseq entries

/-- C29 (witness).  On the store with the records
`(4,true),(1,true),(3,false),(2,true)` the figures are 1, 2 and 3 for 4 records;
on the sequence `[(1,true),(2,true)]` of completed records the figures are 2. -/
theorem C29_streak_bounds_witness :
    (∃ cid, IDText.valid 10 = .valid cid
      ∧ 0 ≤ 1 ∧ 1 ≤ 2 ∧ 2 ≤ 3
      ∧ 3 ≤ (streakRows (progressDB 5 [(4, true), (1, true), (3, false), (2, true)])
          cid).length)
    ∧ (progressOf ⟨10, 1, "Hard 75", "", 3, "active"⟩
        (([⟨1, true⟩, ⟨2, true⟩] : List ProgressEntry).filter fun e => e.Completed).length
        [⟨1, true⟩, ⟨2, true⟩]).CurrentStreak = [(⟨1, true⟩ : ProgressEntry), ⟨2, true⟩].length
    ∧ (progressOf ⟨10, 1, "Hard 75", "", 3, "active"⟩
        (([⟨1, true⟩, ⟨2, true⟩] : List ProgressEntry).filter fun e => e.Completed).length
        [⟨1, true⟩, ⟨2, true⟩]).LongestStreak = [(⟨1, true⟩ : ProgressEntry), ⟨2, true⟩].length :=
  have h := C29_streak_bounds (progressDB 5 [(4, true), (1, true), (3, false), (2, true)])
    (some "alice") (.valid 10)
    { TotalDays := 75, CurrentDay := 5, CompletedDays := 3, CurrentStreak := 1,
      LongestStreak := 2, Status := "active" }
    ⟨10, 1, "Hard 75", "", 3, "active"⟩ [⟨1, true⟩, ⟨2, true⟩]
  have hall := h.2.2.2.2 (by decide)
  ⟨let ⟨cid, h1, h2, h3, h4, h5, _⟩ := h.1 (by decide)
   ⟨cid, h1, h2, h3, h4, h5⟩,
   hall.1, hall.2.1⟩

/-! ## Claims on the day ledger by day and on blocked advancement -/

/-- C23 (counterexample).  Alice's challenge 10 has records for the days 1 and 2
only; her `UpdateDailyEntry` for day 5 with a valid payload is answered with 404
"Entry not found" and creates no record. -/
theorem C23_upsert_by_day_counterexample :
    selectDailyEntry sharedDB 10 5 = none
    ∧ UpdateDailyEntry sharedDB (.valid 10) (some 5) (some 1) (some (examplePayload true))
        (fun k => 200 + k) = (.failure 404 "Entry not found", sharedDB) := by
  decide

/-- C23 (amended).  `UpdateDailyEntry` is update-only: for a challenge, its owner,
a day number and a valid payload, when a day record exists for `(challenge,
day)` the call succeeds, the record read for that key afterwards has the same
identifier and the submitted `completed`, notes, photo, energy and mood values,
and the keys of the day records are the same list as before (no record is
created); when no record exists the call answers 404 "Entry not found" and
leaves the store unchanged. -/
theorem C23_update_by_day (db : DB) (cid : UUID) (challenge : Challenge) (day : Int)
    (entryData : EntryData) (newUUID : Nat → UUID)
    (hc : (db.challenges.find? fun c => c.ID = cid) = some challenge)
    (hv : ValidPayload entryData) :
    (∀ e, selectDailyEntry db cid day = some e →
      (UpdateDailyEntry db (.valid cid) (some day) (some challenge.UserID) (some entryData)
        newUUID).1 = .success 200
      ∧ selectDailyEntry (UpdateDailyEntry db (.valid cid) (some day) (some challenge.UserID)
          (some entryData) newUUID).2 cid day
        = some (writtenRecord e.ID cid day entryData)
      ∧ dayKeys (UpdateDailyEntry db (.valid cid) (some day) (some challenge.UserID)
          (some entryData) newUUID).2 = dayKeys db)
    ∧ (selectDailyEntry db cid day = none →
      UpdateDailyEntry db (.valid cid) (some day) (some challenge.UserID) (some entryData)
        newUUID = (.failure 404 "Entry not found", db)) := by
  constructor
  · intro e hsel
    obtain ⟨t, ht⟩ := saveTaskEntries_ok e.ID newUUID entryData.TaskEntries hv 0 db.task_entries
    have heq : UpdateDailyEntry db (.valid cid) (some day) (some challenge.UserID)
        (some entryData) newUUID
        = (.success 200,
            { db with
              daily_entries := updateDailyEntryRow db.daily_entries e.ID entryData
              task_entries := t }) := by
      simp [UpdateDailyEntry, uuidParse, hc, hsel, ht]
    rw [heq]
    refine ⟨rfl, selectDailyEntry_written db cid day e entryData db.challenges t hsel, ?_⟩
    unfold dayKeys
    exact dayKeys_updateDailyEntryRow db.daily_entries e.ID entryData
  · intro hsel
    simp [UpdateDailyEntry, uuidParse, hc, hsel]

/-- C23 (witness).  Alice rewrites the record of day 1 of her challenge 10: the
record keeps the identifier 41 and carries the payload; for day 5, which has no
record, the call is answered with 404. -/
theorem C23_update_by_day_witness :
    (UpdateDailyEntry sharedDB (.valid 10) (some 1) (some 1) (some (examplePayload false))
        (fun k => 200 + k)).1 = .success 200
    ∧ selectDailyEntry (UpdateDailyEntry sharedDB (.valid 10) (some 1) (some 1)
        (some (examplePayload false)) (fun k => 200 + k)).2 10 1
      = some ⟨41, 10, 1, false, "done", "", 4, 5⟩
    ∧ UpdateDailyEntry sharedDB (.valid 10) (some 5) (some 1) (some (examplePayload false))
        (fun k => 200 + k) = (.failure 404 "Entry not found", sharedDB) :=
  have h := (C23_update_by_day sharedDB 10 ⟨10, 1, "Hard 75", "", 3, "active"⟩ 1
    (examplePayload false) (fun k => 200 + k) (by decide)
    (by intro td htd; simp [examplePayload] at htd)).1 ⟨41, 10, 1, true, "", "", 3, 3⟩
    (by decide)
  ⟨h.1, h.2.1,
   (C23_update_by_day sharedDB 10 ⟨10, 1, "Hard 75", "", 3, "active"⟩ 5
    (examplePayload false) (fun k => 200 + k) (by decide)
    (by intro td htd; simp [examplePayload] at htd)).2 (by decide)⟩

/-- C30.  A first incomplete submission blocks advancement: for an active
challenge at day `d` without record for day `d`, the owner's
`CreateOrUpdateTodayEntry` with a valid payload and `completed = false` succeeds
and creates the record of day `d`; after any sequence of further
`CreateOrUpdateTodayEntry` calls (by anyone, on any challenge, completed or not)
the challenge is still at day `d` and has exactly one record for day `d`, with
the identifier of the first; and a further successful call on the challenge
writes its payload to that record. -/
theorem C30_incomplete_first_blocks (db : DB) (cid : UUID) (challenge : Challenge)
    (p0 : EntryData) (newUUID0 : Nat → UUID)
    (hc : (db.challenges.find? fun c => c.ID = cid) = some challenge)
    (ha : challenge.Status = "active") (hv : ValidPayload p0) (hinc : p0.Completed = false)
    (hno : ¬ HasDayRecord db cid challenge.CurrentDay)
    (calls : List TodayCall) (later : TodayCall) (hlater : later.challengeID = .valid cid) :
    (CreateOrUpdateTodayEntry db (.valid cid) (some challenge.UserID) (some p0) newUUID0).1
      = .success 200
    ∧ SingleDayRecord
        (runTodayCalls
          (CreateOrUpdateTodayEntry db (.valid cid) (some challenge.UserID) (some p0)
            newUUID0).2 calls)
        cid challenge.CurrentDay (newUUID0 0)
    ∧ currentDayOf
        (runTodayCalls
          (CreateOrUpdateTodayEntry db (.valid cid) (some challenge.UserID) (some p0)
            newUUID0).2 (calls ++ [later]))
        cid = some challenge.CurrentDay
    ∧ ((CreateOrUpdateTodayEntry
          (runTodayCalls
            (CreateOrUpdateTodayEntry db (.valid cid) (some challenge.UserID) (some p0)
              newUUID0).2 calls)
          later.challengeID later.ctxUserID later.body later.newUUID).1.isSuccess = true →
        ∃ p, later.body = some p
          ∧ selectDailyEntry
              (CreateOrUpdateTodayEntry
                (runTodayCalls
                  (CreateOrUpdateTodayEntry db (.valid cid) (some challenge.UserID) (some p0)
                    newUUID0).2 calls)
                later.challengeID later.ctxUserID later.body later.newUUID).2
              cid challenge.CurrentDay
            = some (writtenRecord (newUUID0 0) cid challenge.CurrentDay p)) := by
  obtain ⟨hr, hsingle⟩ := first_incomplete_single db cid challenge p0 newUUID0 hc ha hv hinc hno
  have hrun := runTodayCalls_keeps_single calls _ cid challenge.CurrentDay (newUUID0 0) hsingle
  refine ⟨hr, hrun, ?_, ?_⟩
  · exact (runTodayCalls_keeps_single (calls ++ [later]) _ cid challenge.CurrentDay
      (newUUID0 0) hsingle).1
  · intro hs
    exact (today_keeps_single _ cid challenge.CurrentDay (newUUID0 0) hrun later.challengeID
      later.ctxUserID later.body later.newUUID).2 hlater hs

/-- C30 (witness).  On a challenge at day 1 without records, an incomplete
submission followed by two completed ones leaves the day at 1, and the second
completed submission is written to the record created by the first call. -/
theorem C30_incomplete_first_blocks_witness :
    currentDayOf
      (runTodayCalls
        (CreateOrUpdateTodayEntry (progressDB 1 []) (.valid 10) (some 1)
          (some (examplePayload false)) (fun k => 200 + k)).2
        ([⟨.valid 10, some 1, some (examplePayload true), fun k => 300 + k⟩]
          ++ [⟨.valid 10, some 1, some (examplePayload true), fun k => 400 + k⟩]))
      10 = some 1
    ∧ ∃ p, some (examplePayload true) = some p
      ∧ selectDailyEntry
          (CreateOrUpdateTodayEntry
            (runTodayCalls
              (CreateOrUpdateTodayEntry (progressDB 1 []) (.valid 10) (some 1)
                (some (examplePayload false)) (fun k => 200 + k)).2
              [⟨.valid 10, some 1, some (examplePayload true), fun k => 300 + k⟩])
            (.valid 10) (some 1) (some (examplePayload true)) (fun k => 400 + k)).2 10 1
        = some (writtenRecord 200 10 1 p) :=
  have h := C30_incomplete_first_blocks (progressDB 1 []) 10
    ⟨10, 1, "Hard 75", "", 1, "active"⟩
    (examplePayload false) (fun k => 200 + k) (by decide) (by decide)
    (by intro td htd; simp [examplePayload] at htd) (by decide) (by decide)
    [⟨.valid 10, some 1, some (examplePayload true), fun k => 300 + k⟩]
    ⟨.valid 10, some 1, some (examplePayload true), fun k => 400 + k⟩ rfl
  ⟨h.2.2.1, h.2.2.2 (by decide)⟩

/-- C24 (counterexample).  Alice creates a challenge in the empty store: it is
stored active at day 1 whatever the body says.  Her `UpdateChallenge` with a body
that carries `current_day = 0` and `status = "active"` succeeds: the challenge,
still active, is at day 0, below 1 and below the day before the call. -/
theorem C24_current_day_counterexample :
    createdDB.challenges = [⟨10, 1, "Hard 75", "", 1, "active"⟩]
    ∧ UpdateChallenge createdDB (some "alice") (.valid 10) (some ⟨"Hard 75", "", 0, "active"⟩)
      = (.success 200, { createdDB with challenges := [⟨10, 1, "Hard 75", "", 0, "active"⟩] })
    ∧ currentDayOf (UpdateChallenge createdDB (some "alice") (.valid 10)
        (some ⟨"Hard 75", "", 0, "active"⟩)).2 10 = some 0 := by
  decide

/-- C24 (amended).  `current_day` invariant, each part on its own store: in
every store reached from a store whose challenges are at day 1 or later (in
particular from a store without challenges) by successful calls of
`CreateChallenge`, `ResetChallenge`, `CreateOrUpdateTodayEntry`,
`UpdateDailyEntry` and of `UpdateChallenge` with a submitted `current_day >= 1`,
every challenge has `current_day >= 1`; `CreateChallenge`,
`CreateOrUpdateTodayEntry` and `UpdateDailyEntry` lower the `current_day` of no
challenge; `CreateChallenge` by a known user with a decoded body answers 201 and
appends one row, active at day 1 whatever the body says; and `UpdateChallenge`
by the owner with a decoded body answers 200 and writes the name, the
description, the `current_day` and the status of the body, as given, into the
rows of the challenge and into no other row, so that the challenge then has the
submitted `current_day` and status. -/
theorem C24_current_day_invariant :
    (∀ (db0 db : DB), (∀ c ∈ db0.challenges, 1 ≤ c.CurrentDay) → LedgerReachable db0 db →
      ∀ c ∈ db.challenges, 1 ≤ c.CurrentDay)
    ∧ (∀ (db : DB) (call : LedgerCall), call.neverLowers = true →
      ∀ cid d, currentDayOf db cid = some d →
        ∃ d2, currentDayOf (runLedgerCall db call).2 cid = some d2 ∧ d ≤ d2)
    ∧ (∀ (db : DB) (clerkID : String) (user : User) (b : ChallengeBody) (newID : UUID),
      selectUser db clerkID = some user → IsGoInt b.CurrentDay →
      CreateChallenge db (some clerkID) (some b) newID
        = (.success 201,
            { db with challenges := db.challenges ++
                [⟨newID, user.ID, b.Name, b.Description, 1, "active"⟩] }))
    ∧ (∀ (db : DB) (clerkID : String) (user : User) (cid : UUID) (c0 : Challenge)
        (b : ChallengeBody),
      selectUser db clerkID = some user →
      (db.challenges.find? fun c => c.ID = cid) = some c0 → c0.UserID = user.ID →
      IsGoInt b.CurrentDay →
      UpdateChallenge db (some clerkID) (.valid cid) (some b)
        = (.success 200,
            { db with challenges := db.challenges.map fun c =>
                if c.ID = cid ∧ c.UserID = user.ID then
                  { c with Name := b.Name, Description := b.Description,
                           CurrentDay := b.CurrentDay, Status := b.Status }
                else c })
      ∧ ((UpdateChallenge db (some clerkID) (.valid cid) (some b)).2.challenges.find?
            fun c => c.ID = cid)
          = some { c0 with Name := b.Name, Description := b.Description,
                           CurrentDay := b.CurrentDay, Status := b.Status }
      ∧ currentDayOf (UpdateChallenge db (some clerkID) (.valid cid) (some b)).2 cid
          = some b.CurrentDay) := by
  refine ⟨fun db0 db h0 hreach => ledgerReachable_day_inv db0 db h0 hreach,
    fun db call hn cid d hd => runLedgerCall_monotone db call hn cid d hd, ?_, ?_⟩
  · intro db clerkID user b newID hu hint
    simp only [CreateChallenge, hu, hint, not_true_eq_false, if_false]
  · intro db clerkID user cid c0 b hu hc0 hown hint
    have hmem := List.mem_of_find?_eq_some hc0
    have hid : c0.ID = cid := by simpa using List.find?_some hc0
    have hany : (db.challenges.any fun c => c.ID = cid ∧ c.UserID = user.ID) = true := by
      simp only [List.any_eq_true, decide_eq_true_eq]
      exact ⟨c0, hmem, hid, hown⟩
    have heq : UpdateChallenge db (some clerkID) (.valid cid) (some b)
        = (.success 200,
            { db with challenges := db.challenges.map fun c =>
                if c.ID = cid ∧ c.UserID = user.ID then
                  { c with Name := b.Name, Description := b.Description,
                           CurrentDay := b.CurrentDay, Status := b.Status }
                else c }) := by
      simp only [UpdateChallenge, hu, hany, hint, not_true_eq_false, if_false,
        Bool.true_eq_false]
    have hfind : ((UpdateChallenge db (some clerkID) (.valid cid) (some b)).2.challenges.find?
          fun c => c.ID = cid)
        = some { c0 with Name := b.Name, Description := b.Description,
                         CurrentDay := b.CurrentDay, Status := b.Status } := by
      rw [heq]
      simp only
      rw [find_map_of_preserved _ _ (fun c => by split_ifs <;> rfl), hc0]
      simp [hid, hown]
    refine ⟨heq, hfind, ?_⟩
    unfold currentDayOf
    rw [hfind]
    rfl

/-- C24 (witness).  In the store reached from the empty store by alice's
`CreateChallenge` the challenge is at day 1, a completed submission for today
does not lower its day, and alice's `UpdateChallenge` with the day 5 and the
status "completed" stores both. -/
theorem C24_current_day_invariant_witness :
    createdDB.challenges = [⟨10, 1, "Hard 75", "", 1, "active"⟩]
    ∧ (1 : Int) ≤ (Challenge.mk 10 1 "Hard 75" "" 1 "active").CurrentDay
    ∧ (∃ d2, currentDayOf (runLedgerCall createdDB
          (.today (.valid 10) (some 1) (some (examplePayload true)) fun k => 200 + k)).2 10
        = some d2 ∧ 1 ≤ d2)
    ∧ CreateChallenge emptyDB (some "alice") (some ⟨"Hard 75", "", 40, "failed"⟩) 10
        = (.success 201,
            { emptyDB with challenges := emptyDB.challenges ++
                [⟨10, 1, "Hard 75", "", 1, "active"⟩] })
    ∧ ((UpdateChallenge createdDB (some "alice") (.valid 10)
          (some ⟨"Hard 75", "", 5, "completed"⟩)).2.challenges.find? fun c => c.ID = 10)
        = some ⟨10, 1, "Hard 75", "", 5, "completed"⟩ :=
  ⟨by decide,
   C24_current_day_invariant.1 emptyDB createdDB (by decide)
    (LedgerReachable.step emptyDB
      (.createChallenge (some "alice") (some ⟨"Hard 75", "", 40, "failed"⟩) 10)
      LedgerReachable.start rfl (by decide)) ⟨10, 1, "Hard 75", "", 1, "active"⟩ (by decide),
   C24_current_day_invariant.2.1 createdDB
    (.today (.valid 10) (some 1) (some (examplePayload true)) fun k => 200 + k) rfl 10 1
    (by decide),
   C24_current_day_invariant.2.2.1 emptyDB "alice" ⟨1, "alice"⟩ ⟨"Hard 75", "", 40, "failed"⟩ 10
    (by decide) (by decide),
   (C24_current_day_invariant.2.2.2 createdDB "alice" ⟨1, "alice"⟩ 10
    ⟨10, 1, "Hard 75", "", 1, "active"⟩ ⟨"Hard 75", "", 5, "completed"⟩
    (by decide) (by decide) (by decide) (by decide)).2.1⟩

end HardInfinity
